import Mathlib

/-!
# CloudNativeSE: the vote-casting workflow, the entity repositories, the history append

A shallow embedding of `src/FinalProject/VoteAPI/vote.go`, of the handlers of
`src/FinalProject/VoteAPI/main.go`, of `src/FinalProject/PollApi/poll.go`, of
`src/FinalProject/VoterAPI/voter.go`, and of the history append of
`src/Voter-Container/api/api.go` with `src/Voter-Container/voter/voter.go`.

Modelling conventions.

* Go `uint` is a natural number below `2 ^ 64`; `+ 1` on it is taken modulo `2 ^ 64`
  and the conversion `int(u)` is the two's-complement reading.
* A Go `error` is an `Option String`: `none` is `nil`.
* The document store (Redis with the ReJSON module) is a function from keys to JSON
  values.  `JSONGet` on an absent key answers the error `redis: nil`.  A store call that
  fails leaves the store as it was.
* Everything outside the process (the store's availability, the Voter and Poll
  services, the clock) answers through a `World` record that fixes the outcome of each
  call the function can make; the requests that are issued are recorded, in order, in a
  trace.  One call of a client library is one request; of what the library does to carry
  it out, only the parsing of the URL is modelled: resty refuses a URL with an invalid
  percent escape before anything is sent (`Execute`).
* A slice is a header on a backing array of a heap, so that a decode target that is used
  again shares its array with the copies made of it; a function returns what its result
  shows on the heap it leaves.
* A `time.Time` is the RFC 3339 text it is written as; the parser of package `time` is a
  parameter.
* `log.Println` is not modelled.
-/

namespace VoteAPI

/-! ## JSON documents and `encoding/json` -/

/-- JSON values as the store returns them.  A numeric literal with a fraction or an
exponent is kept as text in `real`; `num` is an integer literal. -/
inductive JSON where
  | null
  | bool (b : Bool)
  | num (n : Int)
  | real (lit : String)
  | str (s : String)
  | arr (items : List JSON)
  | obj (fields : List (String × JSON))

/-- Go's `u + 1` on `uint` (64 bits). -/
def uintSucc (u : Nat) : Nat := (u + 1) % 18446744073709551616

/-- Go's conversion `int(u)` of a `uint`. -/
def toInt (u : Nat) : Int :=
  if u < 9223372036854775808 then (u : Int) else (u : Int) - 18446744073709551616

/-- Case folding of one character of a JSON object key: ASCII letters fold to lower
case, and the two non-ASCII characters that fold onto an ASCII letter, the long s and the
Kelvin sign, fold to `s` and `k`. -/
def foldRune (c : Char) : Char :=
  if c = Char.ofNat 0x17F then 's' else if c = Char.ofNat 0x212A then 'k' else c.toLower

/-- Case folding of a JSON object key, as `encoding/json` applies it when it looks for
the struct field of a key.  Two names select the same field exactly when their folds are
equal (all field tags of this repository are ASCII). -/
def foldName (s : String) : String := String.mk (s.data.map foldRune)

/-- The decoder records the first type error and keeps decoding. -/
def saveError (saved new : Option String) : Option String :=
  match saved with
  | some e => some e
  | none => new

/-- The `json.Unmarshal` step that stores a JSON value into a `uint` that holds `old`:
`null` leaves the target alone, an integer literal in range is stored, everything else is
an `UnmarshalTypeError` and leaves the target alone. -/
def unmarshalUint (v : JSON) (old : Nat) : Nat × Option String :=
  match v with
  | .null => (old, none)
  | .num n =>
    if 0 ≤ n ∧ n < 18446744073709551616 then (n.toNat, none)
    else (old, some "json: cannot unmarshal number into Go value of type uint")
  | .real _ => (old, some "json: cannot unmarshal number into Go value of type uint")
  | .bool _ => (old, some "json: cannot unmarshal bool into Go value of type uint")
  | .str _ => (old, some "json: cannot unmarshal string into Go value of type uint")
  | .arr _ => (old, some "json: cannot unmarshal array into Go value of type uint")
  | .obj _ => (old, some "json: cannot unmarshal object into Go value of type uint")

/-- The struct `Vote` of vote.go. -/
structure Vote where
  VoteID : Nat := 0
  VoterID : Nat := 0
  PollID : Nat := 0
  VoteValue : Nat := 0
deriving DecidableEq, Repr

/-- The members of a JSON object are decoded in order into the `Vote` the caller handed
in: a key selects the field whose tag it equals up to case, a key that selects none is
skipped, a field no key selects keeps the value it had. -/
def unmarshalVoteFields : List (String × JSON) → Vote → Option String → Vote × Option String
  | [], v, e => (v, e)
  | (k, x) :: rest, v, e =>
    if foldName k = foldName "voteID" then
      unmarshalVoteFields rest { v with VoteID := (unmarshalUint x v.VoteID).1 }
        (saveError e (unmarshalUint x v.VoteID).2)
    else if foldName k = foldName "voterID" then
      unmarshalVoteFields rest { v with VoterID := (unmarshalUint x v.VoterID).1 }
        (saveError e (unmarshalUint x v.VoterID).2)
    else if foldName k = foldName "pollID" then
      unmarshalVoteFields rest { v with PollID := (unmarshalUint x v.PollID).1 }
        (saveError e (unmarshalUint x v.PollID).2)
    else if foldName k = foldName "voteValue" then
      unmarshalVoteFields rest { v with VoteValue := (unmarshalUint x v.VoteValue).1 }
        (saveError e (unmarshalUint x v.VoteValue).2)
    else unmarshalVoteFields rest v e

/-- The call `json.Unmarshal(bytes, vote)` for a `*Vote`. -/
def unmarshalVote (doc : JSON) (vote : Vote) : Vote × Option String :=
  match doc with
  | .null => (vote, none)
  | .obj fields => unmarshalVoteFields fields vote none
  | .bool _ => (vote, some "json: cannot unmarshal bool into Go value of type main.Vote")
  | .num _ => (vote, some "json: cannot unmarshal number into Go value of type main.Vote")
  | .real _ => (vote, some "json: cannot unmarshal number into Go value of type main.Vote")
  | .str _ => (vote, some "json: cannot unmarshal string into Go value of type main.Vote")
  | .arr _ => (vote, some "json: cannot unmarshal array into Go value of type main.Vote")

/-- The document `json.Marshal` produces for a `Vote` (field tags of vote.go). -/
def marshalVote (v : Vote) : JSON :=
  .obj [("voteID", .num v.VoteID), ("voterID", .num v.VoterID),
        ("pollID", .num v.PollID), ("voteValue", .num v.VoteValue)]

/-! ## The document store -/

def RedisNilError : String := "redis: nil"
def RedisDefaultLocation : String := "0.0.0.0:6379"
def RedisKeyPrefix : String := "vote:"
def RedisIDKey : String := "voteCnt:"
def VoterDefaultLocation : String := "0.0.0.0:2080"
def PollDefaultLocation : String := "0.0.0.0:3080"

/-- The documents of the store, by key. -/
abbrev Redis := String → Option JSON

/-- The store with no document. -/
def Redis.empty : Redis := fun _ => none

/-- The call `jsonHelper.JSONGet(key, ".")`; `fault` is the error of a call that does
not reach the store. -/
def JSONGet (fault : Option String) (db : Redis) (key : String) : Except String JSON :=
  match fault with
  | some e => .error e
  | none =>
    match db key with
    | none => .error RedisNilError
    | some doc => .ok doc

/-- The call `jsonHelper.JSONSet(key, ".", doc)`: the store after it and its error. -/
def JSONSet (fault : Option String) (db : Redis) (key : String) (doc : JSON) :
    Redis × Option String :=
  match fault with
  | some e => (db, some e)
  | none => (fun k => if k = key then some doc else db k, none)

/-- The function `redisKeyFromId` of vote.go: `fmt.Sprintf("%s%d", RedisKeyPrefix, id)`. -/
def redisKeyFromId (id : Int) : String := RedisKeyPrefix ++ toString id

/-- The method `getVoteFromRedis`: the value left in `*vote` and the error. -/
def getVoteFromRedis (fault : Option String) (db : Redis) (key : String) (vote : Vote) :
    Vote × Option String :=
  match JSONGet fault db key with
  | .error e => (vote, some e)
  | .ok doc => unmarshalVote doc vote

/-! ## Collaborators -/

/-- What a `resty` request returns: a transport error, or a response with its status. -/
inductive Resp where
  | fail (e : String)
  | status (code : Nat)
deriving DecidableEq, Repr

/-- A request that leaves the process. -/
inductive Effect where
  | jsonGet (key : String)
  | httpGet (url : String)
  | httpPost (url : String)
  | jsonSet (key : String) (doc : JSON)

/-- The outcome of each call one `AddVote` can make, in the order it makes them; for the
three HTTP requests it is what the network answers to a request that is sent.  `verbs`
is `fmt.Sprintf(format, "/", pollID)` on a format that contains a `%`, which is left to
the library. -/
structure World where
  slotGet : Option String
  voterGet : Resp
  pollGet : Resp
  histPost : Resp
  voteSet : Option String
  cntSet : Option String
  verbs : String → Nat → String

/-- The struct `VoteApi`: `cacheClient` is the address the client was opened on, `none`
for the nil client of `&VoteApi{}`. -/
structure VoteApi where
  cacheClient : Option String := none
  VoterUrl : String := ""
  PollUrl : String := ""
  idCnter : Nat := 0
deriving DecidableEq, Repr

/-- The call `fmt.Sprint(base, segment, id)` with two strings and a `uint`: no blank is
put next to a string operand. -/
def Sprint (base segment : String) (id : Nat) : String := base ++ segment ++ toString id

/-- The call `fmt.Sprintf(format, "/", pollID)`: both operands are left over when the
format holds no verb, and are reported after the text. -/
def Sprintf (verbs : String → Nat → String) (format : String) (pollID : Nat) : String :=
  if '%' ∈ format.data then verbs format pollID
  else format ++ "%!(EXTRA string=/, uint=" ++ toString pollID ++ ")"

/-- The test `ishex` of package `net/url`. -/
def ishex (c : Char) : Bool :=
  ('0' ≤ c ∧ c ≤ '9') || ('a' ≤ c ∧ c ≤ 'f') || ('A' ≤ c ∧ c ≤ 'F')

/-- The check `url.Parse` makes of the escapes of a URL: every `%` is followed by two
hexadecimal digits. -/
def validEscapes : List Char → Bool
  | [] => true
  | c :: rest =>
    if c = '%' then
      match rest with
      | a :: b :: rest1 => ishex a && ishex b && validEscapes rest1
      | _ => false
    else validEscapes rest

/-- What `resty` returns for a request to `url`: it parses the URL before it sends
anything and returns the error of `url.Parse` when an escape of the URL is refused;
otherwise the request is sent and `answer` is what comes back. -/
def Execute (url : String) (answer : Resp) : Resp :=
  if validEscapes url.data then answer
  else .fail ("parse " ++ url ++ ": invalid URL escape")

/-- What a call of `AddVote` leaves behind: the returned pair, the receiver, the store
and the requests issued. -/
structure Outcome where
  vote : Vote
  err : Option String
  api : VoteApi
  db : Redis
  trace : List Effect

/-- The local `redisKey` of `AddVote`: `redisKeyFromId(int(t.idCnter + 1))`. -/
def AddVote.redisKey (t : VoteApi) : String := redisKeyFromId (toInt (uintSucc t.idCnter))

/-- The local `voterUrl` of `AddVote`: `fmt.Sprint(t.VoterUrl, "/voter/", voterID)`. -/
def AddVote.voterUrl (t : VoteApi) (voterID : Nat) : String :=
  Sprint t.VoterUrl "/voter/" voterID

/-- The local `pollUrl` of `AddVote`: `fmt.Sprint(t.PollUrl, "/poll/", pollID)`. -/
def AddVote.pollUrl (t : VoteApi) (pollID : Nat) : String := Sprint t.PollUrl "/poll/" pollID

/-- The local `voterNewPollUrl` of `AddVote`: `fmt.Sprintf(voterUrl, "/", pollID)`. -/
def AddVote.voterNewPollUrl (w : World) (t : VoteApi) (voterID pollID : Nat) : String :=
  Sprintf w.verbs (AddVote.voterUrl t voterID) pollID

/-- What `t.apiClient.R().Get(voterUrl)` returns in `AddVote`. -/
def AddVote.voterResp (w : World) (t : VoteApi) (voterID : Nat) : Resp :=
  Execute (AddVote.voterUrl t voterID) w.voterGet

/-- What `t.apiClient.R().Get(pollUrl)` returns in `AddVote`. -/
def AddVote.pollResp (w : World) (t : VoteApi) (pollID : Nat) : Resp :=
  Execute (AddVote.pollUrl t pollID) w.pollGet

/-- What the `Post(voterNewPollUrl)` of `AddVote` returns. -/
def AddVote.postResp (w : World) (t : VoteApi) (voterID pollID : Nat) : Resp :=
  Execute (AddVote.voterNewPollUrl w t voterID pollID) w.histPost

/-- The local `newVote` of `AddVote`. -/
def AddVote.newVote (t : VoteApi) (voterID pollID value : Nat) : Vote :=
  { VoteID := uintSucc t.idCnter, VoterID := voterID, PollID := pollID, VoteValue := value }

/-- The method `AddVote` of vote.go. -/
def AddVote (w : World) (t : VoteApi) (db : Redis) (voterID pollID value : Nat) : Outcome :=
  let redisKey := AddVote.redisKey t
  match (getVoteFromRedis w.slotGet db redisKey {}).2 with
  | none => ⟨{}, some "Vote already exists!", t, db, [.jsonGet redisKey]⟩
  | some _ =>
    let voterUrl := AddVote.voterUrl t voterID
    match AddVote.voterResp w t voterID with
    | .fail e => ⟨{}, some e, t, db, [.jsonGet redisKey, .httpGet voterUrl]⟩
    | .status voterCode =>
      if voterCode = 404 then
        ⟨{}, some "The voter submitting a vote does not exist!!", t, db,
          [.jsonGet redisKey, .httpGet voterUrl]⟩
      else
        let pollUrl := AddVote.pollUrl t pollID
        match AddVote.pollResp w t pollID with
        | .fail e => ⟨{}, some e, t, db, [.jsonGet redisKey, .httpGet voterUrl, .httpGet pollUrl]⟩
        | .status pollCode =>
          if pollCode = 404 then
            ⟨{}, some "The poll you are trying to vote in does not exist!!", t, db,
              [.jsonGet redisKey, .httpGet voterUrl, .httpGet pollUrl]⟩
          else
            let voterNewPollUrl := AddVote.voterNewPollUrl w t voterID pollID
            match AddVote.postResp w t voterID pollID with
            | .fail _ =>
              ⟨{}, some "Could not connect to voter-api to post new poll history", t, db,
                [.jsonGet redisKey, .httpGet voterUrl, .httpGet pollUrl,
                 .httpPost voterNewPollUrl]⟩
            | .status _ =>
              let newVote := AddVote.newVote t voterID pollID value
              match JSONSet w.voteSet db redisKey (marshalVote newVote) with
              | (db1, some e) =>
                ⟨{}, some e, t, db1,
                  [.jsonGet redisKey, .httpGet voterUrl, .httpGet pollUrl,
                   .httpPost voterNewPollUrl, .jsonSet redisKey (marshalVote newVote)]⟩
              | (db1, none) =>
                let t1 : VoteApi := { t with idCnter := uintSucc t.idCnter }
                match JSONSet w.cntSet db1 RedisIDKey (.num t1.idCnter) with
                | (db2, some e) =>
                  ⟨{}, some e, t1, db2,
                    [.jsonGet redisKey, .httpGet voterUrl, .httpGet pollUrl,
                     .httpPost voterNewPollUrl, .jsonSet redisKey (marshalVote newVote),
                     .jsonSet RedisIDKey (.num t1.idCnter)]⟩
                | (db2, none) =>
                  ⟨newVote, none, t1, db2,
                    [.jsonGet redisKey, .httpGet voterUrl, .httpGet pollUrl,
                     .httpPost voterNewPollUrl, .jsonSet redisKey (marshalVote newVote),
                     .jsonSet RedisIDKey (.num t1.idCnter)]⟩

/-- The method `GetVote` of vote.go. -/
def GetVote (fault : Option String) (db : Redis) (voteID : Int) : Vote × Option String :=
  match getVoteFromRedis fault db (redisKeyFromId voteID) {} with
  | (_, some e) => ({}, some e)
  | (vote, none) => (vote, none)

/-- The outcome of the calls one `GetAllVotes` can make: the key scan, and the fault of
the read of each key. -/
structure ListWorld where
  keys : Except String (List String)
  fault : String → Option String

/-- The loop of `GetAllVotes`: `vt` is the one decode target, `voteList` the slice. -/
def GetAllVotesLoop (fault : String → Option String) (db : Redis) :
    List String → Vote → List Vote → List Vote × Option String
  | [], _, voteList => (voteList, none)
  | key :: ks, vt, voteList =>
    match getVoteFromRedis (fault key) db key vt with
    | (_, some e) => ([], some e)
    | (vt1, none) => GetAllVotesLoop fault db ks vt1 (voteList ++ [vt1])

/-- The method `GetAllVotes` of vote.go; the error of the key scan is dropped
(`ks, _ :=`), which leaves `ks` empty. -/
def GetAllVotes (lw : ListWorld) (db : Redis) : List Vote × Option String :=
  let ks := match lw.keys with
    | .ok ks => ks
    | .error _ => []
  GetAllVotesLoop lw.fault db ks {} []

/-! ## Start-up -/

/-- The process environment and the store's availability at start-up: `env` gives the
variables that are set, `ping` the error of `client.Ping`, `cntGet` the fault of the read
of the counter document. -/
structure Boot where
  env : String → Option String
  ping : Option String
  cntGet : Option String

/-- The call `os.Getenv(name)`: the empty string for a variable that is not set. -/
def Getenv (env : String → Option String) (name : String) : String :=
  match env name with
  | some v => v
  | none => ""

/-- The function `NewDbWithInstance` of vote.go; the `nil` it returns beside an error is
rendered as the zero `VoteApi`. -/
def NewDbWithInstance (ping : Option String) (location : String) : VoteApi × Option String :=
  match ping with
  | some e => ({}, some e)
  | none => ({ cacheClient := some location }, none)

/-- The function `NewVoteApi` of vote.go. -/
def NewVoteApi (b : Boot) (db : Redis) : VoteApi × Option String :=
  let redisUrl := Getenv b.env "REDIS_URL"
  let redisUrl := if redisUrl = "" then RedisDefaultLocation else redisUrl
  let voterUrl := Getenv b.env "VOTER_URL"
  let redisUrl := if redisUrl = "" then VoterDefaultLocation else redisUrl
  let pollUrl := Getenv b.env "POLL_URL"
  let pollUrl := if pollUrl = "" then PollDefaultLocation else pollUrl
  match NewDbWithInstance b.ping redisUrl with
  | (_, some e) => ({}, some e)
  | (api, none) =>
    let api : VoteApi := { api with VoterUrl := voterUrl, PollUrl := pollUrl }
    match JSONGet b.cntGet db RedisIDKey with
    | .error _ => (api, none)
    | .ok itemObject =>
      match unmarshalUint itemObject api.idCnter with
      | (_, some e) => ({}, some e)
      | (n, none) => ({ api with idCnter := n }, none)

/-! ## The HTTP handlers of main.go -/

/-- The struct the POST /vote handler declares locally under the name `Vote`; its first
field carries the tag `voteID`. -/
structure PostVoteBody where
  VoterID : Nat := 0
  PollID : Nat := 0
  VoteValue : Nat := 0
deriving DecidableEq, Repr

/-- Decoding of the members of a JSON object into the handler's struct (tags `voteID`,
`pollID`, `voteValue`). -/
def unmarshalPostVoteFields :
    List (String × JSON) → PostVoteBody → Option String → PostVoteBody × Option String
  | [], v, e => (v, e)
  | (k, x) :: rest, v, e =>
    if foldName k = foldName "voteID" then
      unmarshalPostVoteFields rest { v with VoterID := (unmarshalUint x v.VoterID).1 }
        (saveError e (unmarshalUint x v.VoterID).2)
    else if foldName k = foldName "pollID" then
      unmarshalPostVoteFields rest { v with PollID := (unmarshalUint x v.PollID).1 }
        (saveError e (unmarshalUint x v.PollID).2)
    else if foldName k = foldName "voteValue" then
      unmarshalPostVoteFields rest { v with VoteValue := (unmarshalUint x v.VoteValue).1 }
        (saveError e (unmarshalUint x v.VoteValue).2)
    else unmarshalPostVoteFields rest v e

/-- The call `c.ShouldBindJSON(&vote)` of the POST /vote handler; `none` is a body that
is not a JSON text. -/
def ShouldBindJSON (body : Option JSON) : PostVoteBody × Option String :=
  match body with
  | none => ({}, some "invalid request")
  | some .null => ({}, none)
  | some (.obj fields) => unmarshalPostVoteFields fields {} none
  | some _ => ({}, some "json: cannot unmarshal value into Go value of type main.Vote")

/-- The value handed to `c.JSON`, or nothing after `c.AbortWithStatus`. -/
inductive Body where
  | none
  | vote (v : Vote)
  | votes (vs : List Vote)
deriving DecidableEq, Repr

/-- An HTTP response of the Vote service. -/
structure Response where
  status : Nat
  body : Body
deriving DecidableEq, Repr

/-- What a request to POST /vote leaves behind. -/
structure Handled where
  resp : Response
  api : VoteApi
  db : Redis
  trace : List Effect

/-- The handler of `POST /vote` in main.go. -/
def postVoteHandler (w : World) (api : VoteApi) (db : Redis) (body : Option JSON) : Handled :=
  match ShouldBindJSON body with
  | (_, some _) => ⟨⟨400, .none⟩, api, db, []⟩
  | (vote, none) =>
    let r := AddVote w api db vote.VoterID vote.PollID vote.VoterID
    match r.err with
    | some _ => ⟨⟨500, .none⟩, r.api, r.db, r.trace⟩
    | none => ⟨⟨200, .vote r.vote⟩, r.api, r.db, r.trace⟩

/-- The handler of `GET /vote` in main.go. -/
def getVotesHandler (lw : ListWorld) (db : Redis) : Response :=
  match GetAllVotes lw db with
  | (_, some _) => ⟨500, .none⟩
  | (votes, none) => ⟨200, .votes votes⟩

/-! ## Slices and `encoding/json` on a decode target that is used again -/

/-- A non-nil Go slice: a window of `len` elements on the backing array `ptr`, which has
room for `cap`. -/
structure Slice where
  ptr : Nat := 0
  len : Nat := 0
  cap : Nat := 0
deriving DecidableEq, Repr

/-- The backing arrays allocated so far, by address. -/
abbrev Heap (α : Type) := List (List α)

/-- The elements a slice shows on a heap; `none` is the nil slice. -/
def Heap.load {α : Type} (h : Heap α) (s : Option Slice) : Option (List α) :=
  match s with
  | none => none
  | some s => some ((h.getD s.ptr []).take s.len)

/-- Growth of a slice that is full: a new backing array takes the `len` elements in use;
its capacity is what the runtime's policy `grow` gives, and at least one more. -/
def growslice {α : Type} (grow : Nat → Nat) (zero : α) (h : Heap α) (s : Slice) :
    Heap α × Slice :=
  (h ++ [(h.getD s.ptr []).take s.len ++
      List.replicate (max (grow s.cap) (s.len + 1) - s.len) zero],
    ⟨h.length, s.len, max (grow s.cap) (s.len + 1)⟩)

/-- The decoder's loop over the elements of a JSON array that goes into a slice: element
`i` is decoded into position `i` of the backing array the slice already has, which is
replaced only when it is full; the length is cut to the number of elements at the end, and
an empty array gives a fresh empty slice.  `elem` decodes one element into the value the
position holds. -/
def unmarshalArray {α : Type} (grow : Nat → Nat) (zero : α)
    (elem : JSON → α → α × Option String) :
    List JSON → Nat → Heap α → Slice → Option String → Heap α × Slice × Option String
  | [], i, h, s, e =>
    if i = 0 then (h ++ [[]], ⟨h.length, 0, 0⟩, e) else (h, { s with len := i }, e)
  | x :: rest, i, h, s, e =>
    let hs := if s.cap ≤ i then growslice grow zero h s else (h, s)
    let s1 : Slice := if hs.2.len ≤ i then { hs.2 with len := i + 1 } else hs.2
    let r := elem x ((hs.1.getD s1.ptr []).getD i zero)
    unmarshalArray grow zero elem rest (i + 1)
      (hs.1.set s1.ptr ((hs.1.getD s1.ptr []).set i r.1)) s1 (saveError e r.2)

/-- The `json.Unmarshal` step that stores a JSON value into a slice field: `null` makes
the slice nil, an array is decoded in place, everything else is an `UnmarshalTypeError`. -/
def unmarshalSlice {α : Type} (grow : Nat → Nat) (zero : α)
    (elem : JSON → α → α × Option String) (v : JSON) (h : Heap α) (old : Option Slice) :
    Heap α × Option Slice × Option String :=
  match v with
  | .null => (h, none, none)
  | .arr items =>
    (( unmarshalArray grow zero elem items 0 h (old.getD {}) none).1,
      some (unmarshalArray grow zero elem items 0 h (old.getD {}) none).2.1,
      (unmarshalArray grow zero elem items 0 h (old.getD {}) none).2.2)
  | .bool _ => (h, old, some "json: cannot unmarshal bool into Go value of slice type")
  | .num _ => (h, old, some "json: cannot unmarshal number into Go value of slice type")
  | .real _ => (h, old, some "json: cannot unmarshal number into Go value of slice type")
  | .str _ => (h, old, some "json: cannot unmarshal string into Go value of slice type")
  | .obj _ => (h, old, some "json: cannot unmarshal object into Go value of slice type")

/-- The `json.Unmarshal` step that stores a JSON value into a `string` that holds `old`. -/
def unmarshalString (v : JSON) (old : String) : String × Option String :=
  match v with
  | .null => (old, none)
  | .str s => (s, none)
  | .bool _ => (old, some "json: cannot unmarshal bool into Go value of type string")
  | .num _ => (old, some "json: cannot unmarshal number into Go value of type string")
  | .real _ => (old, some "json: cannot unmarshal number into Go value of type string")
  | .arr _ => (old, some "json: cannot unmarshal array into Go value of type string")
  | .obj _ => (old, some "json: cannot unmarshal object into Go value of type string")

end VoteAPI

/-! # FinalProject/PollApi: poll.go -/

namespace PollService

open VoteAPI

def RedisNilError : String := "redis: nil"
def RedisDefaultLocation : String := "0.0.0.0:6379"
def RedisKeyPrefix : String := "poll:"
def RedisIDKey : String := "pollCnt:"

/-- The struct `Poll` of poll.go as a value: `PollOptions` is `none` for the nil slice. -/
structure Poll where
  PollID : Nat := 0
  PollTitle : String := ""
  PollQuestion : String := ""
  PollOptions : Option (List String) := none
deriving DecidableEq, Repr

/-- A variable of type `Poll`: its `PollOptions` is a slice header into the heap. -/
structure PollVar where
  PollID : Nat := 0
  PollTitle : String := ""
  PollQuestion : String := ""
  PollOptions : Option Slice := none
deriving DecidableEq, Repr

/-- The `Poll` a variable shows on a heap. -/
def PollVar.load (h : Heap String) (p : PollVar) : Poll :=
  { PollID := p.PollID, PollTitle := p.PollTitle, PollQuestion := p.PollQuestion,
    PollOptions := h.load p.PollOptions }

/-- The struct `PollApi`: `cacheClient` is the address the client was opened on. -/
structure PollApi where
  cacheClient : Option String := none
  idCnter : Nat := 0
deriving DecidableEq, Repr

/-- The members of a JSON object are decoded in order into the `Poll` variable the
caller handed in. -/
def unmarshalPollFields (grow : Nat → Nat) :
    List (String × JSON) → PollVar → Heap String → Option String →
      PollVar × Heap String × Option String
  | [], p, h, e => (p, h, e)
  | (k, x) :: rest, p, h, e =>
    if foldName k = foldName "pollID" then
      unmarshalPollFields grow rest { p with PollID := (unmarshalUint x p.PollID).1 } h
        (saveError e (unmarshalUint x p.PollID).2)
    else if foldName k = foldName "pollTitle" then
      unmarshalPollFields grow rest { p with PollTitle := (unmarshalString x p.PollTitle).1 } h
        (saveError e (unmarshalString x p.PollTitle).2)
    else if foldName k = foldName "pollQuestion" then
      unmarshalPollFields grow rest
        { p with PollQuestion := (unmarshalString x p.PollQuestion).1 } h
        (saveError e (unmarshalString x p.PollQuestion).2)
    else if foldName k = foldName "pollOptions" then
      unmarshalPollFields grow rest
        { p with PollOptions := (unmarshalSlice grow "" unmarshalString x h p.PollOptions).2.1 }
        (unmarshalSlice grow "" unmarshalString x h p.PollOptions).1
        (saveError e (unmarshalSlice grow "" unmarshalString x h p.PollOptions).2.2)
    else unmarshalPollFields grow rest p h e

/-- The call `json.Unmarshal(bytes, poll)` for a `*Poll`. -/
def unmarshalPoll (grow : Nat → Nat) (doc : JSON) (poll : PollVar) (h : Heap String) :
    PollVar × Heap String × Option String :=
  match doc with
  | .null => (poll, h, none)
  | .obj fields => unmarshalPollFields grow fields poll h none
  | .bool _ => (poll, h, some "json: cannot unmarshal bool into Go value of type main.Poll")
  | .num _ => (poll, h, some "json: cannot unmarshal number into Go value of type main.Poll")
  | .real _ => (poll, h, some "json: cannot unmarshal number into Go value of type main.Poll")
  | .str _ => (poll, h, some "json: cannot unmarshal string into Go value of type main.Poll")
  | .arr _ => (poll, h, some "json: cannot unmarshal array into Go value of type main.Poll")

/-- The document `json.Marshal` produces for a `Poll`; a nil slice is written `null`. -/
def marshalPoll (p : Poll) : JSON :=
  .obj [("pollID", .num p.PollID), ("pollTitle", .str p.PollTitle),
        ("pollQuestion", .str p.PollQuestion),
        ("pollOptions",
          match p.PollOptions with
          | none => .null
          | some options => .arr (options.map .str))]

/-- The function `redisKeyFromId` of poll.go. -/
def redisKeyFromId (id : Int) : String := RedisKeyPrefix ++ toString id

/-- The method `getPollFromRedis`: the variable, the heap and the error it leaves. -/
def getPollFromRedis (grow : Nat → Nat) (fault : Option String) (db : Redis) (key : String)
    (poll : PollVar) (h : Heap String) : PollVar × Heap String × Option String :=
  match JSONGet fault db key with
  | .error e => (poll, h, some e)
  | .ok doc => unmarshalPoll grow doc poll h

/-- The outcome of each call one `AddPoll` can make; `grow` is the runtime's growth
policy for slices. -/
structure World where
  slotGet : Option String
  pollSet : Option String
  cntSet : Option String
  grow : Nat → Nat

/-- What a call of `AddPoll` leaves behind. -/
structure Outcome where
  poll : Poll
  err : Option String
  api : PollApi
  db : Redis
  trace : List Effect

/-- The local `redisKey` of `AddPoll`. -/
def AddPoll.redisKey (t : PollApi) : String := redisKeyFromId (toInt (uintSucc t.idCnter))

/-- The local `newPoll` of `AddPoll`. -/
def AddPoll.newPoll (t : PollApi) (pollTitle pollQuestion : String)
    (pollOptions : Option (List String)) : Poll :=
  { PollID := uintSucc t.idCnter, PollTitle := pollTitle, PollQuestion := pollQuestion,
    PollOptions := pollOptions }

/-- The method `AddPoll` of poll.go. -/
def AddPoll (w : World) (t : PollApi) (db : Redis) (pollTitle pollQuestion : String)
    (pollOptions : Option (List String)) : Outcome :=
  let redisKey := AddPoll.redisKey t
  match (getPollFromRedis w.grow w.slotGet db redisKey {} []).2.2 with
  | none => ⟨{}, some "Poll already exists!", t, db, [.jsonGet redisKey]⟩
  | some _ =>
    let newPoll := AddPoll.newPoll t pollTitle pollQuestion pollOptions
    match JSONSet w.pollSet db redisKey (marshalPoll newPoll) with
    | (db1, some e) =>
      ⟨{}, some e, t, db1, [.jsonGet redisKey, .jsonSet redisKey (marshalPoll newPoll)]⟩
    | (db1, none) =>
      let t1 : PollApi := { t with idCnter := uintSucc t.idCnter }
      match JSONSet w.cntSet db1 RedisIDKey (.num t1.idCnter) with
      | (db2, some e) =>
        ⟨{}, some e, t1, db2,
          [.jsonGet redisKey, .jsonSet redisKey (marshalPoll newPoll),
           .jsonSet RedisIDKey (.num t1.idCnter)]⟩
      | (db2, none) =>
        ⟨newPoll, none, t1, db2,
          [.jsonGet redisKey, .jsonSet redisKey (marshalPoll newPoll),
           .jsonSet RedisIDKey (.num t1.idCnter)]⟩

/-- The method `GetPoll` of poll.go. -/
def GetPoll (grow : Nat → Nat) (fault : Option String) (db : Redis) (pollID : Int) :
    Poll × Option String :=
  match getPollFromRedis grow fault db (redisKeyFromId pollID) {} [] with
  | (_, _, some e) => ({}, some e)
  | (poll, h, none) => (poll.load h, none)

/-- The outcome of the calls one `GetAllPolls` can make. -/
structure ListWorld where
  keys : Except String (List String)
  fault : String → Option String
  grow : Nat → Nat

/-- The loop of `GetAllPolls`: `poll` is the one decode target, `pollList` the slice of
copies of it, whose `PollOptions` are slice headers. -/
def GetAllPollsLoop (grow : Nat → Nat) (fault : String → Option String) (db : Redis) :
    List String → PollVar → Heap String → List PollVar →
      List PollVar × Heap String × Option String
  | [], _, h, pollList => (pollList, h, none)
  | key :: ks, poll, h, pollList =>
    match getPollFromRedis grow (fault key) db key poll h with
    | (_, h1, some e) => ([], h1, some e)
    | (poll1, h1, none) => GetAllPollsLoop grow fault db ks poll1 h1 (pollList ++ [poll1])

/-- The method `GetAllPolls` of poll.go: the polls the returned slice shows to the
caller; the error of the key scan is dropped. -/
def GetAllPolls (lw : ListWorld) (db : Redis) : List Poll × Option String :=
  let ks := match lw.keys with
    | .ok ks => ks
    | .error _ => []
  match GetAllPollsLoop lw.grow lw.fault db ks {} [] [] with
  | (pollList, h, e) => (pollList.map (PollVar.load h), e)

/-- The function `NewDbWithInstance` of poll.go. -/
def NewDbWithInstance (ping : Option String) (location : String) : PollApi × Option String :=
  match ping with
  | some e => ({}, some e)
  | none => ({ cacheClient := some location }, none)

/-- The function `NewPollApi` of poll.go. -/
def NewPollApi (b : Boot) (db : Redis) : PollApi × Option String :=
  let redisUrl := Getenv b.env "REDIS_URL"
  let redisUrl := if redisUrl = "" then RedisDefaultLocation else redisUrl
  match NewDbWithInstance b.ping redisUrl with
  | (_, some e) => ({}, some e)
  | (api, none) =>
    match JSONGet b.cntGet db RedisIDKey with
    | .error _ => (api, none)
    | .ok itemObject =>
      match unmarshalUint itemObject api.idCnter with
      | (_, some e) => ({}, some e)
      | (n, none) => ({ api with idCnter := n }, none)

end PollService

/-! # FinalProject/VoterAPI: voter.go -/

namespace VoterService

open VoteAPI

def RedisNilError : String := "redis: nil"
def RedisDefaultLocation : String := "0.0.0.0:6379"
def RedisKeyPrefix : String := "voter:"
def RedisIDKey : String := "voterCnt:"

/-- The struct `Voter` of voter.go as a value: `VoteHistory` is `none` for the nil
slice. -/
structure Voter where
  VoterID : Nat := 0
  FirstName : String := ""
  LastName : String := ""
  VoteHistory : Option (List Nat) := none
deriving DecidableEq, Repr

/-- A variable of type `Voter`: its `VoteHistory` is a slice header into the heap. -/
structure VoterVar where
  VoterID : Nat := 0
  FirstName : String := ""
  LastName : String := ""
  VoteHistory : Option Slice := none
deriving DecidableEq, Repr

/-- The `Voter` a variable shows on a heap. -/
def VoterVar.load (h : Heap Nat) (v : VoterVar) : Voter :=
  { VoterID := v.VoterID, FirstName := v.FirstName, LastName := v.LastName,
    VoteHistory := h.load v.VoteHistory }

/-- The struct `VoterAPI`: `cacheClient` is the address the client was opened on. -/
structure VoterAPI where
  cacheClient : Option String := none
  idCnter : Nat := 0
deriving DecidableEq, Repr

/-- The members of a JSON object are decoded in order into the `Voter` variable the
caller handed in (tags `id`, `FirstName`, `LastName`, `pollid`). -/
def unmarshalVoterFields (grow : Nat → Nat) :
    List (String × JSON) → VoterVar → Heap Nat → Option String →
      VoterVar × Heap Nat × Option String
  | [], v, h, e => (v, h, e)
  | (k, x) :: rest, v, h, e =>
    if foldName k = foldName "id" then
      unmarshalVoterFields grow rest { v with VoterID := (unmarshalUint x v.VoterID).1 } h
        (saveError e (unmarshalUint x v.VoterID).2)
    else if foldName k = foldName "FirstName" then
      unmarshalVoterFields grow rest { v with FirstName := (unmarshalString x v.FirstName).1 } h
        (saveError e (unmarshalString x v.FirstName).2)
    else if foldName k = foldName "LastName" then
      unmarshalVoterFields grow rest { v with LastName := (unmarshalString x v.LastName).1 } h
        (saveError e (unmarshalString x v.LastName).2)
    else if foldName k = foldName "pollid" then
      unmarshalVoterFields grow rest
        { v with VoteHistory := (unmarshalSlice grow 0 unmarshalUint x h v.VoteHistory).2.1 }
        (unmarshalSlice grow 0 unmarshalUint x h v.VoteHistory).1
        (saveError e (unmarshalSlice grow 0 unmarshalUint x h v.VoteHistory).2.2)
    else unmarshalVoterFields grow rest v h e

/-- The call `json.Unmarshal(bytes, item)` for a `*Voter`. -/
def unmarshalVoter (grow : Nat → Nat) (doc : JSON) (item : VoterVar) (h : Heap Nat) :
    VoterVar × Heap Nat × Option String :=
  match doc with
  | .null => (item, h, none)
  | .obj fields => unmarshalVoterFields grow fields item h none
  | .bool _ => (item, h, some "json: cannot unmarshal bool into Go value of type main.Voter")
  | .num _ => (item, h, some "json: cannot unmarshal number into Go value of type main.Voter")
  | .real _ => (item, h, some "json: cannot unmarshal number into Go value of type main.Voter")
  | .str _ => (item, h, some "json: cannot unmarshal string into Go value of type main.Voter")
  | .arr _ => (item, h, some "json: cannot unmarshal array into Go value of type main.Voter")

/-- The document `json.Marshal` produces for a `Voter`; a nil slice is written `null`. -/
def marshalVoter (v : Voter) : JSON :=
  .obj [("id", .num v.VoterID), ("FirstName", .str v.FirstName),
        ("LastName", .str v.LastName),
        ("pollid",
          match v.VoteHistory with
          | none => .null
          | some history => .arr (history.map fun pollID => .num pollID))]

/-- The function `redisKeyFromId` of voter.go. -/
def redisKeyFromId (id : Int) : String := RedisKeyPrefix ++ toString id

/-- The method `getVoterFromRedis`: the variable, the heap and the error it leaves. -/
def getVoterFromRedis (grow : Nat → Nat) (fault : Option String) (db : Redis) (key : String)
    (item : VoterVar) (h : Heap Nat) : VoterVar × Heap Nat × Option String :=
  match JSONGet fault db key with
  | .error e => (item, h, some e)
  | .ok doc => unmarshalVoter grow doc item h

/-- The outcome of each call one `AddVoter` can make; `grow` is the runtime's growth
policy for slices. -/
structure World where
  slotGet : Option String
  voterSet : Option String
  cntSet : Option String
  grow : Nat → Nat

/-- What a call of `AddVoter` leaves behind. -/
structure Outcome where
  voter : Voter
  err : Option String
  api : VoterAPI
  db : Redis
  trace : List Effect

/-- The local `redisKey` of `AddVoter`. -/
def AddVoter.redisKey (t : VoterAPI) : String := redisKeyFromId (toInt (uintSucc t.idCnter))

/-- The local `newVoter` of `AddVoter`; its history is the empty, non-nil slice. -/
def AddVoter.newVoter (t : VoterAPI) (fn ln : String) : Voter :=
  { VoterID := uintSucc t.idCnter, FirstName := fn, LastName := ln, VoteHistory := some [] }

/-- The method `AddVoter` of voter.go. -/
def AddVoter (w : World) (t : VoterAPI) (db : Redis) (fn ln : String) : Outcome :=
  let redisKey := AddVoter.redisKey t
  match (getVoterFromRedis w.grow w.slotGet db redisKey {} []).2.2 with
  | none => ⟨{}, some "Voter already exists!", t, db, [.jsonGet redisKey]⟩
  | some _ =>
    let newVoter := AddVoter.newVoter t fn ln
    match JSONSet w.voterSet db redisKey (marshalVoter newVoter) with
    | (db1, some e) =>
      ⟨{}, some e, t, db1, [.jsonGet redisKey, .jsonSet redisKey (marshalVoter newVoter)]⟩
    | (db1, none) =>
      let t1 : VoterAPI := { t with idCnter := uintSucc t.idCnter }
      match JSONSet w.cntSet db1 RedisIDKey (.num t1.idCnter) with
      | (db2, some e) =>
        ⟨{}, some e, t1, db2,
          [.jsonGet redisKey, .jsonSet redisKey (marshalVoter newVoter),
           .jsonSet RedisIDKey (.num t1.idCnter)]⟩
      | (db2, none) =>
        ⟨newVoter, none, t1, db2,
          [.jsonGet redisKey, .jsonSet redisKey (marshalVoter newVoter),
           .jsonSet RedisIDKey (.num t1.idCnter)]⟩

/-- The outcome of the calls one `GetAllVoters` can make. -/
structure ListWorld where
  keys : Except String (List String)
  fault : String → Option String
  grow : Nat → Nat

/-- The loop of `GetAllVoters`: `vtr` is the one decode target, `voterList` the slice of
copies of it. -/
def GetAllVotersLoop (grow : Nat → Nat) (fault : String → Option String) (db : Redis) :
    List String → VoterVar → Heap Nat → List VoterVar →
      List VoterVar × Heap Nat × Option String
  | [], _, h, voterList => (voterList, h, none)
  | key :: ks, vtr, h, voterList =>
    match getVoterFromRedis grow (fault key) db key vtr h with
    | (_, h1, some e) => ([], h1, some e)
    | (vtr1, h1, none) => GetAllVotersLoop grow fault db ks vtr1 h1 (voterList ++ [vtr1])

/-- The method `GetAllVoters` of voter.go: the voters the returned slice shows to the
caller; the error of the key scan is dropped. -/
def GetAllVoters (lw : ListWorld) (db : Redis) : List Voter × Option String :=
  let ks := match lw.keys with
    | .ok ks => ks
    | .error _ => []
  match GetAllVotersLoop lw.grow lw.fault db ks {} [] [] with
  | (voterList, h, e) => (voterList.map (VoterVar.load h), e)

/-- The function `NewDbWithInstance` of voter.go. -/
def NewDbWithInstance (ping : Option String) (location : String) :
    VoterAPI × Option String :=
  match ping with
  | some e => ({}, some e)
  | none => ({ cacheClient := some location }, none)

/-- The function `NewVoterApi` of voter.go. -/
def NewVoterApi (b : Boot) (db : Redis) : VoterAPI × Option String :=
  let redisUrl := Getenv b.env "REDIS_URL"
  let redisUrl := if redisUrl = "" then RedisDefaultLocation else redisUrl
  match NewDbWithInstance b.ping redisUrl with
  | (_, some e) => ({}, some e)
  | (api, none) =>
    match JSONGet b.cntGet db RedisIDKey with
    | .error _ => (api, none)
    | .ok itemObject =>
      match unmarshalUint itemObject api.idCnter with
      | (_, some e) => ({}, some e)
      | (n, none) => ({ api with idCnter := n }, none)

end VoterService

/-! # Voter-Container: voter/voter.go and api/api.go -/

namespace VoterContainer

open VoteAPI

def RedisNilError : String := "redis: nil"
def RedisDefaultLocation : String := "0.0.0.0:6379"
def RedisKeyPrefix : String := "voter:"

/-- A `time.Time`, by the RFC 3339 text that `MarshalJSON` writes for it (a time whose
year is outside 0..9999 has none and is left out).  The zero `Time` is the first instant of
the year 1, UTC. -/
structure Time where
  text : String := "0001-01-01T00:00:00Z"
deriving DecidableEq, Repr

/-- The struct `voterPoll` of voter.go. -/
structure voterPoll where
  PollID : Nat := 0
  VoteDate : Time := {}
deriving DecidableEq, Repr

/-- The struct `Voter` of voter.go as a value: `VoteHistory` is `none` for the nil
slice. -/
structure Voter where
  VoterID : Nat := 0
  FirstName : String := ""
  LastName : String := ""
  VoteHistory : Option (List voterPoll) := none
deriving DecidableEq, Repr

/-- A variable of type `Voter`: its `VoteHistory` is a slice header into the heap. -/
structure VoterVar where
  VoterID : Nat := 0
  FirstName : String := ""
  LastName : String := ""
  VoteHistory : Option Slice := none
deriving DecidableEq, Repr

/-- The `Voter` a variable shows on a heap. -/
def VoterVar.load (h : Heap voterPoll) (v : VoterVar) : Voter :=
  { VoterID := v.VoterID, FirstName := v.FirstName, LastName := v.LastName,
    VoteHistory := h.load v.VoteHistory }

/-- The constructor `NewVoter` of voter.go: the history is the empty, non-nil slice. -/
def NewVoter (id : Nat) (fn ln : String) : Voter :=
  { VoterID := id, FirstName := fn, LastName := ln, VoteHistory := some [] }

/-- The method `(*Voter).AddPoll` of voter.go; `now` is what `time.Now()` returns.
`append` on the nil slice gives a slice of one element. -/
def Voter.AddPoll (now : Time) (v : Voter) (pollID : Nat) : Voter :=
  { v with VoteHistory := some (v.VoteHistory.getD [] ++ [{ PollID := pollID, VoteDate := now }]) }

/-! ## `encoding/json` for a struct that holds a `time.Time`

`time.Time` decodes itself (`UnmarshalJSON`), and an error it returns stops the decoder at
once, unlike a type error, which is recorded while decoding goes on.  A decoding step
therefore answers `.error` when the decoder stops, and otherwise the value together with
the first type error recorded.  `parse` is the RFC 3339 parser of package `time`. -/

/-- The method `(*Time).UnmarshalJSON` on a JSON value: `null` leaves the time alone, a
string is parsed, anything else is refused. -/
def unmarshalTime (parse : String → Option Time) (v : JSON) (old : Time) : Except String Time :=
  match v with
  | .null => .ok old
  | .str s =>
    match parse s with
    | some t => .ok t
    | none => .error ("parsing time " ++ s)
  | .bool _ => .error "Time.UnmarshalJSON: input is not a JSON string"
  | .num _ => .error "Time.UnmarshalJSON: input is not a JSON string"
  | .real _ => .error "Time.UnmarshalJSON: input is not a JSON string"
  | .arr _ => .error "Time.UnmarshalJSON: input is not a JSON string"
  | .obj _ => .error "Time.UnmarshalJSON: input is not a JSON string"

/-- The document `json.Marshal` produces for a `time.Time`. -/
def marshalTime (t : Time) : JSON := .str t.text

/-- The members of a JSON object are decoded in order into the `voterPoll` the position
holds (tags `pollid`, `VoteDate`). -/
def unmarshalVoterPollFields (parse : String → Option Time) :
    List (String × JSON) → voterPoll → Option String → Except String (voterPoll × Option String)
  | [], p, e => .ok (p, e)
  | (k, x) :: rest, p, e =>
    if foldName k = foldName "pollid" then
      unmarshalVoterPollFields parse rest { p with PollID := (unmarshalUint x p.PollID).1 }
        (saveError e (unmarshalUint x p.PollID).2)
    else if foldName k = foldName "VoteDate" then
      match unmarshalTime parse x p.VoteDate with
      | .error err => .error err
      | .ok t => unmarshalVoterPollFields parse rest { p with VoteDate := t } e
    else unmarshalVoterPollFields parse rest p e

/-- The `json.Unmarshal` step that stores a JSON value into a `voterPoll`. -/
def unmarshalVoterPoll (parse : String → Option Time) (v : JSON) (old : voterPoll) :
    Except String (voterPoll × Option String) :=
  match v with
  | .null => .ok (old, none)
  | .obj fields => unmarshalVoterPollFields parse fields old none
  | .bool _ => .ok (old, some "json: cannot unmarshal bool into Go value of type voter.voterPoll")
  | .num _ => .ok (old, some "json: cannot unmarshal number into Go value of type voter.voterPoll")
  | .real _ => .ok (old, some "json: cannot unmarshal number into Go value of type voter.voterPoll")
  | .str _ => .ok (old, some "json: cannot unmarshal string into Go value of type voter.voterPoll")
  | .arr _ => .ok (old, some "json: cannot unmarshal array into Go value of type voter.voterPoll")

/-- The document `json.Marshal` produces for a `voterPoll`. -/
def marshalVoterPoll (p : voterPoll) : JSON :=
  .obj [("pollid", .num p.PollID), ("VoteDate", marshalTime p.VoteDate)]

/-- The decoder's loop over the elements of a JSON array that goes into a slice, as
`unmarshalArray`, for elements whose decoding can stop the decoder. -/
def unmarshalStructArray {α : Type} (grow : Nat → Nat) (zero : α)
    (elem : JSON → α → Except String (α × Option String)) :
    List JSON → Nat → Heap α → Slice → Option String →
      Except String (Heap α × Slice × Option String)
  | [], i, h, s, e =>
    if i = 0 then .ok (h ++ [[]], ⟨h.length, 0, 0⟩, e) else .ok (h, { s with len := i }, e)
  | x :: rest, i, h, s, e =>
    let hs := if s.cap ≤ i then growslice grow zero h s else (h, s)
    let s1 : Slice := if hs.2.len ≤ i then { hs.2 with len := i + 1 } else hs.2
    match elem x ((hs.1.getD s1.ptr []).getD i zero) with
    | .error err => .error err
    | .ok r =>
      unmarshalStructArray grow zero elem rest (i + 1)
        (hs.1.set s1.ptr ((hs.1.getD s1.ptr []).set i r.1)) s1 (saveError e r.2)

/-- The `json.Unmarshal` step that stores a JSON value into a slice field, as
`unmarshalSlice`, for elements whose decoding can stop the decoder. -/
def unmarshalStructSlice {α : Type} (grow : Nat → Nat) (zero : α)
    (elem : JSON → α → Except String (α × Option String)) (v : JSON) (h : Heap α)
    (old : Option Slice) : Except String (Heap α × Option Slice × Option String) :=
  match v with
  | .null => .ok (h, none, none)
  | .arr items =>
    match unmarshalStructArray grow zero elem items 0 h (old.getD {}) none with
    | .error err => .error err
    | .ok r => .ok (r.1, some r.2.1, r.2.2)
  | .bool _ => .ok (h, old, some "json: cannot unmarshal bool into Go value of slice type")
  | .num _ => .ok (h, old, some "json: cannot unmarshal number into Go value of slice type")
  | .real _ => .ok (h, old, some "json: cannot unmarshal number into Go value of slice type")
  | .str _ => .ok (h, old, some "json: cannot unmarshal string into Go value of slice type")
  | .obj _ => .ok (h, old, some "json: cannot unmarshal object into Go value of slice type")

/-- The members of a JSON object are decoded in order into the `Voter` variable the
caller handed in (tags `id`, `FirstName`, `LastName`; `VoteHistory` has no tag and goes by
its name). -/
def unmarshalVoterFields (parse : String → Option Time) (grow : Nat → Nat) :
    List (String × JSON) → VoterVar → Heap voterPoll → Option String →
      Except String (VoterVar × Heap voterPoll × Option String)
  | [], v, h, e => .ok (v, h, e)
  | (k, x) :: rest, v, h, e =>
    if foldName k = foldName "id" then
      unmarshalVoterFields parse grow rest { v with VoterID := (unmarshalUint x v.VoterID).1 } h
        (saveError e (unmarshalUint x v.VoterID).2)
    else if foldName k = foldName "FirstName" then
      unmarshalVoterFields parse grow rest
        { v with FirstName := (unmarshalString x v.FirstName).1 } h
        (saveError e (unmarshalString x v.FirstName).2)
    else if foldName k = foldName "LastName" then
      unmarshalVoterFields parse grow rest
        { v with LastName := (unmarshalString x v.LastName).1 } h
        (saveError e (unmarshalString x v.LastName).2)
    else if foldName k = foldName "VoteHistory" then
      match unmarshalStructSlice grow {} (unmarshalVoterPoll parse) x h v.VoteHistory with
      | .error err => .error err
      | .ok r =>
        unmarshalVoterFields parse grow rest { v with VoteHistory := r.2.1 } r.1
          (saveError e r.2.2)
    else unmarshalVoterFields parse grow rest v h e

/-- The call `json.Unmarshal(bytes, item)` for a `*Voter`: its error, or the variable and
the heap it leaves when the error is nil.  (After an error no caller in this package looks
at the variable.) -/
def unmarshalVoter (parse : String → Option Time) (grow : Nat → Nat) (doc : JSON)
    (item : VoterVar) (h : Heap voterPoll) : Except String (VoterVar × Heap voterPoll) :=
  match doc with
  | .null => .ok (item, h)
  | .obj fields =>
    match unmarshalVoterFields parse grow fields item h none with
    | .error err => .error err
    | .ok (_, _, some err) => .error err
    | .ok (v, h1, none) => .ok (v, h1)
  | .bool _ => .error "json: cannot unmarshal bool into Go value of type voter.Voter"
  | .num _ => .error "json: cannot unmarshal number into Go value of type voter.Voter"
  | .real _ => .error "json: cannot unmarshal number into Go value of type voter.Voter"
  | .str _ => .error "json: cannot unmarshal string into Go value of type voter.Voter"
  | .arr _ => .error "json: cannot unmarshal array into Go value of type voter.Voter"

/-- The document `json.Marshal` produces for a `Voter`; a nil slice is written `null`. -/
def marshalVoter (v : Voter) : JSON :=
  .obj [("id", .num v.VoterID), ("FirstName", .str v.FirstName),
        ("LastName", .str v.LastName),
        ("VoteHistory",
          match v.VoteHistory with
          | none => .null
          | some history => .arr (history.map marshalVoterPoll))]

/-- The function `redisKeyFromId` of voter.go. -/
def redisKeyFromId (id : Int) : String := RedisKeyPrefix ++ toString id

/-- The method `getItemFromRedis` of voter.go: its error, or the variable and the heap
it leaves. -/
def getItemFromRedis (parse : String → Option Time) (grow : Nat → Nat)
    (fault : Option String) (db : Redis) (key : String) (item : VoterVar)
    (h : Heap voterPoll) : Except String (VoterVar × Heap voterPoll) :=
  match JSONGet fault db key with
  | .error e => .error e
  | .ok doc => unmarshalVoter parse grow doc item h

/-- The method `(*VoterDb).GetVoter` of voter.go. -/
def VoterDb.GetVoter (parse : String → Option Time) (grow : Nat → Nat)
    (fault : Option String) (db : Redis) (id : Int) : Voter × Option String :=
  match getItemFromRedis parse grow fault db (redisKeyFromId id) {} [] with
  | .error e => ({}, some e)
  | .ok (voter, h) => (voter.load h, none)

/-- The method `(*VoterDb).UpdateVoter` of voter.go: the store after it and its error;
`getFault` and `setFault` are the faults of its read and of its write. -/
def VoterDb.UpdateVoter (parse : String → Option Time) (grow : Nat → Nat)
    (getFault setFault : Option String) (db : Redis) (voter : Voter) : Redis × Option String :=
  let redisKey := redisKeyFromId (toInt voter.VoterID)
  match getItemFromRedis parse grow getFault db redisKey {} [] with
  | .error _ => (db, some "voter does not exist")
  | .ok _ =>
    match JSONSet setFault db redisKey (marshalVoter voter) with
    | (db1, some e) => (db1, some e)
    | (db1, none) => (db1, none)

/-- What is outside the process during one `VoterApi.AddPoll`: the fault of the read of
`GetVoter`, the time `time.Now()` returns, the faults of the read and of the write of
`UpdateVoter`, and the runtime's growth policy for slices. -/
structure World where
  voterGet : Option String
  now : Time
  existsGet : Option String
  voterSet : Option String
  grow : Nat → Nat

/-- The method `(*VoterApi).AddPoll` of api.go: the store after it and its error.  What
`UpdateVoter` returns is dropped. -/
def VoterApi.AddPoll (parse : String → Option Time) (w : World) (db : Redis)
    (voterID pollID : Nat) : Redis × Option String :=
  match VoterDb.GetVoter parse w.grow w.voterGet db (toInt voterID) with
  | (_, some err) => (db, some err)
  | (voter, none) =>
    ((VoterDb.UpdateVoter parse w.grow w.existsGet w.voterSet db
      (voter.AddPoll w.now pollID)).1, none)

/-- The time package on the two sample dates: it reads back the texts it writes. -/
def sampleParse (s : String) : Option Time :=
  if s = "2023-04-01T12:00:00Z" ∨ s = "2023-04-02T08:30:00.5+02:00" then some ⟨s⟩ else none

/-- A store with the voter 1 as `AddVoter` writes her, with an empty history. -/
def sampleVoters : Redis := fun k =>
  if k = "voter:1" then some (marshalVoter (NewVoter 1 "Ada" "Lovelace")) else none

end VoterContainer

/-! # The store's key scan, and runs of several calls -/

namespace VoteAPI

/-- Redis glob matching of a key against a pattern of literal characters, `?` and `*`
(the patterns of this repository hold no bracket and no backslash). -/
def globMatch : List Char → List Char → Bool
  | [], key => key.isEmpty
  | c :: pattern, key =>
    if c = '*' then key.tails.any (globMatch pattern)
    else
      match key with
      | [] => false
      | d :: rest => (c = '?' ∨ c = d) && globMatch pattern rest

/-- One call of `AddVote`: the world it runs in and its arguments. -/
structure Call where
  w : World
  voterID : Nat
  pollID : Nat
  value : Nat

/-- The outcomes of a sequence of `AddVote` calls made one after the other by one
process on one store. -/
def AddVoteSeq : List Call → VoteApi → Redis → List Outcome
  | [], _, _ => []
  | c :: cs, t, db =>
    AddVote c.w t db c.voterID c.pollID c.value ::
      AddVoteSeq cs (AddVote c.w t db c.voterID c.pollID c.value).api
        (AddVote c.w t db c.voterID c.pollID c.value).db

/-- The `VoteID`s returned by the calls of a sequence that succeeded, in order. -/
def returnedIDs (outcomes : List Outcome) : List Nat :=
  (outcomes.filter fun r => r.err.isNone).map fun r => r.vote.VoteID

/-- The counter bounds the IDs in the store: every document of the store that decodes as
a `Vote` carries a `VoteID` that is at most `idCnter`. -/
def CounterBounds (t : VoteApi) (db : Redis) : Prop :=
  ∀ key doc, db key = some doc → (unmarshalVote doc {}).2 = none →
    (unmarshalVote doc {}).1.VoteID ≤ t.idCnter

/-- The number of the step of `AddVote` whose answer makes the call return an error, in
the order of the source: 1 the duplicate check (a document is read and decoded), 2 the
voter GET and 3 the poll GET (an error of `resty` or status 404), 4 the history POST (an
error of `resty`), 5 the write of the `Vote`, 6 the write of the counter; `none` when no
step does. -/
def AddVote.failingStep (w : World) (t : VoteApi) (db : Redis)
    (voterID pollID : Nat) : Option Nat :=
  match (getVoteFromRedis w.slotGet db (AddVote.redisKey t) {}).2 with
  | none => some 1
  | some _ =>
    match AddVote.voterResp w t voterID with
    | .fail _ => some 2
    | .status voterCode =>
      if voterCode = 404 then some 2
      else
        match AddVote.pollResp w t pollID with
        | .fail _ => some 3
        | .status pollCode =>
          if pollCode = 404 then some 3
          else
            match AddVote.postResp w t voterID pollID with
            | .fail _ => some 4
            | .status _ =>
              match w.voteSet with
              | some _ => some 5
              | none =>
                match w.cntSet with
                | some _ => some 6
                | none => none

/-! ## Sample inputs -/

/-- A receiver as `NewVoteApi` leaves it over a store without a counter document, both
base URLs set. -/
def sampleApi : VoteApi :=
  { cacheClient := some "0.0.0.0:6379", VoterUrl := "http://voter:2080",
    PollUrl := "http://poll:3080", idCnter := 0 }

/-- The world in which the store serves every call and the three HTTP requests are
answered with the given statuses. -/
def sampleWorld (voterCode pollCode postCode : Nat) : World :=
  ⟨none, .status voterCode, .status pollCode, .status postCode, none, none, fun f _ => f⟩

/-- A receiver whose Voter URL carries two format verbs that are URL escapes as well, so
that both the URL of the voter GET and the URL `fmt.Sprintf` builds for the history POST
parse. -/
def verbApi : VoteApi :=
  { cacheClient := some "0.0.0.0:6379", VoterUrl := "http://voter:2080/%01s%01d",
    PollUrl := "http://poll:3080", idCnter := 0 }

/-- What `fmt.Sprintf(format, "/", pollID)` returns on a format whose verbs are `%01s`
and then `%01d`: the string operand and the decimal of the number take their places.
`skip` counts the characters of a verb still to pass over. -/
def sprintfVerbs : List Char → Nat → Nat → List Char
  | [], _, _ => []
  | _ :: rest, skip + 1, pollID => sprintfVerbs rest skip pollID
  | c :: rest, 0, pollID =>
    if c = '%' ∧ rest.take 3 = ['0', '1', 's'] then '/' :: sprintfVerbs rest 3 pollID
    else if c = '%' ∧ rest.take 3 = ['0', '1', 'd'] then
      (toString pollID).data ++ sprintfVerbs rest 3 pollID
    else c :: sprintfVerbs rest 0 pollID

/-- The world in which the store serves every call, the three HTTP requests are answered
with the given statuses, and `fmt.Sprintf` is as it is on the formats of `verbApi`. -/
def verbWorld (voterCode pollCode postCode : Nat) : World :=
  ⟨none, .status voterCode, .status pollCode, .status postCode, none, none,
    fun f pollID => String.mk (sprintfVerbs f.data 0 pollID)⟩

/-- A store with two polls as `AddPoll` writes them. -/
def samplePolls : Redis := fun k =>
  if k = "poll:1" then
    some (PollService.marshalPoll ⟨1, "Best Language", "Which one?", some ["Go", "Rust"]⟩)
  else if k = "poll:2" then
    some (PollService.marshalPoll ⟨2, "Letters", "Which one?", some ["A", "B"]⟩)
  else none

/-- A store with a vote as `AddVote` writes it, and a vote document that carries only
its `voteID`. -/
def sampleVotes : Redis := fun k =>
  if k = "vote:1" then some (marshalVote ⟨1, 5, 6, 7⟩)
  else if k = "vote:2" then some (.obj [("voteID", .num 2)])
  else none

/-- The store a crash between the two commit writes leaves: from the counter 1 and the
vote 1, a call of `AddVote` wrote the vote 2 and its write of the counter did not reach the
store. -/
def sampleCrash : Redis :=
  (AddVote { verbWorld 200 200 200 with cntSet := some "connection refused" }
    { verbApi with idCnter := 1 }
    (fun k => if k = "voteCnt:" then some (.num 1)
      else if k = "vote:1" then some (marshalVote ⟨1, 1, 1, 0⟩) else none) 2 1 1).db

/-! ## Lemmas on the embedding -/

theorem redisKeyFromId_ne_RedisIDKey (id : Int) : redisKeyFromId id ≠ RedisIDKey := by
  intro h
  have h2 := congrArg String.data h
  simp [redisKeyFromId, RedisKeyPrefix, RedisIDKey, String.data_append] at h2

theorem uintSucc_lt (u : Nat) : uintSucc u < 18446744073709551616 := by
  unfold uintSucc; omega

theorem unmarshalUint_num (n old : Nat) (h : n < 18446744073709551616) :
    unmarshalUint (.num (n : Int)) old = (n, none) := by
  have h1 : (0 : Int) ≤ (n : Int) ∧ (n : Int) < 18446744073709551616 := by omega
  simp [unmarshalUint, h1]

theorem foldName_voteID : foldName "voteID" = "voteid" := by decide
theorem foldName_voterID : foldName "voterID" = "voterid" := by decide
theorem foldName_pollID : foldName "pollID" = "pollid" := by decide
theorem foldName_voteValue : foldName "voteValue" = "votevalue" := by decide

theorem unmarshalVoteFields_voteID (x : JSON) (rest) (v : Vote) (e) :
    unmarshalVoteFields (("voteID", x) :: rest) v e =
      unmarshalVoteFields rest { v with VoteID := (unmarshalUint x v.VoteID).1 }
        (saveError e (unmarshalUint x v.VoteID).2) := by
  simp [unmarshalVoteFields]

theorem unmarshalVoteFields_voterID (x : JSON) (rest) (v : Vote) (e) :
    unmarshalVoteFields (("voterID", x) :: rest) v e =
      unmarshalVoteFields rest { v with VoterID := (unmarshalUint x v.VoterID).1 }
        (saveError e (unmarshalUint x v.VoterID).2) := by
  simp [unmarshalVoteFields, foldName_voteID, foldName_voterID]

theorem unmarshalVoteFields_pollID (x : JSON) (rest) (v : Vote) (e) :
    unmarshalVoteFields (("pollID", x) :: rest) v e =
      unmarshalVoteFields rest { v with PollID := (unmarshalUint x v.PollID).1 }
        (saveError e (unmarshalUint x v.PollID).2) := by
  simp [unmarshalVoteFields, foldName_voteID, foldName_voterID, foldName_pollID]

theorem unmarshalVoteFields_voteValue (x : JSON) (rest) (v : Vote) (e) :
    unmarshalVoteFields (("voteValue", x) :: rest) v e =
      unmarshalVoteFields rest { v with VoteValue := (unmarshalUint x v.VoteValue).1 }
        (saveError e (unmarshalUint x v.VoteValue).2) := by
  simp [unmarshalVoteFields, foldName_voteID, foldName_voterID, foldName_pollID,
    foldName_voteValue]

/-- Decoding the document `json.Marshal` wrote for a `Vote` gives that `Vote` back,
whatever the decode target held. -/
theorem unmarshalVote_marshalVote (v tgt : Vote)
    (h1 : v.VoteID < 18446744073709551616) (h2 : v.VoterID < 18446744073709551616)
    (h3 : v.PollID < 18446744073709551616) (h4 : v.VoteValue < 18446744073709551616) :
    unmarshalVote (marshalVote v) tgt = (v, none) := by
  show unmarshalVoteFields [("voteID", .num v.VoteID), ("voterID", .num v.VoterID),
    ("pollID", .num v.PollID), ("voteValue", .num v.VoteValue)] tgt none = (v, none)
  rw [unmarshalVoteFields_voteID, unmarshalUint_num _ _ h1]
  rw [unmarshalVoteFields_voterID, unmarshalUint_num _ _ h2]
  rw [unmarshalVoteFields_pollID, unmarshalUint_num _ _ h3]
  rw [unmarshalVoteFields_voteValue, unmarshalUint_num _ _ h4]
  rfl

theorem JSONSet_ok (db : Redis) (key : String) (doc : JSON) :
    JSONSet none db key doc = (fun k => if k = key then some doc else db k, none) := rfl

theorem JSONSet_fault (e : String) (db : Redis) (key : String) (doc : JSON) :
    JSONSet (some e) db key doc = (db, some e) := rfl

theorem GetVote_err (fault : Option String) (db : Redis) (id : Int) :
    (GetVote fault db id).2 = (getVoteFromRedis fault db (redisKeyFromId id) {}).2 := by
  unfold GetVote
  split <;> simp_all

theorem GetVote_ok (fault : Option String) (db : Redis) (id : Int) (v : Vote)
    (h : getVoteFromRedis fault db (redisKeyFromId id) {} = (v, none)) :
    GetVote fault db id = (v, none) := by
  unfold GetVote
  rw [h]

theorem getVoteFromRedis_fault (e : String) (db : Redis) (key : String) (vote : Vote) :
    getVoteFromRedis (some e) db key vote = (vote, some e) := rfl

theorem getVoteFromRedis_absent (db : Redis) (key : String) (vote : Vote)
    (h : db key = none) : getVoteFromRedis none db key vote = (vote, some RedisNilError) := by
  simp [getVoteFromRedis, JSONGet, h]

theorem getVoteFromRedis_present (db : Redis) (key : String) (vote : Vote) (doc : JSON)
    (h : db key = some doc) : getVoteFromRedis none db key vote = unmarshalVote doc vote := by
  simp [getVoteFromRedis, JSONGet, h]

/-- A slot the store cannot serve as a `Vote` is not served under a faulty read either. -/
theorem getVoteFromRedis_unreadable (fault : Option String) (db : Redis) (key : String)
    (vote : Vote) (h : (getVoteFromRedis none db key vote).2 ≠ none) :
    (getVoteFromRedis fault db key vote).2 ≠ none := by
  cases fault with
  | none => exact h
  | some e => simp [getVoteFromRedis_fault]

/-! ### The runs of `AddVote`, one lemma per exit -/

theorem AddVote_exit_duplicate (w : World) (t : VoteApi) (db : Redis)
    (voterID pollID value : Nat)
    (hslot : (getVoteFromRedis w.slotGet db (AddVote.redisKey t) {}).2 = none) :
    AddVote w t db voterID pollID value =
      ⟨{}, some "Vote already exists!", t, db, [.jsonGet (AddVote.redisKey t)]⟩ := by
  unfold AddVote
  simp only [hslot]

theorem AddVote_exit_voter_fail (w : World) (t : VoteApi) (db : Redis)
    (voterID pollID value : Nat) (e err : String)
    (hslot : (getVoteFromRedis w.slotGet db (AddVote.redisKey t) {}).2 = some e)
    (hvoter : AddVote.voterResp w t voterID = .fail err) :
    AddVote w t db voterID pollID value =
      ⟨{}, some err, t, db,
        [.jsonGet (AddVote.redisKey t), .httpGet (AddVote.voterUrl t voterID)]⟩ := by
  unfold AddVote
  simp only [hslot, hvoter]

theorem AddVote_exit_voter_404 (w : World) (t : VoteApi) (db : Redis)
    (voterID pollID value : Nat) (e : String)
    (hslot : (getVoteFromRedis w.slotGet db (AddVote.redisKey t) {}).2 = some e)
    (hvoter : AddVote.voterResp w t voterID = .status 404) :
    AddVote w t db voterID pollID value =
      ⟨{}, some "The voter submitting a vote does not exist!!", t, db,
        [.jsonGet (AddVote.redisKey t), .httpGet (AddVote.voterUrl t voterID)]⟩ := by
  unfold AddVote
  simp only [hslot, hvoter, if_true]

theorem AddVote_exit_poll_fail (w : World) (t : VoteApi) (db : Redis)
    (voterID pollID value voterCode : Nat) (e err : String)
    (hslot : (getVoteFromRedis w.slotGet db (AddVote.redisKey t) {}).2 = some e)
    (hvoter : AddVote.voterResp w t voterID = .status voterCode) (hvoterCode : voterCode ≠ 404)
    (hpoll : AddVote.pollResp w t pollID = .fail err) :
    AddVote w t db voterID pollID value =
      ⟨{}, some err, t, db,
        [.jsonGet (AddVote.redisKey t), .httpGet (AddVote.voterUrl t voterID),
         .httpGet (AddVote.pollUrl t pollID)]⟩ := by
  unfold AddVote
  simp only [hslot, hvoter, hpoll, if_neg hvoterCode]

theorem AddVote_exit_poll_404 (w : World) (t : VoteApi) (db : Redis)
    (voterID pollID value voterCode : Nat) (e : String)
    (hslot : (getVoteFromRedis w.slotGet db (AddVote.redisKey t) {}).2 = some e)
    (hvoter : AddVote.voterResp w t voterID = .status voterCode) (hvoterCode : voterCode ≠ 404)
    (hpoll : AddVote.pollResp w t pollID = .status 404) :
    AddVote w t db voterID pollID value =
      ⟨{}, some "The poll you are trying to vote in does not exist!!", t, db,
        [.jsonGet (AddVote.redisKey t), .httpGet (AddVote.voterUrl t voterID),
         .httpGet (AddVote.pollUrl t pollID)]⟩ := by
  unfold AddVote
  simp only [hslot, hvoter, hpoll, if_neg hvoterCode, if_true]

theorem AddVote_exit_post_fail (w : World) (t : VoteApi) (db : Redis)
    (voterID pollID value voterCode pollCode : Nat) (e err : String)
    (hslot : (getVoteFromRedis w.slotGet db (AddVote.redisKey t) {}).2 = some e)
    (hvoter : AddVote.voterResp w t voterID = .status voterCode) (hvoterCode : voterCode ≠ 404)
    (hpoll : AddVote.pollResp w t pollID = .status pollCode) (hpollCode : pollCode ≠ 404)
    (hpost : AddVote.postResp w t voterID pollID = .fail err) :
    AddVote w t db voterID pollID value =
      ⟨{}, some "Could not connect to voter-api to post new poll history", t, db,
        [.jsonGet (AddVote.redisKey t), .httpGet (AddVote.voterUrl t voterID),
         .httpGet (AddVote.pollUrl t pollID),
         .httpPost (AddVote.voterNewPollUrl w t voterID pollID)]⟩ := by
  unfold AddVote
  simp only [hslot, hvoter, hpoll, hpost, if_neg hvoterCode, if_neg hpollCode]

theorem AddVote_exit_vote_fault (w : World) (t : VoteApi) (db : Redis)
    (voterID pollID value voterCode pollCode postCode : Nat) (e err : String)
    (hslot : (getVoteFromRedis w.slotGet db (AddVote.redisKey t) {}).2 = some e)
    (hvoter : AddVote.voterResp w t voterID = .status voterCode) (hvoterCode : voterCode ≠ 404)
    (hpoll : AddVote.pollResp w t pollID = .status pollCode) (hpollCode : pollCode ≠ 404)
    (hpost : AddVote.postResp w t voterID pollID = .status postCode) (hvoteSet : w.voteSet = some err) :
    AddVote w t db voterID pollID value =
      ⟨{}, some err, t, db,
        [.jsonGet (AddVote.redisKey t), .httpGet (AddVote.voterUrl t voterID),
         .httpGet (AddVote.pollUrl t pollID),
         .httpPost (AddVote.voterNewPollUrl w t voterID pollID),
         .jsonSet (AddVote.redisKey t) (marshalVote (AddVote.newVote t voterID pollID value))]⟩ := by
  unfold AddVote
  simp only [hslot, hvoter, hpoll, hpost, hvoteSet, JSONSet_fault, if_neg hvoterCode,
    if_neg hpollCode]

theorem AddVote_exit_cnt_fault (w : World) (t : VoteApi) (db : Redis)
    (voterID pollID value voterCode pollCode postCode : Nat) (e err : String)
    (hslot : (getVoteFromRedis w.slotGet db (AddVote.redisKey t) {}).2 = some e)
    (hvoter : AddVote.voterResp w t voterID = .status voterCode) (hvoterCode : voterCode ≠ 404)
    (hpoll : AddVote.pollResp w t pollID = .status pollCode) (hpollCode : pollCode ≠ 404)
    (hpost : AddVote.postResp w t voterID pollID = .status postCode) (hvoteSet : w.voteSet = none)
    (hcntSet : w.cntSet = some err) :
    AddVote w t db voterID pollID value =
      ⟨{}, some err, { t with idCnter := uintSucc t.idCnter },
        fun k => if k = AddVote.redisKey t then
          some (marshalVote (AddVote.newVote t voterID pollID value)) else db k,
        [.jsonGet (AddVote.redisKey t), .httpGet (AddVote.voterUrl t voterID),
         .httpGet (AddVote.pollUrl t pollID),
         .httpPost (AddVote.voterNewPollUrl w t voterID pollID),
         .jsonSet (AddVote.redisKey t) (marshalVote (AddVote.newVote t voterID pollID value)),
         .jsonSet RedisIDKey (.num (uintSucc t.idCnter))]⟩ := by
  unfold AddVote
  simp only [hslot, hvoter, hpoll, hpost, hvoteSet, hcntSet, JSONSet_fault, JSONSet_ok,
    if_neg hvoterCode, if_neg hpollCode]

theorem AddVote_exit_commit (w : World) (t : VoteApi) (db : Redis)
    (voterID pollID value voterCode pollCode postCode : Nat) (e : String)
    (hslot : (getVoteFromRedis w.slotGet db (AddVote.redisKey t) {}).2 = some e)
    (hvoter : AddVote.voterResp w t voterID = .status voterCode) (hvoterCode : voterCode ≠ 404)
    (hpoll : AddVote.pollResp w t pollID = .status pollCode) (hpollCode : pollCode ≠ 404)
    (hpost : AddVote.postResp w t voterID pollID = .status postCode) (hvoteSet : w.voteSet = none)
    (hcntSet : w.cntSet = none) :
    AddVote w t db voterID pollID value =
      ⟨AddVote.newVote t voterID pollID value, none, { t with idCnter := uintSucc t.idCnter },
        fun k => if k = RedisIDKey then some (.num (uintSucc t.idCnter)) else
          if k = AddVote.redisKey t then
            some (marshalVote (AddVote.newVote t voterID pollID value)) else db k,
        [.jsonGet (AddVote.redisKey t), .httpGet (AddVote.voterUrl t voterID),
         .httpGet (AddVote.pollUrl t pollID),
         .httpPost (AddVote.voterNewPollUrl w t voterID pollID),
         .jsonSet (AddVote.redisKey t) (marshalVote (AddVote.newVote t voterID pollID value)),
         .jsonSet RedisIDKey (.num (uintSucc t.idCnter))]⟩ := by
  unfold AddVote
  simp only [hslot, hvoter, hpoll, hpost, hvoteSet, hcntSet, JSONSet_ok, if_neg hvoterCode,
    if_neg hpollCode]

/-- A request that `resty` answers with a status was sent, and the status is the
answer of the network. -/
theorem Execute_status (url : String) (answer : Resp) (code : Nat)
    (h : Execute url answer = .status code) : answer = .status code := by
  unfold Execute at h
  split at h
  · exact h
  · cases h

/-- A request whose URL parses returns the answer of the network. -/
theorem Execute_valid (url : String) (answer : Resp) (h : validEscapes url.data = true) :
    Execute url answer = answer := by
  unfold Execute
  rw [if_pos h]

/-- A 404 from the Voter service, or from the Poll service once the voter GET was
answered, ends `AddVote` with an error and without a POST or a store write. -/
theorem AddVote_stops_on_404 (w : World) (t : VoteApi) (db : Redis) (voterID pollID value : Nat)
    (h : w.voterGet = .status 404 ∨
      ((∃ voterCode, w.voterGet = .status voterCode) ∧ w.pollGet = .status 404)) :
    (AddVote w t db voterID pollID value).err ≠ none ∧
      (AddVote w t db voterID pollID value).db = db ∧
      (AddVote w t db voterID pollID value).api = t ∧
      (AddVote w t db voterID pollID value).api.idCnter = t.idCnter ∧
      (∀ url, Effect.httpPost url ∉ (AddVote w t db voterID pollID value).trace) ∧
      (∀ key doc, Effect.jsonSet key doc ∉ (AddVote w t db voterID pollID value).trace) := by
  cases hslot : (getVoteFromRedis w.slotGet db (AddVote.redisKey t) {}).2 with
  | none =>
    rw [AddVote_exit_duplicate w t db voterID pollID value hslot]
    simp
  | some e =>
    cases hvoter : AddVote.voterResp w t voterID with
    | fail err =>
      rw [AddVote_exit_voter_fail w t db voterID pollID value e err hslot hvoter]
      simp
    | status voterCode =>
      by_cases hvc : voterCode = 404
      · rw [AddVote_exit_voter_404 w t db voterID pollID value e hslot (hvc ▸ hvoter)]
        simp
      · have hv := Execute_status _ _ _ hvoter
        cases hpoll : AddVote.pollResp w t pollID with
        | fail err =>
          rw [AddVote_exit_poll_fail w t db voterID pollID value voterCode e err hslot hvoter
            hvc hpoll]
          simp
        | status pollCode =>
          by_cases hpc : pollCode = 404
          · rw [AddVote_exit_poll_404 w t db voterID pollID value voterCode e hslot hvoter
              hvc (hpc ▸ hpoll)]
            simp
          · have hp := Execute_status _ _ _ hpoll
            rcases h with h | ⟨-, h⟩
            · rw [h] at hv
              cases hv
              exact absurd rfl hvc
            · rw [h] at hp
              cases hp
              exact absurd rfl hpc

/-- Every run of `AddVote` starts with the read of the slot of the next ID, writes no key
but that slot and the counter key, and on success returns the next ID. -/
theorem AddVote_next_slot (w : World) (t : VoteApi) (db : Redis)
    (voterID pollID value : Nat) :
    (AddVote w t db voterID pollID value).trace.head? =
        some (.jsonGet (redisKeyFromId (toInt (uintSucc t.idCnter)))) ∧
      (∀ key doc, Effect.jsonSet key doc ∈ (AddVote w t db voterID pollID value).trace →
        key = redisKeyFromId (toInt (uintSucc t.idCnter)) ∨ key = RedisIDKey) ∧
      ((AddVote w t db voterID pollID value).err = none →
        (AddVote w t db voterID pollID value).vote.VoteID = uintSucc t.idCnter) := by
  cases hslot : (getVoteFromRedis w.slotGet db (AddVote.redisKey t) {}).2 with
  | none =>
    rw [AddVote_exit_duplicate w t db voterID pollID value hslot]
    simp [AddVote.redisKey]
  | some e =>
    cases hvoter : AddVote.voterResp w t voterID with
    | fail err =>
      rw [AddVote_exit_voter_fail w t db voterID pollID value e err hslot hvoter]
      simp [AddVote.redisKey]
    | status voterCode =>
      by_cases hvc : voterCode = 404
      · rw [AddVote_exit_voter_404 w t db voterID pollID value e hslot (hvc ▸ hvoter)]
        simp [AddVote.redisKey]
      · cases hpoll : AddVote.pollResp w t pollID with
        | fail err =>
          rw [AddVote_exit_poll_fail w t db voterID pollID value voterCode e err hslot hvoter
            hvc hpoll]
          simp [AddVote.redisKey]
        | status pollCode =>
          by_cases hpc : pollCode = 404
          · rw [AddVote_exit_poll_404 w t db voterID pollID value voterCode e hslot hvoter
              hvc (hpc ▸ hpoll)]
            simp [AddVote.redisKey]
          · cases hpost : AddVote.postResp w t voterID pollID with
            | fail err =>
              rw [AddVote_exit_post_fail w t db voterID pollID value voterCode pollCode e err
                hslot hvoter hvc hpoll hpc hpost]
              simp [AddVote.redisKey]
            | status postCode =>
              cases hvs : w.voteSet with
              | some err =>
                rw [AddVote_exit_vote_fault w t db voterID pollID value voterCode pollCode
                  postCode e err hslot hvoter hvc hpoll hpc hpost hvs]
                simp [AddVote.redisKey]
              | none =>
                cases hcs : w.cntSet with
                | some err =>
                  rw [AddVote_exit_cnt_fault w t db voterID pollID value voterCode pollCode
                    postCode e err hslot hvoter hvc hpoll hpc hpost hvs hcs]
                  refine ⟨rfl, ?_, fun h => Option.noConfusion h⟩
                  intro key doc hmem
                  simp only [List.mem_cons, Effect.jsonSet.injEq, reduceCtorEq, false_or,
                    List.not_mem_nil, or_false] at hmem
                  rcases hmem with ⟨h, -⟩ | ⟨h, -⟩
                  · exact Or.inl h
                  · exact Or.inr h
                | none =>
                  rw [AddVote_exit_commit w t db voterID pollID value voterCode pollCode
                    postCode e hslot hvoter hvc hpoll hpc hpost hvs hcs]
                  refine ⟨rfl, ?_, fun _ => rfl⟩
                  intro key doc hmem
                  simp only [List.mem_cons, Effect.jsonSet.injEq, reduceCtorEq, false_or,
                    List.not_mem_nil, or_false] at hmem
                  rcases hmem with ⟨h, -⟩ | ⟨h, -⟩
                  · exact Or.inl h
                  · exact Or.inr h

/-- On a counter below `2 ^ 63 - 1` the key of the next slot is "vote:" followed by the
decimal rendering of the counter plus one. -/
theorem AddVote_redisKey_decimal (t : VoteApi) (h : t.idCnter + 1 < 9223372036854775808) :
    AddVote.redisKey t = "vote:" ++ toString (t.idCnter + 1) := by
  have h1 : uintSucc t.idCnter = t.idCnter + 1 := by unfold uintSucc; omega
  have h2 : toInt (t.idCnter + 1) = ((t.idCnter + 1 : Nat) : Int) := by
    unfold toInt; rw [if_pos h]
  unfold AddVote.redisKey redisKeyFromId
  rw [h1, h2]
  rfl

theorem PollService_redisKeyFromId_ne_RedisIDKey (id : Int) :
    PollService.redisKeyFromId id ≠ PollService.RedisIDKey := by
  intro h
  have h2 := congrArg String.data h
  simp [PollService.redisKeyFromId, PollService.RedisKeyPrefix, PollService.RedisIDKey,
    String.data_append] at h2

theorem VoterService_redisKeyFromId_ne_RedisIDKey (id : Int) :
    VoterService.redisKeyFromId id ≠ VoterService.RedisIDKey := by
  intro h
  have h2 := congrArg String.data h
  simp [VoterService.redisKeyFromId, VoterService.RedisKeyPrefix, VoterService.RedisIDKey,
    String.data_append] at h2

/-! ### The runs of `AddPoll` and `AddVoter`, one lemma per exit -/

theorem AddPoll_exit_duplicate (w : PollService.World) (t : PollService.PollApi) (db : Redis)
    (pollTitle pollQuestion : String) (pollOptions : Option (List String))
    (hslot : (PollService.getPollFromRedis w.grow w.slotGet db
      (PollService.AddPoll.redisKey t) {} []).2.2 = none) :
    PollService.AddPoll w t db pollTitle pollQuestion pollOptions =
      ⟨{}, some "Poll already exists!", t, db,
        [.jsonGet (PollService.AddPoll.redisKey t)]⟩ := by
  unfold PollService.AddPoll
  simp only [hslot]

theorem AddPoll_exit_poll_fault (w : PollService.World) (t : PollService.PollApi)
    (db : Redis) (pollTitle pollQuestion : String) (pollOptions : Option (List String))
    (e err : String)
    (hslot : (PollService.getPollFromRedis w.grow w.slotGet db
      (PollService.AddPoll.redisKey t) {} []).2.2 = some e)
    (hpollSet : w.pollSet = some err) :
    PollService.AddPoll w t db pollTitle pollQuestion pollOptions =
      ⟨{}, some err, t, db,
        [.jsonGet (PollService.AddPoll.redisKey t),
         .jsonSet (PollService.AddPoll.redisKey t)
           (PollService.marshalPoll
             (PollService.AddPoll.newPoll t pollTitle pollQuestion pollOptions))]⟩ := by
  unfold PollService.AddPoll
  simp only [hslot, hpollSet, JSONSet_fault]

theorem AddPoll_exit_cnt_fault (w : PollService.World) (t : PollService.PollApi)
    (db : Redis) (pollTitle pollQuestion : String) (pollOptions : Option (List String))
    (e err : String)
    (hslot : (PollService.getPollFromRedis w.grow w.slotGet db
      (PollService.AddPoll.redisKey t) {} []).2.2 = some e)
    (hpollSet : w.pollSet = none) (hcntSet : w.cntSet = some err) :
    PollService.AddPoll w t db pollTitle pollQuestion pollOptions =
      ⟨{}, some err, { t with idCnter := uintSucc t.idCnter },
        fun k => if k = PollService.AddPoll.redisKey t then
          some (PollService.marshalPoll
            (PollService.AddPoll.newPoll t pollTitle pollQuestion pollOptions))
          else db k,
        [.jsonGet (PollService.AddPoll.redisKey t),
         .jsonSet (PollService.AddPoll.redisKey t)
           (PollService.marshalPoll
             (PollService.AddPoll.newPoll t pollTitle pollQuestion pollOptions)),
         .jsonSet PollService.RedisIDKey (.num (uintSucc t.idCnter))]⟩ := by
  unfold PollService.AddPoll
  simp only [hslot, hpollSet, hcntSet, JSONSet_fault, JSONSet_ok]

theorem AddPoll_exit_commit (w : PollService.World) (t : PollService.PollApi)
    (db : Redis) (pollTitle pollQuestion : String) (pollOptions : Option (List String))
    (e : String)
    (hslot : (PollService.getPollFromRedis w.grow w.slotGet db
      (PollService.AddPoll.redisKey t) {} []).2.2 = some e)
    (hpollSet : w.pollSet = none) (hcntSet : w.cntSet = none) :
    PollService.AddPoll w t db pollTitle pollQuestion pollOptions =
      ⟨PollService.AddPoll.newPoll t pollTitle pollQuestion pollOptions, none,
        { t with idCnter := uintSucc t.idCnter },
        fun k => if k = PollService.RedisIDKey then some (.num (uintSucc t.idCnter)) else
          if k = PollService.AddPoll.redisKey t then
            some (PollService.marshalPoll
              (PollService.AddPoll.newPoll t pollTitle pollQuestion pollOptions))
          else db k,
        [.jsonGet (PollService.AddPoll.redisKey t),
         .jsonSet (PollService.AddPoll.redisKey t)
           (PollService.marshalPoll
             (PollService.AddPoll.newPoll t pollTitle pollQuestion pollOptions)),
         .jsonSet PollService.RedisIDKey (.num (uintSucc t.idCnter))]⟩ := by
  unfold PollService.AddPoll
  simp only [hslot, hpollSet, hcntSet, JSONSet_ok]

theorem AddVoter_exit_duplicate (w : VoterService.World) (t : VoterService.VoterAPI)
    (db : Redis) (fn ln : String)
    (hslot : (VoterService.getVoterFromRedis w.grow w.slotGet db
      (VoterService.AddVoter.redisKey t) {} []).2.2 = none) :
    VoterService.AddVoter w t db fn ln =
      ⟨{}, some "Voter already exists!", t, db,
        [.jsonGet (VoterService.AddVoter.redisKey t)]⟩ := by
  unfold VoterService.AddVoter
  simp only [hslot]

theorem AddVoter_exit_voter_fault (w : VoterService.World) (t : VoterService.VoterAPI)
    (db : Redis) (fn ln : String) (e err : String)
    (hslot : (VoterService.getVoterFromRedis w.grow w.slotGet db
      (VoterService.AddVoter.redisKey t) {} []).2.2 = some e)
    (hvoterSet : w.voterSet = some err) :
    VoterService.AddVoter w t db fn ln =
      ⟨{}, some err, t, db,
        [.jsonGet (VoterService.AddVoter.redisKey t),
         .jsonSet (VoterService.AddVoter.redisKey t)
           (VoterService.marshalVoter (VoterService.AddVoter.newVoter t fn ln))]⟩ := by
  unfold VoterService.AddVoter
  simp only [hslot, hvoterSet, JSONSet_fault]

theorem AddVoter_exit_cnt_fault (w : VoterService.World) (t : VoterService.VoterAPI)
    (db : Redis) (fn ln : String) (e err : String)
    (hslot : (VoterService.getVoterFromRedis w.grow w.slotGet db
      (VoterService.AddVoter.redisKey t) {} []).2.2 = some e)
    (hvoterSet : w.voterSet = none) (hcntSet : w.cntSet = some err) :
    VoterService.AddVoter w t db fn ln =
      ⟨{}, some err, { t with idCnter := uintSucc t.idCnter },
        fun k => if k = VoterService.AddVoter.redisKey t then
          some (VoterService.marshalVoter (VoterService.AddVoter.newVoter t fn ln))
          else db k,
        [.jsonGet (VoterService.AddVoter.redisKey t),
         .jsonSet (VoterService.AddVoter.redisKey t)
           (VoterService.marshalVoter (VoterService.AddVoter.newVoter t fn ln)),
         .jsonSet VoterService.RedisIDKey (.num (uintSucc t.idCnter))]⟩ := by
  unfold VoterService.AddVoter
  simp only [hslot, hvoterSet, hcntSet, JSONSet_fault, JSONSet_ok]

theorem AddVoter_exit_commit (w : VoterService.World) (t : VoterService.VoterAPI)
    (db : Redis) (fn ln : String) (e : String)
    (hslot : (VoterService.getVoterFromRedis w.grow w.slotGet db
      (VoterService.AddVoter.redisKey t) {} []).2.2 = some e)
    (hvoterSet : w.voterSet = none) (hcntSet : w.cntSet = none) :
    VoterService.AddVoter w t db fn ln =
      ⟨VoterService.AddVoter.newVoter t fn ln, none,
        { t with idCnter := uintSucc t.idCnter },
        fun k => if k = VoterService.RedisIDKey then some (.num (uintSucc t.idCnter)) else
          if k = VoterService.AddVoter.redisKey t then
            some (VoterService.marshalVoter (VoterService.AddVoter.newVoter t fn ln))
          else db k,
        [.jsonGet (VoterService.AddVoter.redisKey t),
         .jsonSet (VoterService.AddVoter.redisKey t)
           (VoterService.marshalVoter (VoterService.AddVoter.newVoter t fn ln)),
         .jsonSet VoterService.RedisIDKey (.num (uintSucc t.idCnter))]⟩ := by
  unfold VoterService.AddVoter
  simp only [hslot, hvoterSet, hcntSet, JSONSet_ok]

/-- What one `AddVote` does to the counter and to each key of the store: the counter
stays or advances by one, a successful call returns the advanced counter as `VoteID`, and
a key keeps its document, or receives the new `Vote` (then the counter advanced), or
receives a number (the counter document). -/
theorem AddVote_step (w : World) (t : VoteApi) (db : Redis) (voterID pollID value : Nat) :
    ((AddVote w t db voterID pollID value).api.idCnter = t.idCnter ∨
      (AddVote w t db voterID pollID value).api.idCnter = uintSucc t.idCnter) ∧
    ((AddVote w t db voterID pollID value).err = none →
      (AddVote w t db voterID pollID value).api.idCnter = uintSucc t.idCnter ∧
      (AddVote w t db voterID pollID value).vote.VoteID = uintSucc t.idCnter) ∧
    (∀ key, (AddVote w t db voterID pollID value).db key = db key ∨
      ((AddVote w t db voterID pollID value).db key =
          some (marshalVote (AddVote.newVote t voterID pollID value)) ∧
        (AddVote w t db voterID pollID value).api.idCnter = uintSucc t.idCnter) ∨
      ∃ n, (AddVote w t db voterID pollID value).db key = some (.num n)) := by
  cases hslot : (getVoteFromRedis w.slotGet db (AddVote.redisKey t) {}).2 with
  | none =>
    rw [AddVote_exit_duplicate w t db voterID pollID value hslot]
    simp
  | some e =>
    cases hvoter : AddVote.voterResp w t voterID with
    | fail err =>
      rw [AddVote_exit_voter_fail w t db voterID pollID value e err hslot hvoter]
      simp
    | status voterCode =>
      by_cases hvc : voterCode = 404
      · rw [AddVote_exit_voter_404 w t db voterID pollID value e hslot (hvc ▸ hvoter)]
        simp
      · cases hpoll : AddVote.pollResp w t pollID with
        | fail err =>
          rw [AddVote_exit_poll_fail w t db voterID pollID value voterCode e err hslot hvoter
            hvc hpoll]
          simp
        | status pollCode =>
          by_cases hpc : pollCode = 404
          · rw [AddVote_exit_poll_404 w t db voterID pollID value voterCode e hslot hvoter
              hvc (hpc ▸ hpoll)]
            simp
          · cases hpost : AddVote.postResp w t voterID pollID with
            | fail err =>
              rw [AddVote_exit_post_fail w t db voterID pollID value voterCode pollCode e err
                hslot hvoter hvc hpoll hpc hpost]
              simp
            | status postCode =>
              cases hvs : w.voteSet with
              | some err =>
                rw [AddVote_exit_vote_fault w t db voterID pollID value voterCode pollCode
                  postCode e err hslot hvoter hvc hpoll hpc hpost hvs]
                simp
              | none =>
                cases hcs : w.cntSet with
                | some err =>
                  rw [AddVote_exit_cnt_fault w t db voterID pollID value voterCode pollCode
                    postCode e err hslot hvoter hvc hpoll hpc hpost hvs hcs]
                  refine ⟨Or.inr rfl, fun h => Option.noConfusion h, fun key => ?_⟩
                  by_cases hk : key = AddVote.redisKey t
                  · exact Or.inr (Or.inl ⟨if_pos hk, rfl⟩)
                  · exact Or.inl (if_neg hk)
                | none =>
                  rw [AddVote_exit_commit w t db voterID pollID value voterCode pollCode
                    postCode e hslot hvoter hvc hpoll hpc hpost hvs hcs]
                  refine ⟨Or.inr rfl, fun _ => ⟨rfl, rfl⟩, fun key => ?_⟩
                  by_cases hc : key = RedisIDKey
                  · exact Or.inr (Or.inr ⟨_, if_pos hc⟩)
                  · by_cases hk : key = AddVote.redisKey t
                    · refine Or.inr (Or.inl ⟨?_, rfl⟩)
                      show (if key = RedisIDKey then _ else _) = _
                      rw [if_neg hc, if_pos hk]
                    · refine Or.inl ?_
                      show (if key = RedisIDKey then _ else _) = _
                      rw [if_neg hc, if_neg hk]

theorem unmarshalVoteFields_nil (v : Vote) (e : Option String) :
    unmarshalVoteFields [] v e = (v, e) := by
  simp only [unmarshalVoteFields]

theorem unmarshalVote_marshalVote_fields (v tgt : Vote) :
    unmarshalVote (marshalVote v) tgt =
      unmarshalVoteFields [("voteID", .num v.VoteID), ("voterID", .num v.VoterID),
        ("pollID", .num v.PollID), ("voteValue", .num v.VoteValue)] tgt none := rfl

/-- The `VoteID` decoded from an object whose first member is an in-range `voteID` and
whose other members are the three other tags is that number, whatever the other members
hold. -/
theorem unmarshalVoteFields_VoteID (n : Nat) (x1 x2 x3 : JSON) (tgt : Vote)
    (h : n < 18446744073709551616) :
    (unmarshalVoteFields [("voteID", .num n), ("voterID", x1), ("pollID", x2),
      ("voteValue", x3)] tgt none).1.VoteID = n := by
  rw [unmarshalVoteFields_voteID, unmarshalUint_num _ _ h, unmarshalVoteFields_voterID,
    unmarshalVoteFields_pollID, unmarshalVoteFields_voteValue, unmarshalVoteFields_nil]

/-- One `AddVote` on a counter that does not wrap keeps the counter above the IDs in the
store. -/
theorem AddVote_CounterBounds (w : World) (t : VoteApi) (db : Redis)
    (voterID pollID value : Nat) (hinv : CounterBounds t db)
    (hroom : t.idCnter + 1 < 18446744073709551616) :
    CounterBounds (AddVote w t db voterID pollID value).api
        (AddVote w t db voterID pollID value).db ∧
      t.idCnter ≤ (AddVote w t db voterID pollID value).api.idCnter ∧
      (AddVote w t db voterID pollID value).api.idCnter ≤ t.idCnter + 1 := by
  have hs : uintSucc t.idCnter = t.idCnter + 1 := by unfold uintSucc; omega
  obtain ⟨hcnt, -, hkeys⟩ := AddVote_step w t db voterID pollID value
  rw [hs] at hcnt hkeys
  have hle : t.idCnter ≤ (AddVote w t db voterID pollID value).api.idCnter := by
    rcases hcnt with h | h <;> omega
  refine ⟨?_, hle, by rcases hcnt with h | h <;> omega⟩
  intro key doc hdoc hdec
  rcases hkeys key with h | ⟨h, hc⟩ | ⟨n, h⟩
  · rw [h] at hdoc
    exact le_trans (hinv key doc hdoc hdec) hle
  · rw [h] at hdoc
    cases hdoc
    rw [unmarshalVote_marshalVote_fields,
      unmarshalVoteFields_VoteID (AddVote.newVote t voterID pollID value).VoteID _ _ _ _
        (uintSucc_lt t.idCnter), hc]
    exact le_of_eq hs
  · rw [h] at hdoc
    cases hdoc
    exact absurd hdec (by simp [unmarshalVote])

/-- A key that is neither the slot of the next ID nor the counter key keeps its document
through `AddVote`. -/
theorem AddVote_other_keys (w : World) (t : VoteApi) (db : Redis)
    (voterID pollID value : Nat) (key : String)
    (hk : key ≠ AddVote.redisKey t) (hc : key ≠ RedisIDKey) :
    (AddVote w t db voterID pollID value).db key = db key := by
  cases hslot : (getVoteFromRedis w.slotGet db (AddVote.redisKey t) {}).2 with
  | none => rw [AddVote_exit_duplicate w t db voterID pollID value hslot]
  | some e =>
    cases hvoter : AddVote.voterResp w t voterID with
    | fail err => rw [AddVote_exit_voter_fail w t db voterID pollID value e err hslot hvoter]
    | status voterCode =>
      by_cases hvc : voterCode = 404
      · rw [AddVote_exit_voter_404 w t db voterID pollID value e hslot (hvc ▸ hvoter)]
      · cases hpoll : AddVote.pollResp w t pollID with
        | fail err =>
          rw [AddVote_exit_poll_fail w t db voterID pollID value voterCode e err hslot hvoter
            hvc hpoll]
        | status pollCode =>
          by_cases hpc : pollCode = 404
          · rw [AddVote_exit_poll_404 w t db voterID pollID value voterCode e hslot hvoter
              hvc (hpc ▸ hpoll)]
          · cases hpost : AddVote.postResp w t voterID pollID with
            | fail err =>
              rw [AddVote_exit_post_fail w t db voterID pollID value voterCode pollCode e err
                hslot hvoter hvc hpoll hpc hpost]
            | status postCode =>
              cases hvs : w.voteSet with
              | some err =>
                rw [AddVote_exit_vote_fault w t db voterID pollID value voterCode pollCode
                  postCode e err hslot hvoter hvc hpoll hpc hpost hvs]
              | none =>
                cases hcs : w.cntSet with
                | some err =>
                  rw [AddVote_exit_cnt_fault w t db voterID pollID value voterCode pollCode
                    postCode e err hslot hvoter hvc hpoll hpc hpost hvs hcs]
                  exact if_neg hk
                | none =>
                  rw [AddVote_exit_commit w t db voterID pollID value voterCode pollCode
                    postCode e hslot hvoter hvc hpoll hpc hpost hvs hcs]
                  show (if key = RedisIDKey then _ else _) = _
                  rw [if_neg hc, if_neg hk]

/-- A Poll service that starts on a reachable store whose counter document decodes to
`n` holds the counter `n`. -/
theorem NewPollApi_loads (b : Boot) (db : Redis) (doc : JSON) (n : Nat)
    (hping : b.ping = none) (hcnt : b.cntGet = none)
    (hdb : db PollService.RedisIDKey = some doc) (hu : unmarshalUint doc 0 = (n, none)) :
    (PollService.NewPollApi b db).2 = none ∧ (PollService.NewPollApi b db).1.idCnter = n := by
  simp [PollService.NewPollApi, PollService.NewDbWithInstance, hping, hcnt, JSONGet, hdb, hu]

/-- A Voter service that starts on a reachable store whose counter document decodes to
`n` holds the counter `n`. -/
theorem NewVoterApi_loads (b : Boot) (db : Redis) (doc : JSON) (n : Nat)
    (hping : b.ping = none) (hcnt : b.cntGet = none)
    (hdb : db VoterService.RedisIDKey = some doc) (hu : unmarshalUint doc 0 = (n, none)) :
    (VoterService.NewVoterApi b db).2 = none ∧
      (VoterService.NewVoterApi b db).1.idCnter = n := by
  simp [VoterService.NewVoterApi, VoterService.NewDbWithInstance, hping, hcnt, JSONGet, hdb,
    hu]

/-- A Vote service that starts on a reachable store whose counter document decodes to
`n` holds the counter `n`. -/
theorem NewVoteApi_loads (b : Boot) (db : Redis) (doc : JSON) (n : Nat)
    (hping : b.ping = none) (hcnt : b.cntGet = none)
    (hdb : db RedisIDKey = some doc) (hu : unmarshalUint doc 0 = (n, none)) :
    (NewVoteApi b db).2 = none ∧ (NewVoteApi b db).1.idCnter = n := by
  simp [NewVoteApi, NewDbWithInstance, hping, hcnt, JSONGet, hdb, hu]

/-! ### The error of a decode does not depend on the decode target -/

theorem unmarshalUint_err (x : JSON) (a b : Nat) :
    (unmarshalUint x a).2 = (unmarshalUint x b).2 := by
  cases x <;> simp only [unmarshalUint]
  split <;> rfl

theorem unmarshalString_err (x : JSON) (a b : String) :
    (unmarshalString x a).2 = (unmarshalString x b).2 := by
  cases x <;> rfl

theorem unmarshalVoteFields_err (fields : List (String × JSON)) :
    ∀ (v v' : Vote) (e : Option String),
      (unmarshalVoteFields fields v e).2 = (unmarshalVoteFields fields v' e).2 := by
  induction fields with
  | nil => intro v v' e; simp only [unmarshalVoteFields]
  | cons kx rest ih =>
    intro v v' e
    obtain ⟨k, x⟩ := kx
    simp only [unmarshalVoteFields]
    split
    · rw [unmarshalUint_err x v.VoteID v'.VoteID]; exact ih _ _ _
    · split
      · rw [unmarshalUint_err x v.VoterID v'.VoterID]; exact ih _ _ _
      · split
        · rw [unmarshalUint_err x v.PollID v'.PollID]; exact ih _ _ _
        · split
          · rw [unmarshalUint_err x v.VoteValue v'.VoteValue]; exact ih _ _ _
          · exact ih _ _ _

theorem unmarshalVote_err (doc : JSON) (v v' : Vote) :
    (unmarshalVote doc v).2 = (unmarshalVote doc v').2 := by
  cases doc <;> simp only [unmarshalVote]
  exact unmarshalVoteFields_err _ _ _ _

theorem getVoteFromRedis_err (fault : Option String) (db : Redis) (key : String)
    (v v' : Vote) :
    (getVoteFromRedis fault db key v).2 = (getVoteFromRedis fault db key v').2 := by
  unfold getVoteFromRedis
  cases JSONGet fault db key with
  | error e => rfl
  | ok doc => exact unmarshalVote_err doc v v'

theorem unmarshalArray_err {α : Type} (grow grow' : Nat → Nat) (zero : α)
    (elem : JSON → α → α × Option String)
    (helem : ∀ x a b, (elem x a).2 = (elem x b).2) (items : List JSON) :
    ∀ (i i' : Nat) (h h' : Heap α) (s s' : Slice) (e : Option String),
      (unmarshalArray grow zero elem items i h s e).2.2 =
        (unmarshalArray grow' zero elem items i' h' s' e).2.2 := by
  induction items with
  | nil =>
    intro i i' h h' s s' e
    simp only [unmarshalArray]
    split <;> split <;> rfl
  | cons x rest ih =>
    intro i i' h h' s s' e
    simp only [unmarshalArray]
    rw [helem x _ (zero)]
    conv => rhs; rw [helem x _ (zero)]
    exact ih _ _ _ _ _ _ _

theorem unmarshalSlice_err {α : Type} (grow grow' : Nat → Nat) (zero : α)
    (elem : JSON → α → α × Option String)
    (helem : ∀ x a b, (elem x a).2 = (elem x b).2) (x : JSON) (h h' : Heap α)
    (old old' : Option Slice) :
    (unmarshalSlice grow zero elem x h old).2.2 =
      (unmarshalSlice grow' zero elem x h' old').2.2 := by
  cases x <;> simp only [unmarshalSlice]
  exact unmarshalArray_err grow grow' zero elem helem _ _ _ _ _ _ _ _

theorem unmarshalPollFields_err (grow grow' : Nat → Nat) (fields : List (String × JSON)) :
    ∀ (p p' : PollService.PollVar) (h h' : Heap String) (e : Option String),
      (PollService.unmarshalPollFields grow fields p h e).2.2 =
        (PollService.unmarshalPollFields grow' fields p' h' e).2.2 := by
  induction fields with
  | nil => intro p p' h h' e; simp only [PollService.unmarshalPollFields]
  | cons kx rest ih =>
    intro p p' h h' e
    obtain ⟨k, x⟩ := kx
    simp only [PollService.unmarshalPollFields]
    split
    · rw [unmarshalUint_err x p.PollID p'.PollID]; exact ih _ _ _ _ _
    · split
      · rw [unmarshalString_err x p.PollTitle p'.PollTitle]; exact ih _ _ _ _ _
      · split
        · rw [unmarshalString_err x p.PollQuestion p'.PollQuestion]; exact ih _ _ _ _ _
        · split
          · rw [unmarshalSlice_err grow grow' "" unmarshalString unmarshalString_err x h h'
              p.PollOptions p'.PollOptions]
            exact ih _ _ _ _ _
          · exact ih _ _ _ _ _

theorem getPollFromRedis_err (grow grow' : Nat → Nat) (fault : Option String) (db : Redis)
    (key : String) (p p' : PollService.PollVar) (h h' : Heap String) :
    (PollService.getPollFromRedis grow fault db key p h).2.2 =
      (PollService.getPollFromRedis grow' fault db key p' h').2.2 := by
  unfold PollService.getPollFromRedis
  cases JSONGet fault db key with
  | error e => rfl
  | ok doc =>
    cases doc <;> simp only [PollService.unmarshalPoll]
    exact unmarshalPollFields_err grow grow' _ _ _ _ _ _

theorem unmarshalVoterFields_err (grow grow' : Nat → Nat) (fields : List (String × JSON)) :
    ∀ (v v' : VoterService.VoterVar) (h h' : Heap Nat) (e : Option String),
      (VoterService.unmarshalVoterFields grow fields v h e).2.2 =
        (VoterService.unmarshalVoterFields grow' fields v' h' e).2.2 := by
  induction fields with
  | nil => intro v v' h h' e; simp only [VoterService.unmarshalVoterFields]
  | cons kx rest ih =>
    intro v v' h h' e
    obtain ⟨k, x⟩ := kx
    simp only [VoterService.unmarshalVoterFields]
    split
    · rw [unmarshalUint_err x v.VoterID v'.VoterID]; exact ih _ _ _ _ _
    · split
      · rw [unmarshalString_err x v.FirstName v'.FirstName]; exact ih _ _ _ _ _
      · split
        · rw [unmarshalString_err x v.LastName v'.LastName]; exact ih _ _ _ _ _
        · split
          · rw [unmarshalSlice_err grow grow' 0 unmarshalUint unmarshalUint_err x h h'
              v.VoteHistory v'.VoteHistory]
            exact ih _ _ _ _ _
          · exact ih _ _ _ _ _

theorem getVoterFromRedis_err (grow grow' : Nat → Nat) (fault : Option String) (db : Redis)
    (key : String) (v v' : VoterService.VoterVar) (h h' : Heap Nat) :
    (VoterService.getVoterFromRedis grow fault db key v h).2.2 =
      (VoterService.getVoterFromRedis grow' fault db key v' h').2.2 := by
  unfold VoterService.getVoterFromRedis
  cases JSONGet fault db key with
  | error e => rfl
  | ok doc =>
    cases doc <;> simp only [VoterService.unmarshalVoter]
    exact unmarshalVoterFields_err grow grow' _ _ _ _ _ _

/-! ### The listing loops -/

theorem GetAllVotesLoop_ok (fault : String → Option String) (db : Redis) (ks : List String) :
    (∀ key ∈ ks, (getVoteFromRedis (fault key) db key {}).2 = none) →
    ∀ (vt : Vote) (voteList : List Vote),
      (GetAllVotesLoop fault db ks vt voteList).2 = none ∧
      (GetAllVotesLoop fault db ks vt voteList).1.length = voteList.length + ks.length := by
  induction ks with
  | nil => intro _ vt voteList; simp [GetAllVotesLoop]
  | cons key ks ih =>
    intro hall vt voteList
    have hk : (getVoteFromRedis (fault key) db key vt).2 = none := by
      rw [getVoteFromRedis_err _ _ _ vt {}]; exact hall key (List.mem_cons_self _ _)
    obtain ⟨h1, h2⟩ := ih (fun k hk => hall k (List.mem_cons_of_mem _ hk))
      (getVoteFromRedis (fault key) db key vt).1
      (voteList ++ [(getVoteFromRedis (fault key) db key vt).1])
    cases hr : getVoteFromRedis (fault key) db key vt with
    | mk vt1 e =>
      rw [hr] at hk h1 h2
      simp only at hk h1 h2
      subst hk
      simp only [GetAllVotesLoop, hr]
      refine ⟨h1, ?_⟩
      rw [h2]
      simp only [List.length_append, List.length_cons, List.length_nil]
      omega

theorem GetAllVotesLoop_fail (fault : String → Option String) (db : Redis)
    (ks : List String) :
    (∃ key ∈ ks, (getVoteFromRedis (fault key) db key {}).2 ≠ none) →
    ∀ (vt : Vote) (voteList : List Vote),
      (GetAllVotesLoop fault db ks vt voteList).1 = [] ∧
      ∃ key ∈ ks, (getVoteFromRedis (fault key) db key {}).2 ≠ none ∧
        (GetAllVotesLoop fault db ks vt voteList).2 =
          (getVoteFromRedis (fault key) db key {}).2 := by
  induction ks with
  | nil => rintro ⟨key, hk, -⟩; simp at hk
  | cons key ks ih =>
    intro hex vt voteList
    cases hr : getVoteFromRedis (fault key) db key vt with
    | mk vt1 e =>
      have he : (getVoteFromRedis (fault key) db key {}).2 = e := by
        rw [getVoteFromRedis_err _ _ _ {} vt, hr]
      cases e with
      | some err =>
        simp only [GetAllVotesLoop, hr]
        exact ⟨trivial, key, List.mem_cons_self _ _, by rw [he]; simp, he.symm⟩
      | none =>
        simp only [GetAllVotesLoop, hr]
        have hex' : ∃ k ∈ ks, (getVoteFromRedis (fault k) db k {}).2 ≠ none := by
          obtain ⟨k, hk, hne⟩ := hex
          rcases List.mem_cons.mp hk with h | h
          · subst h; exact absurd he hne
          · exact ⟨k, h, hne⟩
        obtain ⟨h1, k, hk, hne, h2⟩ := ih hex' vt1 (voteList ++ [vt1])
        exact ⟨h1, k, List.mem_cons_of_mem _ hk, hne, h2⟩

theorem GetAllPollsLoop_ok (grow : Nat → Nat) (fault : String → Option String) (db : Redis)
    (ks : List String) :
    (∀ key ∈ ks, (PollService.getPollFromRedis grow (fault key) db key {} []).2.2 = none) →
    ∀ (poll : PollService.PollVar) (h : Heap String) (pollList : List PollService.PollVar),
      (PollService.GetAllPollsLoop grow fault db ks poll h pollList).2.2 = none ∧
      (PollService.GetAllPollsLoop grow fault db ks poll h pollList).1.length =
        pollList.length + ks.length := by
  induction ks with
  | nil => intro _ poll h pollList; simp [PollService.GetAllPollsLoop]
  | cons key ks ih =>
    intro hall poll h pollList
    have hk : (PollService.getPollFromRedis grow (fault key) db key poll h).2.2 = none := by
      rw [getPollFromRedis_err grow grow _ _ _ poll {} h []]
      exact hall key (List.mem_cons_self _ _)
    cases hr : PollService.getPollFromRedis grow (fault key) db key poll h with
    | mk poll1 he =>
      obtain ⟨h1, e⟩ := he
      rw [hr] at hk
      simp only at hk
      subst hk
      obtain ⟨i1, i2⟩ := ih (fun k hk => hall k (List.mem_cons_of_mem _ hk)) poll1 h1
        (pollList ++ [poll1])
      simp only [PollService.GetAllPollsLoop, hr]
      refine ⟨i1, ?_⟩
      rw [i2]
      simp only [List.length_append, List.length_cons, List.length_nil]
      omega

theorem GetAllPollsLoop_fail (grow : Nat → Nat) (fault : String → Option String)
    (db : Redis) (ks : List String) :
    (∃ key ∈ ks, (PollService.getPollFromRedis grow (fault key) db key {} []).2.2 ≠ none) →
    ∀ (poll : PollService.PollVar) (h : Heap String) (pollList : List PollService.PollVar),
      (PollService.GetAllPollsLoop grow fault db ks poll h pollList).1 = [] ∧
      ∃ key ∈ ks, (PollService.getPollFromRedis grow (fault key) db key {} []).2.2 ≠ none ∧
        (PollService.GetAllPollsLoop grow fault db ks poll h pollList).2.2 =
          (PollService.getPollFromRedis grow (fault key) db key {} []).2.2 := by
  induction ks with
  | nil => rintro ⟨key, hk, -⟩; simp at hk
  | cons key ks ih =>
    intro hex poll h pollList
    cases hr : PollService.getPollFromRedis grow (fault key) db key poll h with
    | mk poll1 he =>
      obtain ⟨h1, e⟩ := he
      have he : (PollService.getPollFromRedis grow (fault key) db key {} []).2.2 = e := by
        rw [getPollFromRedis_err grow grow _ _ _ {} poll [] h, hr]
      cases e with
      | some err =>
        simp only [PollService.GetAllPollsLoop, hr]
        exact ⟨trivial, key, List.mem_cons_self _ _, by rw [he]; simp, he.symm⟩
      | none =>
        simp only [PollService.GetAllPollsLoop, hr]
        have hex' : ∃ k ∈ ks,
            (PollService.getPollFromRedis grow (fault k) db k {} []).2.2 ≠ none := by
          obtain ⟨k, hk, hne⟩ := hex
          rcases List.mem_cons.mp hk with h | h
          · subst h; exact absurd he hne
          · exact ⟨k, h, hne⟩
        obtain ⟨j1, k, hk, hne, j2⟩ := ih hex' poll1 h1 (pollList ++ [poll1])
        exact ⟨j1, k, List.mem_cons_of_mem _ hk, hne, j2⟩

theorem GetAllVotersLoop_ok (grow : Nat → Nat) (fault : String → Option String) (db : Redis)
    (ks : List String) :
    (∀ key ∈ ks, (VoterService.getVoterFromRedis grow (fault key) db key {} []).2.2 = none) →
    ∀ (vtr : VoterService.VoterVar) (h : Heap Nat) (voterList : List VoterService.VoterVar),
      (VoterService.GetAllVotersLoop grow fault db ks vtr h voterList).2.2 = none ∧
      (VoterService.GetAllVotersLoop grow fault db ks vtr h voterList).1.length =
        voterList.length + ks.length := by
  induction ks with
  | nil => intro _ vtr h voterList; simp [VoterService.GetAllVotersLoop]
  | cons key ks ih =>
    intro hall vtr h voterList
    have hk : (VoterService.getVoterFromRedis grow (fault key) db key vtr h).2.2 = none := by
      rw [getVoterFromRedis_err grow grow _ _ _ vtr {} h []]
      exact hall key (List.mem_cons_self _ _)
    cases hr : VoterService.getVoterFromRedis grow (fault key) db key vtr h with
    | mk vtr1 he =>
      obtain ⟨h1, e⟩ := he
      rw [hr] at hk
      simp only at hk
      subst hk
      obtain ⟨i1, i2⟩ := ih (fun k hk => hall k (List.mem_cons_of_mem _ hk)) vtr1 h1
        (voterList ++ [vtr1])
      simp only [VoterService.GetAllVotersLoop, hr]
      refine ⟨i1, ?_⟩
      rw [i2]
      simp only [List.length_append, List.length_cons, List.length_nil]
      omega

theorem GetAllVotersLoop_fail (grow : Nat → Nat) (fault : String → Option String)
    (db : Redis) (ks : List String) :
    (∃ key ∈ ks,
      (VoterService.getVoterFromRedis grow (fault key) db key {} []).2.2 ≠ none) →
    ∀ (vtr : VoterService.VoterVar) (h : Heap Nat) (voterList : List VoterService.VoterVar),
      (VoterService.GetAllVotersLoop grow fault db ks vtr h voterList).1 = [] ∧
      ∃ key ∈ ks,
        (VoterService.getVoterFromRedis grow (fault key) db key {} []).2.2 ≠ none ∧
        (VoterService.GetAllVotersLoop grow fault db ks vtr h voterList).2.2 =
          (VoterService.getVoterFromRedis grow (fault key) db key {} []).2.2 := by
  induction ks with
  | nil => rintro ⟨key, hk, -⟩; simp at hk
  | cons key ks ih =>
    intro hex vtr h voterList
    cases hr : VoterService.getVoterFromRedis grow (fault key) db key vtr h with
    | mk vtr1 he =>
      obtain ⟨h1, e⟩ := he
      have he : (VoterService.getVoterFromRedis grow (fault key) db key {} []).2.2 = e := by
        rw [getVoterFromRedis_err grow grow _ _ _ {} vtr [] h, hr]
      cases e with
      | some err =>
        simp only [VoterService.GetAllVotersLoop, hr]
        exact ⟨trivial, key, List.mem_cons_self _ _, by rw [he]; simp, he.symm⟩
      | none =>
        simp only [VoterService.GetAllVotersLoop, hr]
        have hex' : ∃ k ∈ ks,
            (VoterService.getVoterFromRedis grow (fault k) db k {} []).2.2 ≠ none := by
          obtain ⟨k, hk, hne⟩ := hex
          rcases List.mem_cons.mp hk with h | h
          · subst h; exact absurd he hne
          · exact ⟨k, h, hne⟩
        obtain ⟨j1, k, hk, hne, j2⟩ := ih hex' vtr1 h1 (voterList ++ [vtr1])
        exact ⟨j1, k, List.mem_cons_of_mem _ hk, hne, j2⟩

/-! ### The decimal rendering of an ID is injective -/

theorem toDigitsCore_digits (fuel : Nat) :
    ∀ (n : Nat) (ds : List Char), 0 < n → n < fuel →
      Nat.toDigitsCore 10 fuel n ds =
        ((Nat.digits 10 n).reverse.map Nat.digitChar) ++ ds := by
  induction fuel with
  | zero => intro n ds _ h; omega
  | succ fuel ih =>
    intro n ds hpos hlt
    rw [Nat.digits_def' (by decide) hpos]
    simp only [Nat.toDigitsCore]
    by_cases h0 : n / 10 = 0
    · simp [h0]
    · rw [if_neg h0, ih (n / 10) _ (Nat.pos_of_ne_zero h0) (by omega)]
      simp

theorem toString_nat_data (n : Nat) :
    (toString n).data =
      if n = 0 then ['0'] else (Nat.digits 10 n).reverse.map Nat.digitChar := by
  by_cases h : n = 0
  · subst h; rfl
  · rw [if_neg h]
    show (Nat.toDigitsCore 10 (n + 1) n []) = _
    rw [toDigitsCore_digits (n + 1) n [] (Nat.pos_of_ne_zero h) (by omega)]
    simp

theorem digitChar_inj (a b : Nat) (ha : a < 10) (hb : b < 10)
    (h : Nat.digitChar a = Nat.digitChar b) : a = b := by
  interval_cases a <;> interval_cases b <;> first | rfl | (exact absurd h (by decide))

theorem digitChar_ne_minus (a : Nat) (ha : a < 10) : Nat.digitChar a ≠ '-' := by
  interval_cases a <;> decide

theorem map_digitChar_inj : ∀ (l l' : List Nat), (∀ d ∈ l, d < 10) → (∀ d ∈ l', d < 10) →
    l.map Nat.digitChar = l'.map Nat.digitChar → l = l'
  | [], [], _, _, _ => rfl
  | [], _ :: _, _, _, h => by simp at h
  | _ :: _, [], _, _, h => by simp at h
  | a :: l, b :: l', hl, hl', h => by
    simp only [List.map_cons, List.cons.injEq] at h
    rw [digitChar_inj a b (hl a (List.mem_cons_self _ _)) (hl' b (List.mem_cons_self _ _)) h.1,
      map_digitChar_inj l l' (fun d hd => hl d (List.mem_cons_of_mem _ hd))
        (fun d hd => hl' d (List.mem_cons_of_mem _ hd)) h.2]

theorem toString_nat_inj (a b : Nat) (h : toString a = toString b) : a = b := by
  have hd := congrArg String.data h
  rw [toString_nat_data, toString_nat_data] at hd
  have hlt : ∀ n, ∀ d ∈ (Nat.digits 10 n).reverse, d < 10 := fun n d hd =>
    Nat.digits_lt_base (by decide) (List.mem_reverse.mp hd)
  have hzero : ∀ n, n ≠ 0 → ['0'] ≠ (Nat.digits 10 n).reverse.map Nat.digitChar := by
    intro n hn heq
    have h1 : [0].map Nat.digitChar = (Nat.digits 10 n).reverse.map Nat.digitChar := heq
    have h2 := map_digitChar_inj [0] _ (by simp) (hlt n) h1
    have h3 : Nat.digits 10 n = [0] := by
      have := congrArg List.reverse h2
      simpa using this.symm
    have h4 := Nat.getLast_digit_ne_zero 10 hn
    simp [h3] at h4
  by_cases ha : a = 0
  · by_cases hb : b = 0
    · rw [ha, hb]
    · rw [if_pos ha, if_neg hb] at hd
      exact absurd hd (hzero b hb)
  · by_cases hb : b = 0
    · rw [if_neg ha, if_pos hb] at hd
      exact absurd hd.symm (hzero a ha)
    · rw [if_neg ha, if_neg hb] at hd
      have h2 := map_digitChar_inj _ _ (hlt a) (hlt b) hd
      have h3 : Nat.digits 10 a = Nat.digits 10 b := by
        have := congrArg List.reverse h2
        simpa using this
      exact Nat.digits_inj_iff.mp h3

theorem toString_nat_no_minus (a : Nat) : ∀ c ∈ (toString a).data, c ≠ '-' := by
  intro c hc
  rw [toString_nat_data] at hc
  by_cases ha : a = 0
  · rw [if_pos ha] at hc
    simp only [List.mem_singleton] at hc
    rw [hc]; decide
  · rw [if_neg ha] at hc
    obtain ⟨d, hd, rfl⟩ := List.mem_map.mp hc
    exact digitChar_ne_minus d (Nat.digits_lt_base (by decide) (List.mem_reverse.mp hd))

theorem toString_int_ofNat (a : Nat) : toString (Int.ofNat a) = toString a := rfl

theorem toString_int_negSucc (a : Nat) :
    toString (Int.negSucc a) = "-" ++ toString (a + 1) := rfl

/-- The decimal rendering of an `int` determines it. -/
theorem toString_int_inj (i j : Int) (h : toString i = toString j) : i = j := by
  cases i with
  | ofNat a =>
    cases j with
    | ofNat b =>
      rw [toString_int_ofNat, toString_int_ofNat] at h
      rw [toString_nat_inj a b h]
    | negSucc b =>
      rw [toString_int_ofNat, toString_int_negSucc] at h
      have hd := congrArg String.data h
      rw [String.data_append] at hd
      have hm : '-' ∈ (toString a).data := by rw [hd]; exact List.mem_cons_self _ _
      exact absurd rfl (toString_nat_no_minus a '-' hm)
  | negSucc a =>
    cases j with
    | ofNat b =>
      rw [toString_int_ofNat, toString_int_negSucc] at h
      have hd := congrArg String.data h
      rw [String.data_append] at hd
      have hm : '-' ∈ (toString b).data := by rw [← hd]; exact List.mem_cons_self _ _
      exact absurd rfl (toString_nat_no_minus b '-' hm)
    | negSucc b =>
      rw [toString_int_negSucc, toString_int_negSucc] at h
      have hd := congrArg String.data h
      rw [String.data_append, String.data_append] at hd
      have h2 : toString (a + 1) = toString (b + 1) := by
        apply String.ext
        exact List.append_cancel_left hd
      have := toString_nat_inj _ _ h2
      have hab : a = b := by omega
      rw [hab]

theorem globMatch_star (key : List Char) : globMatch ['*'] key = true := by
  simp only [globMatch, if_true, List.any_eq_true]
  exact ⟨[], (List.mem_tails _ _).mpr List.nil_suffix, by simp [globMatch]⟩

/-! ### The order of the requests of `AddVote` -/

theorem digitChar_ne_slash (a : Nat) (ha : a < 10) : Nat.digitChar a ≠ '/' := by
  interval_cases a <;> decide

theorem toString_nat_no_slash (a : Nat) : ∀ c ∈ (toString a).data, c ≠ '/' := by
  intro c hc
  rw [toString_nat_data] at hc
  by_cases ha : a = 0
  · rw [if_pos ha] at hc
    simp only [List.mem_singleton] at hc
    rw [hc]; decide
  · rw [if_neg ha] at hc
    obtain ⟨d, hd, rfl⟩ := List.mem_map.mp hc
    exact digitChar_ne_slash d (Nat.digits_lt_base (by decide) (List.mem_reverse.mp hd))

/-- Two lists that agree and each hold a first `/` agree after it. -/
theorem after_first_slash : ∀ (l1 l2 r1 r2 : List Char), (∀ c ∈ l1, c ≠ '/') →
    (∀ c ∈ l2, c ≠ '/') → l1 ++ '/' :: r1 = l2 ++ '/' :: r2 → r1 = r2
  | [], [], _, _, _, _, h => by
    simp only [List.nil_append, List.cons.injEq, true_and] at h
    exact h
  | [], c :: l2, _, _, _, h2, h => by
    simp only [List.nil_append, List.cons_append, List.cons.injEq] at h
    exact absurd h.1.symm (h2 c (List.mem_cons_self _ _))
  | c :: l1, [], _, _, h1, _, h => by
    simp only [List.nil_append, List.cons_append, List.cons.injEq] at h
    exact absurd h.1 (h1 c (List.mem_cons_self _ _))
  | c :: l1, d :: l2, r1, r2, h1, h2, h => by
    simp only [List.cons_append, List.cons.injEq] at h
    exact after_first_slash l1 l2 r1 r2 (fun x hx => h1 x (List.mem_cons_of_mem _ hx))
      (fun x hx => h2 x (List.mem_cons_of_mem _ hx)) h.2

/-- The URL of the voter GET is never the URL of the poll GET: read from the end, the one
has `r` and the other `l` before the `/` that precedes the ID. -/
theorem voterUrl_ne_pollUrl (t : VoteApi) (voterID pollID : Nat) :
    AddVote.voterUrl t voterID ≠ AddVote.pollUrl t pollID := by
  intro h
  have hd := congrArg (fun s => s.data.reverse) h
  simp only [AddVote.voterUrl, AddVote.pollUrl, Sprint, String.data_append,
    List.reverse_append] at hd
  have h1 : "/voter/".data.reverse = '/' :: ['r', 'e', 't', 'o', 'v', '/'] := by decide
  have h2 : "/poll/".data.reverse = '/' :: ['l', 'l', 'o', 'p', '/'] := by decide
  rw [h1, h2] at hd
  simp only [List.cons_append] at hd
  have h3 := after_first_slash _ _ _ _
    (fun c hc => toString_nat_no_slash voterID c (List.mem_reverse.mp hc))
    (fun c hc => toString_nat_no_slash pollID c (List.mem_reverse.mp hc)) hd
  simp at h3

/-- The requests of one `AddVote` are the first `n` of its six steps, where `n` is the
number of the step that makes the call return an error, or 6; and the call returns a nil
error exactly when no step does. -/
theorem AddVote_trace (w : World) (t : VoteApi) (db : Redis) (voterID pollID value : Nat) :
    (AddVote w t db voterID pollID value).trace =
        List.take ((AddVote.failingStep w t db voterID pollID).getD 6)
          [.jsonGet (AddVote.redisKey t), .httpGet (AddVote.voterUrl t voterID),
           .httpGet (AddVote.pollUrl t pollID),
           .httpPost (AddVote.voterNewPollUrl w t voterID pollID),
           .jsonSet (AddVote.redisKey t)
             (marshalVote (AddVote.newVote t voterID pollID value)),
           .jsonSet RedisIDKey (.num (uintSucc t.idCnter))] ∧
      ((AddVote w t db voterID pollID value).err = none ↔ AddVote.failingStep w t db voterID pollID = none) ∧
      1 ≤ (AddVote.failingStep w t db voterID pollID).getD 6 ∧ (AddVote.failingStep w t db voterID pollID).getD 6 ≤ 6 := by
  cases hslot : (getVoteFromRedis w.slotGet db (AddVote.redisKey t) {}).2 with
  | none =>
    rw [AddVote_exit_duplicate w t db voterID pollID value hslot]
    simp [AddVote.failingStep, hslot]
  | some e =>
    cases hvoter : AddVote.voterResp w t voterID with
    | fail err =>
      rw [AddVote_exit_voter_fail w t db voterID pollID value e err hslot hvoter]
      simp [AddVote.failingStep, hslot, hvoter]
    | status voterCode =>
      by_cases hvc : voterCode = 404
      · rw [AddVote_exit_voter_404 w t db voterID pollID value e hslot (hvc ▸ hvoter)]
        simp [AddVote.failingStep, hslot, hvoter, hvc]
      · cases hpoll : AddVote.pollResp w t pollID with
        | fail err =>
          rw [AddVote_exit_poll_fail w t db voterID pollID value voterCode e err hslot hvoter
            hvc hpoll]
          simp [AddVote.failingStep, hslot, hvoter, hvc, hpoll]
        | status pollCode =>
          by_cases hpc : pollCode = 404
          · rw [AddVote_exit_poll_404 w t db voterID pollID value voterCode e hslot hvoter
              hvc (hpc ▸ hpoll)]
            simp [AddVote.failingStep, hslot, hvoter, hvc, hpoll, hpc]
          · cases hpost : AddVote.postResp w t voterID pollID with
            | fail err =>
              rw [AddVote_exit_post_fail w t db voterID pollID value voterCode pollCode e err
                hslot hvoter hvc hpoll hpc hpost]
              simp [AddVote.failingStep, hslot, hvoter, hvc, hpoll, hpc, hpost]
            | status postCode =>
              cases hvs : w.voteSet with
              | some err =>
                rw [AddVote_exit_vote_fault w t db voterID pollID value voterCode pollCode
                  postCode e err hslot hvoter hvc hpoll hpc hpost hvs]
                simp [AddVote.failingStep, hslot, hvoter, hvc, hpoll, hpc, hpost, hvs]
              | none =>
                cases hcs : w.cntSet with
                | some err =>
                  rw [AddVote_exit_cnt_fault w t db voterID pollID value voterCode pollCode
                    postCode e err hslot hvoter hvc hpoll hpc hpost hvs hcs]
                  simp [AddVote.failingStep, hslot, hvoter, hvc, hpoll, hpc, hpost, hvs, hcs]
                | none =>
                  rw [AddVote_exit_commit w t db voterID pollID value voterCode pollCode
                    postCode e hslot hvoter hvc hpoll hpc hpost hvs hcs]
                  simp [AddVote.failingStep, hslot, hvoter, hvc, hpoll, hpc, hpost, hvs, hcs]

/-! ### A service that starts on a store with a document in the next slot -/

/-- A Vote service that starts on a reachable store without a counter document holds the
counter 0. -/
theorem NewVoteApi_absent (b : Boot) (db : Redis)
    (hping : b.ping = none) (hcnt : b.cntGet = none) (hdb : db RedisIDKey = none) :
    (NewVoteApi b db).2 = none ∧ (NewVoteApi b db).1.idCnter = 0 := by
  simp [NewVoteApi, NewDbWithInstance, hping, hcnt, JSONGet, hdb]

/-- While the duplicate check of every call reads and decodes a document in the slot of
the next ID, every call of a sequence ends at that check and leaves receiver and store as
they were. -/
theorem AddVoteSeq_duplicate (t : VoteApi) (db : Redis) :
    ∀ cs : List Call,
      (∀ call ∈ cs, (getVoteFromRedis call.w.slotGet db (AddVote.redisKey t) {}).2 = none) →
      (AddVoteSeq cs t db).length = cs.length ∧
      ∀ r ∈ AddVoteSeq cs t db,
        r.vote = {} ∧ r.err = some "Vote already exists!" ∧ r.api = t ∧ r.db = db ∧
          r.trace = [.jsonGet (AddVote.redisKey t)]
  | [], _ => by simp [AddVoteSeq]
  | call :: cs, h => by
    have h1 := AddVote_exit_duplicate call.w t db call.voterID call.pollID call.value
      (h call (List.mem_cons_self _ _))
    obtain ⟨ih1, ih2⟩ := AddVoteSeq_duplicate t db cs
      (fun c hc => h c (List.mem_cons_of_mem _ hc))
    simp only [AddVoteSeq, h1, List.length_cons, ih1, List.mem_cons, true_and]
    intro r hr
    rcases hr with hr | hr
    · rw [hr]; exact ⟨rfl, rfl, rfl, rfl, rfl⟩
    · exact ih2 r hr

/-- The frame of `AddVote`: it changes no store key other than the key of the next ID
and the counter key, whatever its outcome; so every `Vote` document stored under the key
of another ID is present and unchanged after the call; and when the duplicate check reads
and decodes a document in the slot of the next ID, the whole store is unchanged. -/
theorem AddVote_frame (w : World) (t : VoteApi) (db : Redis) (voterID pollID value : Nat) :
    (∀ key, key ≠ AddVote.redisKey t → key ≠ RedisIDKey →
      (AddVote w t db voterID pollID value).db key = db key) ∧
    (∀ id, redisKeyFromId id ≠ AddVote.redisKey t →
      (AddVote w t db voterID pollID value).db (redisKeyFromId id) =
        db (redisKeyFromId id)) ∧
    ((getVoteFromRedis w.slotGet db (AddVote.redisKey t) {}).2 = none →
      (AddVote w t db voterID pollID value).db = db) := by
  have hframe : ∀ key, key ≠ AddVote.redisKey t → key ≠ RedisIDKey →
      (AddVote w t db voterID pollID value).db key = db key :=
    AddVote_other_keys w t db voterID pollID value
  refine ⟨hframe, fun id hid => hframe _ hid (redisKeyFromId_ne_RedisIDKey id), fun h => ?_⟩
  rw [AddVote_exit_duplicate w t db voterID pollID value h]

/-! ### Voter-Container: a voter reads back from the document written for it -/

theorem take_set_succ {α : Type} (p : α) : ∀ (l : List α) (i : Nat), i < l.length →
    (l.set i p).take (i + 1) = l.take i ++ [p]
  | [], _, h => by simp at h
  | _ :: l, 0, _ => by simp
  | a :: l, i + 1, h => by
    simp only [List.set_cons_succ, List.take_succ_cons, List.cons_append, List.cons.injEq,
      true_and]
    exact take_set_succ p l i (by simpa using h)

theorem getD_append_length {α : Type} (h : List α) (b d : α) :
    (h ++ [b]).getD h.length d = b := by
  simp [List.getD_eq_getElem?_getD]

theorem set_append_length {α : Type} (h : List α) (b c : α) :
    (h ++ [b]).set h.length c = h ++ [c] := by
  simp [List.set_append]

theorem getD_take_append_replicate {α : Type} (l : List α) (i n : Nat) (zero : α) :
    (l.take i ++ List.replicate n zero).getD i zero = zero := by
  rw [List.getD_eq_getElem?_getD]
  by_cases h : i < (l.take i ++ List.replicate n zero).length
  · rw [List.getElem?_eq_getElem h, Option.getD_some]
    have hl : (l.take i).length ≤ i := by simp
    rw [List.getElem_append_right hl]
    simp
  · rw [List.getElem?_eq_none (by omega)]
    rfl

theorem getD_set_self {α : Type} (h : List (List α)) (i : Nat) (b : List α)
    (hi : i < h.length) : (h.set i b).getD i [] = b := by
  simp [List.getD_eq_getElem?_getD, hi]

theorem saveError_none (e : Option String) : saveError e none = e := by
  cases e <;> rfl

theorem foldName_pollid : foldName "pollid" = "pollid" := by decide
theorem foldName_VoteDate : foldName "VoteDate" = "votedate" := by decide
theorem foldName_id : foldName "id" = "id" := by decide
theorem foldName_FirstName : foldName "FirstName" = "firstname" := by decide
theorem foldName_LastName : foldName "LastName" = "lastname" := by decide
theorem foldName_VoteHistory : foldName "VoteHistory" = "votehistory" := by decide

theorem unmarshalVoterPollFields_pollid (parse) (x : JSON) (rest) (p : VoterContainer.voterPoll)
    (e) :
    VoterContainer.unmarshalVoterPollFields parse (("pollid", x) :: rest) p e =
      VoterContainer.unmarshalVoterPollFields parse rest
        { p with PollID := (unmarshalUint x p.PollID).1 }
        (saveError e (unmarshalUint x p.PollID).2) := by
  simp [VoterContainer.unmarshalVoterPollFields]

theorem unmarshalVoterPollFields_VoteDate (parse : String → Option VoterContainer.Time)
    (s : String) (t : VoterContainer.Time) (rest) (p : VoterContainer.voterPoll) (e)
    (h : parse s = some t) :
    VoterContainer.unmarshalVoterPollFields parse (("VoteDate", .str s) :: rest) p e =
      VoterContainer.unmarshalVoterPollFields parse rest { p with VoteDate := t } e := by
  simp [VoterContainer.unmarshalVoterPollFields, foldName_pollid, foldName_VoteDate,
    VoterContainer.unmarshalTime, h]

/-- Decoding the document written for a history entry gives the entry back, whatever the
position held. -/
theorem unmarshalVoterPoll_marshalVoterPoll (parse : String → Option VoterContainer.Time)
    (p old : VoterContainer.voterPoll) (h1 : p.PollID < 18446744073709551616)
    (h2 : parse p.VoteDate.text = some p.VoteDate) :
    VoterContainer.unmarshalVoterPoll parse (VoterContainer.marshalVoterPoll p) old =
      .ok (p, none) := by
  show VoterContainer.unmarshalVoterPollFields parse
    [("pollid", .num p.PollID), ("VoteDate", .str p.VoteDate.text)] old none = .ok (p, none)
  rw [unmarshalVoterPollFields_pollid, unmarshalUint_num _ _ h1,
    unmarshalVoterPollFields_VoteDate parse _ _ _ _ _ h2]
  rfl

/-- One round of the decoder's loop, on a backing array with room at position `i`. -/
theorem unmarshalStructArray_room {α : Type} (grow : Nat → Nat) (zero : α)
    (elem : JSON → α → Except String (α × Option String)) (x : JSON) (rest : List JSON)
    (i : Nat) (h : Heap α) (s : Slice) (e : Option String) (r : α × Option String)
    (hroom : ¬ s.cap ≤ i)
    (helem : elem x ((h.getD s.ptr []).getD i zero) = .ok r) :
    VoterContainer.unmarshalStructArray grow zero elem (x :: rest) i h s e =
      VoterContainer.unmarshalStructArray grow zero elem rest (i + 1)
        (h.set s.ptr ((h.getD s.ptr []).set i r.1))
        (if s.len ≤ i then { s with len := i + 1 } else s) (saveError e r.2) := by
  rw [VoterContainer.unmarshalStructArray]
  simp only [if_neg hroom]
  by_cases hl : s.len ≤ i
  · simp only [if_pos hl, helem]
  · simp only [if_neg hl, helem]

/-- One round of the decoder's loop, on a backing array that is full. -/
theorem unmarshalStructArray_full {α : Type} (grow : Nat → Nat) (zero : α)
    (elem : JSON → α → Except String (α × Option String)) (x : JSON) (rest : List JSON)
    (i : Nat) (h : Heap α) (s : Slice) (e : Option String) (r : α × Option String)
    (hfull : s.cap ≤ i) (hlen : s.len = i)
    (helem : elem x zero = .ok r) :
    VoterContainer.unmarshalStructArray grow zero elem (x :: rest) i h s e =
      VoterContainer.unmarshalStructArray grow zero elem rest (i + 1)
        (h ++ [((h.getD s.ptr []).take i ++
          List.replicate (max (grow s.cap) (i + 1) - i) zero).set i r.1])
        ⟨h.length, i + 1, max (grow s.cap) (i + 1)⟩ (saveError e r.2) := by
  rw [VoterContainer.unmarshalStructArray]
  simp only [if_pos hfull, growslice, hlen, le_refl, if_true, getD_append_length,
    getD_take_append_replicate, helem, set_append_length]

/-- The decoder's loop on the array written for a history: from position `i` of a slice
that is filled up to there at least, it leaves a slice that shows the `i` elements before
and then the history. -/
theorem unmarshalStructArray_marshal (parse : String → Option VoterContainer.Time)
    (grow : Nat → Nat) :
    ∀ (hist : List VoterContainer.voterPoll) (i : Nat) (h : Heap VoterContainer.voterPoll)
      (s : Slice) (e : Option String),
      (∀ p ∈ hist, p.PollID < 18446744073709551616 ∧
        parse p.VoteDate.text = some p.VoteDate) →
      (h.getD s.ptr []).length = s.cap → s.len ≤ s.cap → i ≤ s.len →
      ∃ h1 s1,
        VoterContainer.unmarshalStructArray grow {} (VoterContainer.unmarshalVoterPoll parse)
            (hist.map VoterContainer.marshalVoterPoll) i h s e = .ok (h1, s1, e) ∧
          Heap.load h1 (some s1) = some ((h.getD s.ptr []).take i ++ hist)
  | [], i, h, s, e, _, _, _, _ => by
    by_cases hi : i = 0
    · refine ⟨h ++ [[]], ⟨h.length, 0, 0⟩, ?_, ?_⟩
      · simp [VoterContainer.unmarshalStructArray, hi]
      · simp [Heap.load, hi]
    · refine ⟨h, { s with len := i }, ?_, ?_⟩
      · simp [VoterContainer.unmarshalStructArray, hi]
      · simp [Heap.load]
  | p :: hist, i, h, s, e, hgood, hcap, hlen, hi => by
    have hp := hgood p (List.mem_cons_self _ _)
    have hrest : ∀ q ∈ hist, q.PollID < 18446744073709551616 ∧
        parse q.VoteDate.text = some q.VoteDate :=
      fun q hq => hgood q (List.mem_cons_of_mem _ hq)
    rw [List.map_cons]
    by_cases hfull : s.cap ≤ i
    · have hli : s.len = i := by omega
      have hci : s.cap = i := by omega
      rw [unmarshalStructArray_full grow {} _ _ _ i h s e (p, none) hfull hli
        (unmarshalVoterPoll_marshalVoterPoll parse p {} hp.1 hp.2)]
      dsimp only
      rw [saveError_none]
      have htake : ((h.getD s.ptr []).take i).length = i := by
        rw [List.length_take, hcap, hci]; simp
      have hlenB : ((h.getD s.ptr []).take i ++
          List.replicate (max (grow s.cap) (i + 1) - i)
            ({} : VoterContainer.voterPoll)).length = max (grow s.cap) (i + 1) := by
        rw [List.length_append, htake, List.length_replicate]
        omega
      obtain ⟨h1, s1, hrun, hload⟩ := unmarshalStructArray_marshal parse grow hist (i + 1)
        (h ++ [((h.getD s.ptr []).take i ++
          List.replicate (max (grow s.cap) (i + 1) - i)
            ({} : VoterContainer.voterPoll)).set i p])
        ⟨h.length, i + 1, max (grow s.cap) (i + 1)⟩ e hrest
        (by
          show ((h ++ [_]).getD h.length []).length = max (grow s.cap) (i + 1)
          rw [getD_append_length, List.length_set, hlenB])
        (by show i + 1 ≤ max (grow s.cap) (i + 1); omega)
        (le_refl _)
      refine ⟨h1, s1, hrun, ?_⟩
      rw [hload]
      show some (((h ++ [_]).getD h.length []).take (i + 1) ++ hist) = _
      rw [getD_append_length, take_set_succ p _ i (by rw [hlenB]; omega),
        List.take_append_of_le_length (by omega), List.take_take, min_self]
      simp
    · have hptr : s.ptr < h.length := by
        by_contra hge
        have : h.getD s.ptr [] = [] := by
          rw [List.getD_eq_getElem?_getD, List.getElem?_eq_none (by omega)]
          rfl
        rw [this] at hcap
        simp at hcap
        omega
      rw [unmarshalStructArray_room grow {} _ _ _ i h s e (p, none) hfull
        (unmarshalVoterPoll_marshalVoterPoll parse p _ hp.1 hp.2)]
      dsimp only
      rw [saveError_none]
      have hp1 : (if s.len ≤ i then { s with len := i + 1 } else s).ptr = s.ptr := by
        split <;> rfl
      have hc1 : (if s.len ≤ i then { s with len := i + 1 } else s).cap = s.cap := by
        split <;> rfl
      have hl1 : (if s.len ≤ i then { s with len := i + 1 } else s).len =
          if s.len ≤ i then i + 1 else s.len := by
        split <;> rfl
      obtain ⟨h1, s1, hrun, hload⟩ := unmarshalStructArray_marshal parse grow hist (i + 1)
        (h.set s.ptr ((h.getD s.ptr []).set i p))
        (if s.len ≤ i then { s with len := i + 1 } else s) e hrest
        (by rw [hp1, hc1, getD_set_self _ _ _ hptr, List.length_set, hcap])
        (by rw [hl1, hc1]; split <;> omega)
        (by rw [hl1]; split <;> omega)
      refine ⟨h1, s1, hrun, ?_⟩
      rw [hload, hp1, getD_set_self _ _ _ hptr, take_set_succ p _ i (by omega)]
      simp

theorem unmarshalVoterFields_id (parse) (grow : Nat → Nat) (x : JSON) (rest)
    (v : VoterContainer.VoterVar) (h) (e) :
    VoterContainer.unmarshalVoterFields parse grow (("id", x) :: rest) v h e =
      VoterContainer.unmarshalVoterFields parse grow rest
        { v with VoterID := (unmarshalUint x v.VoterID).1 } h
        (saveError e (unmarshalUint x v.VoterID).2) := by
  simp [VoterContainer.unmarshalVoterFields]

theorem unmarshalVoterFields_FirstName (parse) (grow : Nat → Nat) (x : JSON) (rest)
    (v : VoterContainer.VoterVar) (h) (e) :
    VoterContainer.unmarshalVoterFields parse grow (("FirstName", x) :: rest) v h e =
      VoterContainer.unmarshalVoterFields parse grow rest
        { v with FirstName := (unmarshalString x v.FirstName).1 } h
        (saveError e (unmarshalString x v.FirstName).2) := by
  simp [VoterContainer.unmarshalVoterFields, foldName_id, foldName_FirstName]

theorem unmarshalVoterFields_LastName (parse) (grow : Nat → Nat) (x : JSON) (rest)
    (v : VoterContainer.VoterVar) (h) (e) :
    VoterContainer.unmarshalVoterFields parse grow (("LastName", x) :: rest) v h e =
      VoterContainer.unmarshalVoterFields parse grow rest
        { v with LastName := (unmarshalString x v.LastName).1 } h
        (saveError e (unmarshalString x v.LastName).2) := by
  simp [VoterContainer.unmarshalVoterFields, foldName_id, foldName_FirstName,
    foldName_LastName]

theorem unmarshalVoterFields_VoteHistory (parse) (grow : Nat → Nat) (x : JSON) (rest)
    (v : VoterContainer.VoterVar) (h) (e)
    (r : Heap VoterContainer.voterPoll × Option Slice × Option String)
    (hr : VoterContainer.unmarshalStructSlice grow {} (VoterContainer.unmarshalVoterPoll parse)
      x h v.VoteHistory = .ok r) :
    VoterContainer.unmarshalVoterFields parse grow (("VoteHistory", x) :: rest) v h e =
      VoterContainer.unmarshalVoterFields parse grow rest { v with VoteHistory := r.2.1 } r.1
        (saveError e r.2.2) := by
  simp [VoterContainer.unmarshalVoterFields, foldName_id, foldName_FirstName,
    foldName_LastName, foldName_VoteHistory, hr]

/-- Decoding the history written for a voter into a fresh variable gives a slice that
shows that history. -/
theorem unmarshalStructSlice_marshal (parse : String → Option VoterContainer.Time)
    (grow : Nat → Nat) (history : Option (List VoterContainer.voterPoll))
    (hgood : ∀ p ∈ history.getD [], p.PollID < 18446744073709551616 ∧
      parse p.VoteDate.text = some p.VoteDate) :
    ∃ h1 s1,
      VoterContainer.unmarshalStructSlice grow {} (VoterContainer.unmarshalVoterPoll parse)
          (match history with
            | none => .null
            | some history => .arr (history.map VoterContainer.marshalVoterPoll))
          [] none = .ok (h1, s1, none) ∧
        Heap.load h1 s1 = history := by
  cases history with
  | none => exact ⟨[], none, rfl, rfl⟩
  | some hist =>
    obtain ⟨h1, s1, hrun, hload⟩ := unmarshalStructArray_marshal parse grow hist 0 [] {} none
      hgood rfl (le_refl _) (le_refl _)
    refine ⟨h1, some s1, ?_, ?_⟩
    · simp only [VoterContainer.unmarshalStructSlice, Option.getD_none, hrun]
    · rw [hload]; simp

/-- Decoding the document written for a voter into a fresh variable gives the voter
back. -/
theorem unmarshalVoter_marshalVoter (parse : String → Option VoterContainer.Time)
    (grow : Nat → Nat) (v : VoterContainer.Voter) (hid : v.VoterID < 18446744073709551616)
    (hgood : ∀ p ∈ v.VoteHistory.getD [], p.PollID < 18446744073709551616 ∧
      parse p.VoteDate.text = some p.VoteDate) :
    ∃ item h1,
      VoterContainer.unmarshalVoter parse grow (VoterContainer.marshalVoter v) {} [] =
          .ok (item, h1) ∧
        VoterContainer.VoterVar.load h1 item = v := by
  obtain ⟨h1, s1, hrun, hload⟩ := unmarshalStructSlice_marshal parse grow v.VoteHistory hgood
  refine ⟨⟨v.VoterID, v.FirstName, v.LastName, s1⟩, h1, ?_, ?_⟩
  · simp only [VoterContainer.marshalVoter, VoterContainer.unmarshalVoter]
    rw [unmarshalVoterFields_id, unmarshalUint_num _ _ hid, unmarshalVoterFields_FirstName,
      unmarshalVoterFields_LastName,
      unmarshalVoterFields_VoteHistory parse grow _ _ _ _ _ _ hrun]
    rfl
  · simp only [VoterContainer.VoterVar.load, hload]

/-- `GetVoter` on a store that holds the document written for a voter at the key, the
store answering the read, returns that voter. -/
theorem GetVoter_stored (parse : String → Option VoterContainer.Time) (grow : Nat → Nat)
    (db : Redis) (id : Int) (v : VoterContainer.Voter)
    (hdb : db (VoterContainer.redisKeyFromId id) = some (VoterContainer.marshalVoter v))
    (hid : v.VoterID < 18446744073709551616)
    (hgood : ∀ p ∈ v.VoteHistory.getD [], p.PollID < 18446744073709551616 ∧
      parse p.VoteDate.text = some p.VoteDate) :
    VoterContainer.VoterDb.GetVoter parse grow none db id = (v, none) := by
  obtain ⟨item, h1, hrun, hload⟩ := unmarshalVoter_marshalVoter parse grow v hid hgood
  simp only [VoterContainer.VoterDb.GetVoter, VoterContainer.getItemFromRedis, JSONGet, hdb,
    hrun, hload]

/-- When `GetVoter` returns a nil error, its read of the store was answered and the
document at the key decoded. -/
theorem GetVoter_ok (parse : String → Option VoterContainer.Time) (grow : Nat → Nat)
    (fault : Option String) (db : Redis) (id : Int) (v : VoterContainer.Voter)
    (h : VoterContainer.VoterDb.GetVoter parse grow fault db id = (v, none)) :
    fault = none ∧
      ∃ r, VoterContainer.getItemFromRedis parse grow none db
        (VoterContainer.redisKeyFromId id) {} [] = .ok r := by
  cases fault with
  | some e =>
    simp [VoterContainer.VoterDb.GetVoter, VoterContainer.getItemFromRedis, JSONGet] at h
  | none =>
    refine ⟨rfl, ?_⟩
    cases hr : VoterContainer.getItemFromRedis parse grow none db
        (VoterContainer.redisKeyFromId id) {} [] with
    | error e => simp [VoterContainer.VoterDb.GetVoter, hr] at h
    | ok r => exact ⟨r, rfl⟩

/-- When `GetVoter` returns an error, `AddPoll` returns it and leaves the store. -/
theorem AddPoll_not_stored (parse : String → Option VoterContainer.Time)
    (w : VoterContainer.World) (db : Redis) (voterID pollID : Nat) (e : String)
    (h : (VoterContainer.VoterDb.GetVoter parse w.grow w.voterGet db (toInt voterID)).2 =
      some e) :
    VoterContainer.VoterApi.AddPoll parse w db voterID pollID = (db, some e) := by
  unfold VoterContainer.VoterApi.AddPoll
  cases hg : VoterContainer.VoterDb.GetVoter parse w.grow w.voterGet db (toInt voterID) with
  | mk voter err =>
    rw [hg] at h
    cases h
    rfl

/-- `AddPoll` for a voter that `GetVoter` reads under the ID it is asked for, when the
store answers the read and the write of the update: the store afterwards holds, at the
voter's key, the document of the voter with the new entry at the end of the history, every
other key is as before, and `GetVoter` reads that voter back. -/
theorem AddPoll_served (parse : String → Option VoterContainer.Time)
    (w : VoterContainer.World) (db : Redis) (voterID pollID : Nat) (v : VoterContainer.Voter)
    (hvoterID : voterID < 18446744073709551616) (hpollID : pollID < 18446744073709551616)
    (hstored : VoterContainer.VoterDb.GetVoter parse w.grow w.voterGet db (toInt voterID) =
      (v, none))
    (hid : v.VoterID = voterID)
    (hhist : ∀ p ∈ v.VoteHistory.getD [], p.PollID < 18446744073709551616 ∧
      parse p.VoteDate.text = some p.VoteDate)
    (hnow : parse w.now.text = some w.now)
    (hexists : w.existsGet = none) (hset : w.voterSet = none) :
    VoterContainer.VoterApi.AddPoll parse w db voterID pollID =
        (fun k => if k = VoterContainer.redisKeyFromId (toInt voterID) then
          some (VoterContainer.marshalVoter (v.AddPoll w.now pollID)) else db k, none) ∧
      ∀ grow, VoterContainer.VoterDb.GetVoter parse grow none
        (VoterContainer.VoterApi.AddPoll parse w db voterID pollID).1 (toInt voterID) =
          (v.AddPoll w.now pollID, none) := by
  obtain ⟨-, r, hr⟩ := GetVoter_ok parse w.grow w.voterGet db (toInt voterID) v hstored
  have hrun : VoterContainer.VoterApi.AddPoll parse w db voterID pollID =
      (fun k => if k = VoterContainer.redisKeyFromId (toInt voterID) then
        some (VoterContainer.marshalVoter (v.AddPoll w.now pollID)) else db k, none) := by
    have hkey : (VoterContainer.Voter.AddPoll w.now v pollID).VoterID = voterID := hid
    simp only [VoterContainer.VoterApi.AddPoll, hstored, VoterContainer.VoterDb.UpdateVoter,
      hkey, hexists, hset, hr, JSONSet_ok]
  refine ⟨hrun, fun grow => ?_⟩
  rw [hrun]
  refine GetVoter_stored parse grow _ _ _ (if_pos rfl) (by rw [← hid] at hvoterID; exact hvoterID)
    ?_
  intro p hp
  simp only [VoterContainer.Voter.AddPoll, Option.getD_some, List.mem_append,
    List.mem_singleton] at hp
  rcases hp with hp | hp
  · exact hhist p hp
  · rw [hp]; exact ⟨hpollID, hnow⟩

/-- `AddPoll` drops what `UpdateVoter` returns: when `GetVoter` read a voter and the read
or the write of the update fails, the call returns a nil error and the store is as
before. -/
theorem AddPoll_update_dropped (parse : String → Option VoterContainer.Time)
    (w : VoterContainer.World) (db : Redis) (voterID pollID : Nat) (v : VoterContainer.Voter)
    (e : String)
    (hstored : VoterContainer.VoterDb.GetVoter parse w.grow w.voterGet db (toInt voterID) =
      (v, none))
    (hfault : w.existsGet = some e ∨ w.voterSet = some e) :
    VoterContainer.VoterApi.AddPoll parse w db voterID pollID = (db, none) := by
  simp only [VoterContainer.VoterApi.AddPoll, hstored, VoterContainer.VoterDb.UpdateVoter]
  rcases hfault with h | h
  · simp only [h, VoterContainer.getItemFromRedis, JSONGet]
  · rw [h]
    cases VoterContainer.getItemFromRedis parse w.grow w.existsGet db
      (VoterContainer.redisKeyFromId (toInt (VoterContainer.Voter.AddPoll w.now v pollID).VoterID))
      {} [] with
    | error _ => rfl
    | ok _ => simp only [JSONSet_fault]

/-! ### An entity reads back from the document written for it -/

/-- One round of the decoder's loop, on a backing array with room at position `i`. -/
theorem unmarshalArray_room {α : Type} (grow : Nat → Nat) (zero : α)
    (elem : JSON → α → α × Option String) (x : JSON) (rest : List JSON)
    (i : Nat) (h : Heap α) (s : Slice) (e : Option String)
    (hroom : ¬ s.cap ≤ i) :
    unmarshalArray grow zero elem (x :: rest) i h s e =
      unmarshalArray grow zero elem rest (i + 1)
        (h.set s.ptr ((h.getD s.ptr []).set i (elem x ((h.getD s.ptr []).getD i zero)).1))
        (if s.len ≤ i then { s with len := i + 1 } else s)
        (saveError e (elem x ((h.getD s.ptr []).getD i zero)).2) := by
  rw [unmarshalArray]
  simp only [if_neg hroom]
  by_cases hl : s.len ≤ i
  · simp only [if_pos hl]
  · simp only [if_neg hl]

/-- One round of the decoder's loop, on a backing array that is full. -/
theorem unmarshalArray_full {α : Type} (grow : Nat → Nat) (zero : α)
    (elem : JSON → α → α × Option String) (x : JSON) (rest : List JSON)
    (i : Nat) (h : Heap α) (s : Slice) (e : Option String)
    (hfull : s.cap ≤ i) (hlen : s.len = i) :
    unmarshalArray grow zero elem (x :: rest) i h s e =
      unmarshalArray grow zero elem rest (i + 1)
        (h ++ [((h.getD s.ptr []).take i ++
          List.replicate (max (grow s.cap) (i + 1) - i) zero).set i (elem x zero).1])
        ⟨h.length, i + 1, max (grow s.cap) (i + 1)⟩ (saveError e (elem x zero).2) := by
  rw [unmarshalArray]
  simp only [if_pos hfull, growslice, hlen, le_refl, if_true, getD_append_length,
    getD_take_append_replicate, set_append_length]

/-- The decoder's loop on the array written for a list whose elements read back: from
position `i` of a slice that is filled up to there at least, it leaves a slice that shows
the `i` elements before and then the list. -/
theorem unmarshalArray_marshal {α : Type} (grow : Nat → Nat) (zero : α)
    (elem : JSON → α → α × Option String) (enc : α → JSON) :
    ∀ (l : List α) (i : Nat) (h : Heap α) (s : Slice) (e : Option String),
      (∀ a ∈ l, ∀ old, elem (enc a) old = (a, none)) →
      (h.getD s.ptr []).length = s.cap → s.len ≤ s.cap → i ≤ s.len →
      ∃ h1 s1,
        unmarshalArray grow zero elem (l.map enc) i h s e = (h1, s1, e) ∧
          Heap.load h1 (some s1) = some ((h.getD s.ptr []).take i ++ l)
  | [], i, h, s, e, _, _, _, _ => by
    by_cases hi : i = 0
    · refine ⟨h ++ [[]], ⟨h.length, 0, 0⟩, ?_, ?_⟩
      · simp [unmarshalArray, hi]
      · simp [Heap.load, hi]
    · refine ⟨h, { s with len := i }, ?_, ?_⟩
      · simp [unmarshalArray, hi]
      · simp [Heap.load]
  | p :: l, i, h, s, e, hgood, hcap, hlen, hi => by
    have hp := hgood p (List.mem_cons_self _ _)
    have hrest : ∀ a ∈ l, ∀ old, elem (enc a) old = (a, none) :=
      fun q hq => hgood q (List.mem_cons_of_mem _ hq)
    rw [List.map_cons]
    by_cases hfull : s.cap ≤ i
    · have hli : s.len = i := by omega
      have hci : s.cap = i := by omega
      rw [unmarshalArray_full grow zero _ _ _ i h s e hfull hli, hp, saveError_none]
      have htake : ((h.getD s.ptr []).take i).length = i := by
        rw [List.length_take, hcap, hci]; simp
      have hlenB : ((h.getD s.ptr []).take i ++
          List.replicate (max (grow s.cap) (i + 1) - i) zero).length =
          max (grow s.cap) (i + 1) := by
        rw [List.length_append, htake, List.length_replicate]
        omega
      obtain ⟨h1, s1, hrun, hload⟩ := unmarshalArray_marshal grow zero elem enc l (i + 1)
        (h ++ [((h.getD s.ptr []).take i ++
          List.replicate (max (grow s.cap) (i + 1) - i) zero).set i p])
        ⟨h.length, i + 1, max (grow s.cap) (i + 1)⟩ e hrest
        (by
          show ((h ++ [_]).getD h.length []).length = max (grow s.cap) (i + 1)
          rw [getD_append_length, List.length_set, hlenB])
        (by show i + 1 ≤ max (grow s.cap) (i + 1); omega)
        (le_refl _)
      refine ⟨h1, s1, hrun, ?_⟩
      rw [hload]
      show some (((h ++ [_]).getD h.length []).take (i + 1) ++ l) = _
      rw [getD_append_length, take_set_succ p _ i (by rw [hlenB]; omega),
        List.take_append_of_le_length (by omega), List.take_take, min_self]
      simp
    · have hptr : s.ptr < h.length := by
        by_contra hge
        have : h.getD s.ptr [] = [] := by
          rw [List.getD_eq_getElem?_getD, List.getElem?_eq_none (by omega)]
          rfl
        rw [this] at hcap
        simp at hcap
        omega
      rw [unmarshalArray_room grow zero _ _ _ i h s e hfull, hp, saveError_none]
      have hp1 : (if s.len ≤ i then { s with len := i + 1 } else s).ptr = s.ptr := by
        split <;> rfl
      have hc1 : (if s.len ≤ i then { s with len := i + 1 } else s).cap = s.cap := by
        split <;> rfl
      have hl1 : (if s.len ≤ i then { s with len := i + 1 } else s).len =
          if s.len ≤ i then i + 1 else s.len := by
        split <;> rfl
      obtain ⟨h1, s1, hrun, hload⟩ := unmarshalArray_marshal grow zero elem enc l (i + 1)
        (h.set s.ptr ((h.getD s.ptr []).set i p))
        (if s.len ≤ i then { s with len := i + 1 } else s) e hrest
        (by rw [hp1, hc1, getD_set_self _ _ _ hptr, List.length_set, hcap])
        (by rw [hl1, hc1]; split <;> omega)
        (by rw [hl1]; split <;> omega)
      refine ⟨h1, s1, hrun, ?_⟩
      rw [hload, hp1, getD_set_self _ _ _ hptr, take_set_succ p _ i (by omega)]
      simp

/-- Decoding the array written for a slice field into a fresh variable gives a slice that
shows the list. -/
theorem unmarshalSlice_marshal {α : Type} (grow : Nat → Nat) (zero : α)
    (elem : JSON → α → α × Option String) (enc : α → JSON) (l : List α)
    (hgood : ∀ a ∈ l, ∀ old, elem (enc a) old = (a, none)) :
    (unmarshalSlice grow zero elem (.arr (l.map enc)) [] none).2.2 = none ∧
      Heap.load (unmarshalSlice grow zero elem (.arr (l.map enc)) [] none).1
        (unmarshalSlice grow zero elem (.arr (l.map enc)) [] none).2.1 = some l := by
  obtain ⟨h1, s1, hrun, hload⟩ := unmarshalArray_marshal grow zero elem enc l 0 [] {} none
    hgood rfl (le_refl _) (le_refl _)
  simp only [unmarshalSlice, Option.getD_none, hrun, hload]
  simp

theorem foldName_pollTitle : foldName "pollTitle" = "polltitle" := by decide
theorem foldName_pollQuestion : foldName "pollQuestion" = "pollquestion" := by decide
theorem foldName_pollOptions : foldName "pollOptions" = "polloptions" := by decide

theorem unmarshalPollFields_pollID (grow : Nat → Nat) (x : JSON) (rest)
    (p : PollService.PollVar) (h) (e) :
    PollService.unmarshalPollFields grow (("pollID", x) :: rest) p h e =
      PollService.unmarshalPollFields grow rest
        { p with PollID := (unmarshalUint x p.PollID).1 } h
        (saveError e (unmarshalUint x p.PollID).2) := by
  simp [PollService.unmarshalPollFields]

theorem unmarshalPollFields_pollTitle (grow : Nat → Nat) (x : JSON) (rest)
    (p : PollService.PollVar) (h) (e) :
    PollService.unmarshalPollFields grow (("pollTitle", x) :: rest) p h e =
      PollService.unmarshalPollFields grow rest
        { p with PollTitle := (unmarshalString x p.PollTitle).1 } h
        (saveError e (unmarshalString x p.PollTitle).2) := by
  simp [PollService.unmarshalPollFields, foldName_pollID, foldName_pollTitle]

theorem unmarshalPollFields_pollQuestion (grow : Nat → Nat) (x : JSON) (rest)
    (p : PollService.PollVar) (h) (e) :
    PollService.unmarshalPollFields grow (("pollQuestion", x) :: rest) p h e =
      PollService.unmarshalPollFields grow rest
        { p with PollQuestion := (unmarshalString x p.PollQuestion).1 } h
        (saveError e (unmarshalString x p.PollQuestion).2) := by
  simp [PollService.unmarshalPollFields, foldName_pollID, foldName_pollTitle,
    foldName_pollQuestion]

theorem unmarshalPollFields_pollOptions (grow : Nat → Nat) (x : JSON) (rest)
    (p : PollService.PollVar) (h) (e) :
    PollService.unmarshalPollFields grow (("pollOptions", x) :: rest) p h e =
      PollService.unmarshalPollFields grow rest
        { p with PollOptions := (unmarshalSlice grow "" unmarshalString x h p.PollOptions).2.1 }
        (unmarshalSlice grow "" unmarshalString x h p.PollOptions).1
        (saveError e (unmarshalSlice grow "" unmarshalString x h p.PollOptions).2.2) := by
  simp [PollService.unmarshalPollFields, foldName_pollID, foldName_pollTitle,
    foldName_pollQuestion, foldName_pollOptions]

/-- `GetPoll` on a store that holds the document written for a poll at the key, the
store answering the read, returns that poll. -/
theorem GetPoll_stored (grow : Nat → Nat) (db : Redis) (id : Int) (p : PollService.Poll)
    (hdb : db (PollService.redisKeyFromId id) = some (PollService.marshalPoll p))
    (hid : p.PollID < 18446744073709551616) :
    PollService.GetPoll grow none db id = (p, none) := by
  have hrun : ∀ x : JSON,
      db (PollService.redisKeyFromId id) =
        some (.obj [("pollID", .num p.PollID), ("pollTitle", .str p.PollTitle),
          ("pollQuestion", .str p.PollQuestion), ("pollOptions", x)]) →
      (unmarshalSlice grow "" unmarshalString x [] none).2.2 = none →
      Heap.load (unmarshalSlice grow "" unmarshalString x [] none).1
        (unmarshalSlice grow "" unmarshalString x [] none).2.1 = p.PollOptions →
      PollService.GetPoll grow none db id = (p, none) := by
    intro x hx herr hload
    simp only [PollService.GetPoll, PollService.getPollFromRedis, JSONGet, hx,
      PollService.unmarshalPoll]
    rw [unmarshalPollFields_pollID, unmarshalUint_num _ _ hid, unmarshalPollFields_pollTitle,
      unmarshalPollFields_pollQuestion, unmarshalPollFields_pollOptions]
    simp only [PollService.unmarshalPollFields, saveError, unmarshalString, herr,
      PollService.PollVar.load, hload]
  cases hopt : p.PollOptions with
  | none =>
    refine hrun .null ?_ rfl ?_
    · rw [hdb]; simp only [PollService.marshalPoll, hopt]
    · rw [hopt]; rfl
  | some l =>
    obtain ⟨herr, hload⟩ := unmarshalSlice_marshal grow "" unmarshalString JSON.str l
      (fun _ _ _ => rfl)
    refine hrun (.arr (l.map JSON.str)) ?_ herr ?_
    · rw [hdb]; simp only [PollService.marshalPoll, hopt]
    · rw [hopt]; exact hload

/-- The document written for a voter with a history that is not nil. -/
theorem marshalVoter_history (voterID : Nat) (fn ln : String) (history : List Nat) :
    VoterService.marshalVoter ⟨voterID, fn, ln, some history⟩ =
      .obj [("id", .num voterID), ("FirstName", .str fn), ("LastName", .str ln),
        ("pollid", .arr (history.map fun n : Nat => JSON.num n))] := by
  have hl : ∀ l : List Nat,
      List.map (fun pollID : Int => JSON.num pollID) (l >>= fun a => pure (a : Int)) =
        l.map fun n : Nat => JSON.num n := by
    intro l
    induction l with
    | nil => rfl
    | cons n rest ih => exact congrArg (List.cons (JSON.num (n : Int))) ih
  simp only [VoterService.marshalVoter]
  rw [← hl history]

theorem unmarshalVoterServiceFields_id (grow : Nat → Nat) (x : JSON) (rest)
    (v : VoterService.VoterVar) (h) (e) :
    VoterService.unmarshalVoterFields grow (("id", x) :: rest) v h e =
      VoterService.unmarshalVoterFields grow rest
        { v with VoterID := (unmarshalUint x v.VoterID).1 } h
        (saveError e (unmarshalUint x v.VoterID).2) := by
  simp [VoterService.unmarshalVoterFields]

theorem unmarshalVoterServiceFields_FirstName (grow : Nat → Nat) (x : JSON) (rest)
    (v : VoterService.VoterVar) (h) (e) :
    VoterService.unmarshalVoterFields grow (("FirstName", x) :: rest) v h e =
      VoterService.unmarshalVoterFields grow rest
        { v with FirstName := (unmarshalString x v.FirstName).1 } h
        (saveError e (unmarshalString x v.FirstName).2) := by
  simp [VoterService.unmarshalVoterFields, foldName_id, foldName_FirstName]

theorem unmarshalVoterServiceFields_LastName (grow : Nat → Nat) (x : JSON) (rest)
    (v : VoterService.VoterVar) (h) (e) :
    VoterService.unmarshalVoterFields grow (("LastName", x) :: rest) v h e =
      VoterService.unmarshalVoterFields grow rest
        { v with LastName := (unmarshalString x v.LastName).1 } h
        (saveError e (unmarshalString x v.LastName).2) := by
  simp [VoterService.unmarshalVoterFields, foldName_id, foldName_FirstName,
    foldName_LastName]

theorem unmarshalVoterServiceFields_pollid (grow : Nat → Nat) (x : JSON) (rest)
    (v : VoterService.VoterVar) (h) (e) :
    VoterService.unmarshalVoterFields grow (("pollid", x) :: rest) v h e =
      VoterService.unmarshalVoterFields grow rest
        { v with VoteHistory := (unmarshalSlice grow 0 unmarshalUint x h v.VoteHistory).2.1 }
        (unmarshalSlice grow 0 unmarshalUint x h v.VoteHistory).1
        (saveError e (unmarshalSlice grow 0 unmarshalUint x h v.VoteHistory).2.2) := by
  simp [VoterService.unmarshalVoterFields, foldName_id, foldName_FirstName,
    foldName_LastName, foldName_pollid]

/-- Reading back, into a fresh variable, the document written for a voter whose history
is not nil and holds `uint`s gives that voter. -/
theorem getVoterFromRedis_stored (grow : Nat → Nat) (db : Redis) (key : String)
    (voterID : Nat) (fn ln : String) (history : List Nat)
    (hdb : db key = some (VoterService.marshalVoter ⟨voterID, fn, ln, some history⟩))
    (hid : voterID < 18446744073709551616)
    (hhist : ∀ n ∈ history, n < 18446744073709551616) :
    (VoterService.getVoterFromRedis grow none db key {} []).2.2 = none ∧
      VoterService.VoterVar.load (VoterService.getVoterFromRedis grow none db key {} []).2.1
        (VoterService.getVoterFromRedis grow none db key {} []).1 =
        ⟨voterID, fn, ln, some history⟩ := by
  obtain ⟨herr, hload⟩ := unmarshalSlice_marshal grow 0 unmarshalUint
    (fun n : Nat => JSON.num n) history
    (fun n hn old => unmarshalUint_num n old (hhist n hn))
  have hdoc := marshalVoter_history voterID fn ln history
  rw [hdoc] at hdb
  simp only [VoterService.getVoterFromRedis, JSONGet, hdb, VoterService.unmarshalVoter]
  rw [unmarshalVoterServiceFields_id, unmarshalUint_num _ _ hid,
    unmarshalVoterServiceFields_FirstName, unmarshalVoterServiceFields_LastName,
    unmarshalVoterServiceFields_pollid]
  simp only [VoterService.unmarshalVoterFields, saveError, unmarshalString, herr,
    VoterService.VoterVar.load, hload, and_self]

/-! ## The claims -/

/-- C1: `AddVote` followed by `GetVote` is a round trip.  For every counter value and
every store that holds no readable `Vote` in the slot of the next ID, for all `uint`
inputs: when the voter GET and the poll GET both answer with a status other than 404, the
history POST answers, and both store writes succeed, `AddVote` returns the `Vote` with the
next ID and the inputs together with a nil error; in a store in which every document
that decodes as a `Vote` sits under the key of its `VoteID`, no such document carried the
next ID before the call; and `GetVote` of that ID on the resulting store returns exactly
that `Vote` with a nil error. -/
theorem AddVote_GetVote_roundtrip (w : World) (t : VoteApi) (db : Redis)
    (voterID pollID value voterCode pollCode postCode : Nat)
    (hvoterID : voterID < 18446744073709551616) (hpollID : pollID < 18446744073709551616)
    (hvalue : value < 18446744073709551616)
    (hslot : (GetVote none db (toInt (uintSucc t.idCnter))).2 ≠ none)
    (hvoter : AddVote.voterResp w t voterID = .status voterCode) (hvoterCode : voterCode ≠ 404)
    (hpoll : AddVote.pollResp w t pollID = .status pollCode) (hpollCode : pollCode ≠ 404)
    (hpost : AddVote.postResp w t voterID pollID = .status postCode)
    (hvoteSet : w.voteSet = none) (hcntSet : w.cntSet = none) :
    (AddVote w t db voterID pollID value).vote =
        { VoteID := uintSucc t.idCnter, VoterID := voterID, PollID := pollID,
          VoteValue := value } ∧
      (AddVote w t db voterID pollID value).err = none ∧
      ((∀ key doc, db key = some doc → (unmarshalVote doc {}).2 = none →
          key = redisKeyFromId (toInt (unmarshalVote doc {}).1.VoteID)) →
        ∀ key doc, db key = some doc → (unmarshalVote doc {}).2 = none →
          (unmarshalVote doc {}).1.VoteID ≠ uintSucc t.idCnter) ∧
      GetVote none (AddVote w t db voterID pollID value).db (toInt (uintSucc t.idCnter)) =
        ({ VoteID := uintSucc t.idCnter, VoterID := voterID, PollID := pollID,
           VoteValue := value }, none) := by
  have hun : ∀ fault,
      (getVoteFromRedis fault db (redisKeyFromId (toInt (uintSucc t.idCnter))) {}).2 ≠
        none := by
    intro fault
    apply getVoteFromRedis_unreadable
    rw [← GetVote_err]; exact hslot
  obtain ⟨e, he⟩ := Option.ne_none_iff_exists'.mp (hun w.slotGet)
  rw [AddVote_exit_commit w t db voterID pollID value voterCode pollCode postCode e he hvoter
    hvoterCode hpoll hpollCode hpost hvoteSet hcntSet]
  refine ⟨rfl, rfl, ?_, ?_⟩
  · intro hkeyed key doc hdoc hdec hid
    have hkey := hkeyed key doc hdoc hdec
    rw [hid] at hkey
    rw [hkey] at hdoc
    exact hun none (by rw [getVoteFromRedis_present _ _ _ doc hdoc]; exact hdec)
  · apply GetVote_ok
    rw [getVoteFromRedis_present _ _ _ (marshalVote (AddVote.newVote t voterID pollID value))]
    · exact unmarshalVote_marshalVote _ _ (uintSucc_lt _) hvoterID hpollID hvalue
    · simp [AddVote.redisKey, redisKeyFromId_ne_RedisIDKey]

/-- Witness of C1: counter 0, a store that holds the vote 7 under "vote:7", collaborators
answering 200, on a receiver whose Voter URL makes the URL of the history POST parse. -/
theorem AddVote_GetVote_roundtrip_witness :
    (AddVote (verbWorld 200 200 200) verbApi
        (fun k => if k = "vote:7" then some (marshalVote ⟨7, 7, 7, 7⟩) else none) 1 1 0).vote =
        { VoteID := 1, VoterID := 1, PollID := 1, VoteValue := 0 } ∧
      (AddVote (verbWorld 200 200 200) verbApi
        (fun k => if k = "vote:7" then some (marshalVote ⟨7, 7, 7, 7⟩) else none) 1 1 0).err =
        none ∧
      GetVote none (AddVote (verbWorld 200 200 200) verbApi
        (fun k => if k = "vote:7" then some (marshalVote ⟨7, 7, 7, 7⟩) else none) 1 1 0).db 1 =
        ({ VoteID := 1, VoterID := 1, PollID := 1, VoteValue := 0 }, none) :=
  have h := AddVote_GetVote_roundtrip (verbWorld 200 200 200) verbApi
    (fun k => if k = "vote:7" then some (marshalVote ⟨7, 7, 7, 7⟩) else none) 1 1 0
    200 200 200
    (by decide) (by decide) (by decide) (by decide) rfl (by decide) rfl (by decide) rfl rfl rfl
  ⟨h.1, h.2.1, h.2.2.2⟩

/-- C2: a vote for a voter or a poll that does not exist changes nothing.  For every
state and input, if the voter GET answers 404, or the voter GET answers and the poll GET
answers 404, `AddVote` returns a non-nil error, the store after the call is the store
before it (no `Vote` document, counter document untouched), the receiver and with it
`idCnter` is unchanged, and no POST and no store write is issued. -/
theorem AddVote_not_found (w : World) (t : VoteApi) (db : Redis) (voterID pollID value : Nat)
    (h : w.voterGet = .status 404 ∨
      ((∃ voterCode, w.voterGet = .status voterCode) ∧ w.pollGet = .status 404)) :
    (AddVote w t db voterID pollID value).err ≠ none ∧
      (AddVote w t db voterID pollID value).db = db ∧
      (AddVote w t db voterID pollID value).api = t ∧
      (AddVote w t db voterID pollID value).api.idCnter = t.idCnter ∧
      (∀ url, Effect.httpPost url ∉ (AddVote w t db voterID pollID value).trace) ∧
      (∀ key doc, Effect.jsonSet key doc ∉ (AddVote w t db voterID pollID value).trace) :=
  AddVote_stops_on_404 w t db voterID pollID value h

/-- Witness of C2: the Voter service answers 404 for voter 999. -/
theorem AddVote_not_found_witness :
    (AddVote (sampleWorld 404 200 200) sampleApi Redis.empty 999 1 0).err ≠ none ∧
      (AddVote (sampleWorld 404 200 200) sampleApi Redis.empty 999 1 0).db = Redis.empty :=
  have h := AddVote_not_found (sampleWorld 404 200 200) sampleApi Redis.empty 999 1 0
    (Or.inl rfl)
  ⟨h.1, h.2.1⟩

/-- C3, as stated, fails: a history append that the Voter service answers with a
non-success status does not stop `AddVote`.  With counter 0, an empty store, a Voter URL
with which the URL of the POST parses, both existence checks answered 200 and the history
POST answered 500, `AddVote` returns the `Vote` with ID
1 and a nil error, the document is stored under "vote:1", and the counter in memory and in
the store is 1. -/
theorem AddVote_history_500_commits :
    AddVote.postResp (verbWorld 200 200 500) verbApi 1 1 = .status 500 ∧
      (AddVote (verbWorld 200 200 500) verbApi Redis.empty 1 1 0).err = none ∧
      (AddVote (verbWorld 200 200 500) verbApi Redis.empty 1 1 0).vote =
        { VoteID := 1, VoterID := 1, PollID := 1, VoteValue := 0 } ∧
      (AddVote (verbWorld 200 200 500) verbApi Redis.empty 1 1 0).db "vote:1" =
        some (marshalVote { VoteID := 1, VoterID := 1, PollID := 1, VoteValue := 0 }) ∧
      (AddVote (verbWorld 200 200 500) verbApi Redis.empty 1 1 0).db "voteCnt:" =
        some (.num 1) ∧
      (AddVote (verbWorld 200 200 500) verbApi Redis.empty 1 1 0).api.idCnter = 1 :=
  ⟨rfl, rfl, rfl, rfl, rfl, rfl⟩

/-- C3, amended: a history append that fails in transport stops `AddVote`.  For every
state and input where the duplicate check and both existence checks pass, if `resty`
returns an error for the history POST (a transport error, or a URL it refuses), `AddVote` returns a non-nil error, issues no store write,
and leaves the store (the counter document included) and the receiver with its `idCnter`
as they were. -/
theorem AddVote_history_transport_error (w : World) (t : VoteApi) (db : Redis)
    (voterID pollID value voterCode pollCode : Nat) (err : String)
    (hslot : (getVoteFromRedis w.slotGet db (AddVote.redisKey t) {}).2 ≠ none)
    (hvoter : AddVote.voterResp w t voterID = .status voterCode) (hvoterCode : voterCode ≠ 404)
    (hpoll : AddVote.pollResp w t pollID = .status pollCode) (hpollCode : pollCode ≠ 404)
    (hpost : AddVote.postResp w t voterID pollID = .fail err) :
    (AddVote w t db voterID pollID value).err ≠ none ∧
      (∀ key doc, Effect.jsonSet key doc ∉ (AddVote w t db voterID pollID value).trace) ∧
      (AddVote w t db voterID pollID value).db = db ∧
      (AddVote w t db voterID pollID value).db RedisIDKey = db RedisIDKey ∧
      (AddVote w t db voterID pollID value).api = t ∧
      (AddVote w t db voterID pollID value).api.idCnter = t.idCnter := by
  obtain ⟨e, he⟩ := Option.ne_none_iff_exists'.mp hslot
  rw [AddVote_exit_post_fail w t db voterID pollID value voterCode pollCode e err he hvoter
    hvoterCode hpoll hpollCode hpost]
  simp

/-- Witness of C3, amended: counter 0, empty store, the history POST refused by the
network. -/
theorem AddVote_history_transport_error_witness :
    (AddVote { verbWorld 200 200 200 with histPost := .fail "connection refused" }
        verbApi Redis.empty 1 1 0).err ≠ none ∧
      (AddVote { verbWorld 200 200 200 with histPost := .fail "connection refused" }
        verbApi Redis.empty 1 1 0).db = Redis.empty :=
  have h := AddVote_history_transport_error
    { verbWorld 200 200 200 with histPost := .fail "connection refused" }
    verbApi Redis.empty 1 1 0 200 200 "connection refused"
    (by decide) rfl (by decide) rfl (by decide) rfl
  ⟨h.1, h.2.2.1⟩

/-- C4: the duplicate check.  For every counter value, if the store serves a document
at the key of the next ID and that document decodes as a `Vote`, then for every input
`AddVote` returns the zero `Vote` and the error "Vote already exists!", its only request is
the read of that key (no request to the Voter or Poll service, no store write), and the
store and `idCnter` are as before. -/
theorem AddVote_duplicate (w : World) (t : VoteApi) (db : Redis)
    (voterID pollID value : Nat) (doc : JSON)
    (hread : w.slotGet = none)
    (hdoc : db (AddVote.redisKey t) = some doc)
    (hdecode : (unmarshalVote doc {}).2 = none) :
    (AddVote w t db voterID pollID value).vote = {} ∧
      (AddVote w t db voterID pollID value).err = some "Vote already exists!" ∧
      (AddVote w t db voterID pollID value).trace = [.jsonGet (AddVote.redisKey t)] ∧
      (AddVote w t db voterID pollID value).db = db ∧
      (AddVote w t db voterID pollID value).api.idCnter = t.idCnter := by
  have hslot : (getVoteFromRedis w.slotGet db (AddVote.redisKey t) {}).2 = none := by
    rw [hread, getVoteFromRedis_present _ _ _ doc hdoc]; exact hdecode
  rw [AddVote_exit_duplicate w t db voterID pollID value hslot]
  exact ⟨rfl, rfl, rfl, rfl, rfl⟩

/-- Witness of C4: counter 0 and a `Vote` document already stored under "vote:1". -/
theorem AddVote_duplicate_witness :
    (AddVote (sampleWorld 200 200 200) sampleApi
        (fun k => if k = "vote:1" then some (marshalVote ⟨1, 7, 7, 7⟩) else none) 1 1 0).err =
      some "Vote already exists!" :=
  (AddVote_duplicate (sampleWorld 200 200 200) sampleApi
    (fun k => if k = "vote:1" then some (marshalVote ⟨1, 7, 7, 7⟩) else none) 1 1 0
    (marshalVote ⟨1, 7, 7, 7⟩) rfl rfl (by decide)).2.1

/-- C5, as stated, fails: with the voter GET answered 500 (and everything else in
order, on a Voter URL with which the URL of the POST parses) `AddVote` does not stop.  It
returns a nil error, issues the history POST and both store writes, and the `Vote` is
stored under "vote:1". -/
theorem AddVote_voter_500_commits :
    AddVote.voterResp (verbWorld 500 200 200) verbApi 1 = .status 500 ∧
      (AddVote (verbWorld 500 200 200) verbApi Redis.empty 1 1 0).err = none ∧
      (AddVote (verbWorld 500 200 200) verbApi Redis.empty 1 1 0).trace =
        [.jsonGet "vote:1", .httpGet "http://voter:2080/%01s%01d/voter/1",
         .httpGet "http://poll:3080/poll/1",
         .httpPost "http://voter:2080//1/voter/1",
         .jsonSet "vote:1"
           (marshalVote { VoteID := 1, VoterID := 1, PollID := 1, VoteValue := 0 }),
         .jsonSet "voteCnt:" (.num 1)] ∧
      (AddVote (verbWorld 500 200 200) verbApi Redis.empty 1 1 0).db "vote:1" =
        some (marshalVote { VoteID := 1, VoterID := 1, PollID := 1, VoteValue := 0 }) :=
  ⟨rfl, rfl, rfl, rfl⟩

/-- C5, amended: `AddVote` stops at an existence check only on an error of `resty` or on
status 404.  If the voter GET or the poll GET returns an error or answers 404, the call
returns an error, issues no POST and writes nothing.  Any other status lets the call
proceed: when the duplicate check passes and both GETs are answered with a status other
than 404 (2xx or not), the history POST is issued, and when that is answered and both
writes succeed the call returns the new `Vote` and a nil error.  And every store write
`AddVote` issues comes after a read of the slot, a voter GET and a poll GET that were each
answered with a status other than 404, and after the history POST. -/
theorem AddVote_writes_after_checks (w : World) (t : VoteApi) (db : Redis)
    (voterID pollID value : Nat) :
    (((∃ e, AddVote.voterResp w t voterID = .fail e) ∨ AddVote.voterResp w t voterID = .status 404 ∨
        (∃ e, AddVote.pollResp w t pollID = .fail e) ∨ AddVote.pollResp w t pollID = .status 404) →
      (AddVote w t db voterID pollID value).err ≠ none ∧
        (∀ url, Effect.httpPost url ∉ (AddVote w t db voterID pollID value).trace) ∧
        (∀ key doc, Effect.jsonSet key doc ∉ (AddVote w t db voterID pollID value).trace)) ∧
    ((∃ key doc, Effect.jsonSet key doc ∈ (AddVote w t db voterID pollID value).trace) →
      ∃ voterCode pollCode rest,
        AddVote.voterResp w t voterID = .status voterCode ∧ voterCode ≠ 404 ∧
        AddVote.pollResp w t pollID = .status pollCode ∧ pollCode ≠ 404 ∧
        (AddVote w t db voterID pollID value).trace =
          .jsonGet (AddVote.redisKey t) :: .httpGet (AddVote.voterUrl t voterID) ::
            .httpGet (AddVote.pollUrl t pollID) ::
            .httpPost (AddVote.voterNewPollUrl w t voterID pollID) :: rest) ∧
    (∀ voterCode pollCode,
      (getVoteFromRedis w.slotGet db (AddVote.redisKey t) {}).2 ≠ none →
      AddVote.voterResp w t voterID = .status voterCode → voterCode ≠ 404 →
      AddVote.pollResp w t pollID = .status pollCode → pollCode ≠ 404 →
      (∃ rest, (AddVote w t db voterID pollID value).trace =
          .jsonGet (AddVote.redisKey t) :: .httpGet (AddVote.voterUrl t voterID) ::
            .httpGet (AddVote.pollUrl t pollID) ::
            .httpPost (AddVote.voterNewPollUrl w t voterID pollID) :: rest) ∧
        ((∃ postCode, AddVote.postResp w t voterID pollID = .status postCode) →
          w.voteSet = none → w.cntSet = none →
          (AddVote w t db voterID pollID value).err = none ∧
            (AddVote w t db voterID pollID value).vote =
              AddVote.newVote t voterID pollID value)) := by
  cases hslot : (getVoteFromRedis w.slotGet db (AddVote.redisKey t) {}).2 with
  | none =>
    rw [AddVote_exit_duplicate w t db voterID pollID value hslot]
    simp
  | some e =>
    cases hvoter : AddVote.voterResp w t voterID with
    | fail err =>
      rw [AddVote_exit_voter_fail w t db voterID pollID value e err hslot hvoter]
      simp
    | status voterCode =>
      by_cases hvc : voterCode = 404
      · rw [AddVote_exit_voter_404 w t db voterID pollID value e hslot (hvc ▸ hvoter)]
        simp
        intros
        omega
      · cases hpoll : AddVote.pollResp w t pollID with
        | fail err =>
          rw [AddVote_exit_poll_fail w t db voterID pollID value voterCode e err hslot hvoter
            hvc hpoll]
          simp
        | status pollCode =>
          by_cases hpc : pollCode = 404
          · rw [AddVote_exit_poll_404 w t db voterID pollID value voterCode e hslot hvoter
              hvc (hpc ▸ hpoll)]
            simp
            intros
            omega
          · cases hpost : AddVote.postResp w t voterID pollID with
            | fail err =>
              rw [AddVote_exit_post_fail w t db voterID pollID value voterCode pollCode e err
                hslot hvoter hvc hpoll hpc hpost]
              simp [hvc, hpc]
            | status postCode =>
              cases hvs : w.voteSet with
              | some err =>
                rw [AddVote_exit_vote_fault w t db voterID pollID value voterCode pollCode
                  postCode e err hslot hvoter hvc hpoll hpc hpost hvs]
                simp [hvc, hpc]
              | none =>
                cases hcs : w.cntSet with
                | some err =>
                  rw [AddVote_exit_cnt_fault w t db voterID pollID value voterCode pollCode
                    postCode e err hslot hvoter hvc hpoll hpc hpost hvs hcs]
                  simp [hvc, hpc]
                | none =>
                  rw [AddVote_exit_commit w t db voterID pollID value voterCode pollCode
                    postCode e hslot hvoter hvc hpoll hpc hpost hvs hcs]
                  simp [hvc, hpc]

/-- Witness of C5, amended: the poll GET answered 404 stops the call, and a call whose
voter GET is answered 500 and whose other steps succeed issues the POST and commits. -/
theorem AddVote_writes_after_checks_witness :
    (AddVote (verbWorld 200 404 200) verbApi Redis.empty 1 1 0).err ≠ none ∧
      ((AddVote (verbWorld 500 200 200) verbApi Redis.empty 1 1 0).err = none ∧
        (AddVote (verbWorld 500 200 200) verbApi Redis.empty 1 1 0).vote =
          AddVote.newVote verbApi 1 1 0) :=
  ⟨((AddVote_writes_after_checks (verbWorld 200 404 200) verbApi Redis.empty 1 1 0).1
      (Or.inr (Or.inr (Or.inr rfl)))).1,
    ((AddVote_writes_after_checks (verbWorld 500 200 200) verbApi Redis.empty 1 1 0).2.2
      500 200 (by decide) rfl (by decide) rfl (by decide)).2 ⟨200, rfl⟩ rfl rfl⟩

/-- C6: the POST /vote handler does not forward the body unchanged.  It reads the voter
from the member `voteID` (the tag of its first field) and passes the voter a second time
in the place of the value.  With counter 0, on a Voter URL with which the URL of the
history POST parses, the body {voterID:1, pollID:1, voteValue:0} is
answered 200 with {voteID:1, voterID:0, pollID:1, voteValue:0} after a lookup of voter 0,
and the body {voteID:7, pollID:1, voteValue:5} is answered 200 with
{voteID:1, voterID:7, pollID:1, voteValue:7}. -/
theorem postVoteHandler_drops_voter_and_value :
    (postVoteHandler (verbWorld 200 200 200) verbApi Redis.empty
        (some (.obj [("voterID", .num 1), ("pollID", .num 1), ("voteValue", .num 0)]))).resp =
        ⟨200, .vote { VoteID := 1, VoterID := 0, PollID := 1, VoteValue := 0 }⟩ ∧
      (postVoteHandler (verbWorld 200 200 200) verbApi Redis.empty
        (some (.obj [("voterID", .num 1), ("pollID", .num 1),
          ("voteValue", .num 0)]))).trace.take 2 =
        [.jsonGet "vote:1", .httpGet "http://voter:2080/%01s%01d/voter/0"] ∧
      (postVoteHandler (verbWorld 200 200 200) verbApi Redis.empty
        (some (.obj [("voteID", .num 7), ("pollID", .num 1), ("voteValue", .num 5)]))).resp =
        ⟨200, .vote { VoteID := 1, VoterID := 7, PollID := 1, VoteValue := 7 }⟩ :=
  ⟨rfl, rfl, rfl⟩

/-- C7: the history append is not posted to `/voter/{id}/{pollid}`.  `AddVote` builds the
URL with `fmt.Sprintf(voterUrl, "/", pollID)`, which takes `voterUrl` as the format: for
the base URL "http://voter:2080", voter 1 and poll 1 the request goes to
"http://voter:2080/voter/1%!(EXTRA string=/, uint=1)" and not to
"http://voter:2080/voter/1/1". -/
theorem AddVote_history_url :
    AddVote.voterNewPollUrl (sampleWorld 200 200 200) sampleApi 1 1 =
        "http://voter:2080/voter/1%!(EXTRA string=/, uint=1)" ∧
      AddVote.voterNewPollUrl (sampleWorld 200 200 200) sampleApi 1 1 ≠
        sampleApi.VoterUrl ++ "/voter/" ++ toString 1 ++ "/" ++ toString 1 ∧
      (AddVote (sampleWorld 200 200 200) sampleApi Redis.empty 1 1 0).trace.take 4 =
        [.jsonGet "vote:1", .httpGet "http://voter:2080/voter/1",
         .httpGet "http://poll:3080/poll/1",
         .httpPost "http://voter:2080/voter/1%!(EXTRA string=/, uint=1)"] :=
  ⟨by decide, by decide, rfl⟩

/-- C8: `NewVoteApi` gives the Voter base URL no default.  With no variable set, the
store is opened on "0.0.0.0:6379" and `PollUrl` is "0.0.0.0:3080", but `VoterUrl` is the
empty string and not `VoterDefaultLocation`; the default is assigned under a test of
`redisUrl`, which is never empty at that point. -/
theorem NewVoteApi_voter_url_unset :
    NewVoteApi ⟨fun _ => none, none, none⟩ Redis.empty =
        ({ cacheClient := some "0.0.0.0:6379", VoterUrl := "", PollUrl := "0.0.0.0:3080",
           idCnter := 0 }, none) ∧
      (NewVoteApi ⟨fun _ => none, none, none⟩ Redis.empty).1.VoterUrl ≠ VoterDefaultLocation :=
  ⟨by decide, by decide⟩

/-- C9, as stated, fails: the handler answers a vote for an unknown voter with 500, not
with 404.  The body names voter 999, the Voter service answers the lookup with 404, and
the response of `POST /vote` has status 500. -/
theorem postVoteHandler_unknown_voter_500 :
    (sampleWorld 404 200 200).voterGet = .status 404 ∧
      (postVoteHandler (sampleWorld 404 200 200) sampleApi Redis.empty
        (some (.obj [("voterID", .num 999), ("pollID", .num 1), ("voteValue", .num 0)]))).resp =
        ⟨500, .none⟩ ∧
      (postVoteHandler (sampleWorld 404 200 200) sampleApi Redis.empty
        (some (.obj [("voterID", .num 999), ("pollID", .num 1),
          ("voteValue", .num 0)]))).resp.status ≠ 404 :=
  ⟨rfl, rfl, by decide⟩

/-- C9, amended: a vote for an unregistered voter is answered 500 and creates nothing.
For every request to `POST /vote` whose body binds and whose voter lookup is answered 404,
the handler responds with status 500 and no body and leaves the store as it was; and if no
document was stored under the prefix "vote:" before, a following `GET /vote`, whose key
scan returns only keys under the prefix that hold a document, is answered 200 with the
empty list. -/
theorem postVoteHandler_unknown_voter (w : World) (t : VoteApi) (db : Redis)
    (body : Option JSON) (lw : ListWorld)
    (hbind : (ShouldBindJSON body).2 = none)
    (hvoter : w.voterGet = .status 404)
    (hempty : ∀ key, RedisKeyPrefix.data <+: key.data → db key = none)
    (hscan : ∀ ks, lw.keys = .ok ks → ∀ key ∈ ks,
      RedisKeyPrefix.data <+: key.data ∧ (postVoteHandler w t db body).db key ≠ none) :
    (postVoteHandler w t db body).resp = ⟨500, .none⟩ ∧
      (postVoteHandler w t db body).db = db ∧
      getVotesHandler lw (postVoteHandler w t db body).db = ⟨200, .votes []⟩ := by
  have hrun : postVoteHandler w t db body = ⟨⟨500, .none⟩, t, db,
      (AddVote w t db (ShouldBindJSON body).1.VoterID (ShouldBindJSON body).1.PollID
        (ShouldBindJSON body).1.VoterID).trace⟩ := by
    obtain ⟨herr, hdb, hapi, -⟩ := AddVote_stops_on_404 w t db (ShouldBindJSON body).1.VoterID
      (ShouldBindJSON body).1.PollID (ShouldBindJSON body).1.VoterID (Or.inl hvoter)
    obtain ⟨e, he⟩ := Option.ne_none_iff_exists'.mp herr
    unfold postVoteHandler
    cases hb : ShouldBindJSON body with
    | mk vote berr =>
      rw [hb] at hbind he hdb hapi
      simp only at hbind he hdb hapi
      subst hbind
      simp only [he, hdb, hapi]
  rw [hrun] at hscan
  rw [hrun]
  refine ⟨rfl, rfl, ?_⟩
  have hks : (match lw.keys with | .ok ks => ks | .error _ => []) = [] := by
    cases hk : lw.keys with
    | error e => rfl
    | ok ks =>
      cases ks with
      | nil => rfl
      | cons key rest =>
        have h1 := hscan (key :: rest) hk key (List.mem_cons_self _ _)
        exact absurd (hempty key h1.1) h1.2
  unfold getVotesHandler GetAllVotes
  simp only [hks, GetAllVotesLoop]

/-- Witness of C9, amended: the request of the scenario over an empty store. -/
theorem postVoteHandler_unknown_voter_witness :
    (postVoteHandler (sampleWorld 404 200 200) sampleApi Redis.empty
        (some (.obj [("voterID", .num 999), ("pollID", .num 1), ("voteValue", .num 0)]))).resp =
        ⟨500, .none⟩ ∧
      getVotesHandler ⟨.ok [], fun _ => none⟩
        (postVoteHandler (sampleWorld 404 200 200) sampleApi Redis.empty
          (some (.obj [("voterID", .num 999), ("pollID", .num 1),
            ("voteValue", .num 0)]))).db = ⟨200, .votes []⟩ :=
  have h := postVoteHandler_unknown_voter (sampleWorld 404 200 200) sampleApi Redis.empty
    (some (.obj [("voterID", .num 999), ("pollID", .num 1), ("voteValue", .num 0)]))
    ⟨.ok [], fun _ => none⟩ rfl rfl (fun _ _ => rfl)
    (fun ks hks key hkey => by
      cases hks
      exact absurd hkey (List.not_mem_nil key))
  ⟨h.1, h.2.2⟩

/-- C10: a counter write that fails after the `Vote` write still advances the counter
in memory.  For every counter value `c`: when the checks pass, the `Vote` write succeeds
and the counter write fails, `AddVote` returns the zero `Vote` and the error of that write,
`idCnter` is `c + 1`, the new `Vote` is stored at the key of `c + 1` and the counter
document is as before; and the next `AddVote` on that receiver and store reads the key of
`c + 2` for its duplicate check, writes no other `Vote` key, and returns `VoteID` `c + 2`
when it succeeds. -/
theorem AddVote_counter_write_fails (w : World) (t : VoteApi) (db : Redis)
    (voterID pollID value voterCode pollCode postCode : Nat) (err : String)
    (hslot : (GetVote none db (toInt (uintSucc t.idCnter))).2 ≠ none)
    (hvoter : AddVote.voterResp w t voterID = .status voterCode) (hvoterCode : voterCode ≠ 404)
    (hpoll : AddVote.pollResp w t pollID = .status pollCode) (hpollCode : pollCode ≠ 404)
    (hpost : AddVote.postResp w t voterID pollID = .status postCode)
    (hvoteSet : w.voteSet = none) (hcntSet : w.cntSet = some err) :
    (AddVote w t db voterID pollID value).vote = {} ∧
      (AddVote w t db voterID pollID value).err = some err ∧
      (AddVote w t db voterID pollID value).api.idCnter = uintSucc t.idCnter ∧
      (AddVote w t db voterID pollID value).db (redisKeyFromId (toInt (uintSucc t.idCnter))) =
        some (marshalVote
          { VoteID := uintSucc t.idCnter, VoterID := voterID, PollID := pollID,
            VoteValue := value }) ∧
      (AddVote w t db voterID pollID value).db RedisIDKey = db RedisIDKey ∧
      uintSucc (uintSucc t.idCnter) = (t.idCnter + 2) % 18446744073709551616 ∧
      ∀ (w2 : World) (voterID2 pollID2 value2 : Nat),
        (AddVote w2 (AddVote w t db voterID pollID value).api
            (AddVote w t db voterID pollID value).db voterID2 pollID2 value2).trace.head? =
          some (.jsonGet (redisKeyFromId (toInt (uintSucc (uintSucc t.idCnter))))) ∧
        (∀ key doc, Effect.jsonSet key doc ∈
            (AddVote w2 (AddVote w t db voterID pollID value).api
              (AddVote w t db voterID pollID value).db voterID2 pollID2 value2).trace →
          key = redisKeyFromId (toInt (uintSucc (uintSucc t.idCnter))) ∨ key = RedisIDKey) ∧
        ((AddVote w2 (AddVote w t db voterID pollID value).api
            (AddVote w t db voterID pollID value).db voterID2 pollID2 value2).err = none →
          (AddVote w2 (AddVote w t db voterID pollID value).api
            (AddVote w t db voterID pollID value).db voterID2 pollID2 value2).vote.VoteID =
            uintSucc (uintSucc t.idCnter)) := by
  have hun : (getVoteFromRedis w.slotGet db (AddVote.redisKey t) {}).2 ≠ none := by
    apply getVoteFromRedis_unreadable
    rw [AddVote.redisKey, ← GetVote_err]; exact hslot
  obtain ⟨e, he⟩ := Option.ne_none_iff_exists'.mp hun
  rw [AddVote_exit_cnt_fault w t db voterID pollID value voterCode pollCode postCode e err he
    hvoter hvoterCode hpoll hpollCode hpost hvoteSet hcntSet]
  refine ⟨rfl, rfl, rfl, ?_, ?_, ?_, ?_⟩
  · simp [AddVote.redisKey, AddVote.newVote]
  · have hne : RedisIDKey ≠ AddVote.redisKey t := fun h =>
      redisKeyFromId_ne_RedisIDKey _ h.symm
    simp [hne]
  · unfold uintSucc; omega
  · intro w2 voterID2 pollID2 value2
    exact AddVote_next_slot w2 _ _ voterID2 pollID2 value2

/-- Witness of C10: counter 0, empty store, the counter write refused; the next call, in a
world where everything succeeds, returns `VoteID` 2. -/
theorem AddVote_counter_write_fails_witness :
    (AddVote { verbWorld 200 200 200 with cntSet := some "connection refused" }
        verbApi Redis.empty 1 1 0).api.idCnter = 1 ∧
      (AddVote { verbWorld 200 200 200 with cntSet := some "connection refused" }
        verbApi Redis.empty 1 1 0).db "vote:1" =
        some (marshalVote { VoteID := 1, VoterID := 1, PollID := 1, VoteValue := 0 }) ∧
      (AddVote (verbWorld 200 200 200)
        (AddVote { verbWorld 200 200 200 with cntSet := some "connection refused" }
          verbApi Redis.empty 1 1 0).api
        (AddVote { verbWorld 200 200 200 with cntSet := some "connection refused" }
          verbApi Redis.empty 1 1 0).db 2 1 1).vote.VoteID = 2 :=
  have h := AddVote_counter_write_fails
    { verbWorld 200 200 200 with cntSet := some "connection refused" }
    verbApi Redis.empty 1 1 0 200 200 200 "connection refused"
    (by decide) rfl (by decide) rfl (by decide) rfl rfl rfl
  ⟨h.2.2.1, h.2.2.2.1, (h.2.2.2.2.2.2 (verbWorld 200 200 200) 2 1 1).2.2 rfl⟩

/-- C11: the ID counter is incremented only after a successful entity write.  For each
of `VoteApi.AddVote`, `PollApi.AddPoll` and `VoterAPI.AddVoter`: if the call reaches the
write of the entity document at the key of the next ID and that write fails, the call
returns the error of the write, `idCnter` keeps its value, the store is as before, and no
write of the counter document is issued. -/
theorem entity_write_fault_keeps_counter
    (w : World) (t : VoteApi) (db : Redis)
    (voterID pollID value voterCode pollCode postCode : Nat) (err : String)
    (hslot : (getVoteFromRedis w.slotGet db (AddVote.redisKey t) {}).2 ≠ none)
    (hvoter : AddVote.voterResp w t voterID = .status voterCode) (hvoterCode : voterCode ≠ 404)
    (hpoll : AddVote.pollResp w t pollID = .status pollCode) (hpollCode : pollCode ≠ 404)
    (hpost : AddVote.postResp w t voterID pollID = .status postCode) (hvoteSet : w.voteSet = some err)
    (pw : PollService.World) (pt : PollService.PollApi) (pdb : Redis)
    (pollTitle pollQuestion : String) (pollOptions : Option (List String)) (perr : String)
    (hpslot : (PollService.getPollFromRedis pw.grow pw.slotGet pdb
      (PollService.AddPoll.redisKey pt) {} []).2.2 ≠ none)
    (hpollSet : pw.pollSet = some perr)
    (vw : VoterService.World) (vt : VoterService.VoterAPI) (vdb : Redis)
    (fn ln : String) (verr : String)
    (hvslot : (VoterService.getVoterFromRedis vw.grow vw.slotGet vdb
      (VoterService.AddVoter.redisKey vt) {} []).2.2 ≠ none)
    (hvoterSet : vw.voterSet = some verr) :
    ((AddVote w t db voterID pollID value).err = some err ∧
      (AddVote w t db voterID pollID value).api.idCnter = t.idCnter ∧
      (AddVote w t db voterID pollID value).db = db ∧
      ∀ doc, Effect.jsonSet RedisIDKey doc ∉ (AddVote w t db voterID pollID value).trace) ∧
    ((PollService.AddPoll pw pt pdb pollTitle pollQuestion pollOptions).err = some perr ∧
      (PollService.AddPoll pw pt pdb pollTitle pollQuestion pollOptions).api.idCnter =
        pt.idCnter ∧
      (PollService.AddPoll pw pt pdb pollTitle pollQuestion pollOptions).db = pdb ∧
      ∀ doc, Effect.jsonSet PollService.RedisIDKey doc ∉
        (PollService.AddPoll pw pt pdb pollTitle pollQuestion pollOptions).trace) ∧
    ((VoterService.AddVoter vw vt vdb fn ln).err = some verr ∧
      (VoterService.AddVoter vw vt vdb fn ln).api.idCnter = vt.idCnter ∧
      (VoterService.AddVoter vw vt vdb fn ln).db = vdb ∧
      ∀ doc, Effect.jsonSet VoterService.RedisIDKey doc ∉
        (VoterService.AddVoter vw vt vdb fn ln).trace) := by
  obtain ⟨e, he⟩ := Option.ne_none_iff_exists'.mp hslot
  obtain ⟨pe, hpe⟩ := Option.ne_none_iff_exists'.mp hpslot
  obtain ⟨ve, hve⟩ := Option.ne_none_iff_exists'.mp hvslot
  rw [AddVote_exit_vote_fault w t db voterID pollID value voterCode pollCode postCode e err he
    hvoter hvoterCode hpoll hpollCode hpost hvoteSet,
    AddPoll_exit_poll_fault pw pt pdb pollTitle pollQuestion pollOptions pe perr hpe hpollSet,
    AddVoter_exit_voter_fault vw vt vdb fn ln ve verr hve hvoterSet]
  have h1 : AddVote.redisKey t ≠ RedisIDKey := redisKeyFromId_ne_RedisIDKey _
  have h2 : PollService.AddPoll.redisKey pt ≠ PollService.RedisIDKey :=
    PollService_redisKeyFromId_ne_RedisIDKey _
  have h3 : VoterService.AddVoter.redisKey vt ≠ VoterService.RedisIDKey :=
    VoterService_redisKeyFromId_ne_RedisIDKey _
  simp [h1.symm, h2.symm, h3.symm]

/-- Witness of C11: the entity write refused in each of the three services, counter 0. -/
theorem entity_write_fault_keeps_counter_witness :
    (AddVote { verbWorld 200 200 200 with voteSet := some "write refused" }
        verbApi Redis.empty 1 1 0).api.idCnter = 0 ∧
      (PollService.AddPoll ⟨none, some "write refused", none, fun c => 2 * c⟩
        { cacheClient := some "0.0.0.0:6379" } Redis.empty "Best Language" "Which one?"
        (some ["Go", "Rust"])).api.idCnter = 0 ∧
      (VoterService.AddVoter ⟨none, some "write refused", none, fun c => 2 * c⟩
        { cacheClient := some "0.0.0.0:6379" } Redis.empty "Ada" "Lovelace").api.idCnter = 0 :=
  have h := entity_write_fault_keeps_counter
    { verbWorld 200 200 200 with voteSet := some "write refused" }
    verbApi Redis.empty 1 1 0 200 200 200 "write refused"
    (by decide) rfl (by decide) rfl (by decide) rfl rfl
    ⟨none, some "write refused", none, fun c => 2 * c⟩
    { cacheClient := some "0.0.0.0:6379" } Redis.empty "Best Language" "Which one?"
    (some ["Go", "Rust"]) "write refused" (by decide) rfl
    ⟨none, some "write refused", none, fun c => 2 * c⟩
    { cacheClient := some "0.0.0.0:6379" } Redis.empty "Ada" "Lovelace" "write refused"
    (by decide) rfl
  ⟨h.1.2.1, h.2.1.2.1, h.2.2.2.1⟩

/-- C12, as stated, fails: the counter wraps.  With `idCnter` at the largest `uint` and a
`Vote` with ID 5 stored under "vote:5", every `Vote` in the store has an ID that is at
most the counter; one `AddVote` that succeeds writes the `Vote` with ID 0 and leaves the
counter at 0, below the ID 5 that is still in the store. -/
theorem AddVote_counter_wraps :
    CounterBounds { verbApi with idCnter := 18446744073709551615 }
        (fun k => if k = "vote:5" then some (marshalVote ⟨5, 1, 1, 0⟩) else none) ∧
      (AddVote (verbWorld 200 200 200) { verbApi with idCnter := 18446744073709551615 }
        (fun k => if k = "vote:5" then some (marshalVote ⟨5, 1, 1, 0⟩) else none)
        1 1 0).err = none ∧
      (AddVote (verbWorld 200 200 200) { verbApi with idCnter := 18446744073709551615 }
        (fun k => if k = "vote:5" then some (marshalVote ⟨5, 1, 1, 0⟩) else none)
        1 1 0).api.idCnter = 0 ∧
      ¬ CounterBounds
        (AddVote (verbWorld 200 200 200) { verbApi with idCnter := 18446744073709551615 }
          (fun k => if k = "vote:5" then some (marshalVote ⟨5, 1, 1, 0⟩) else none)
          1 1 0).api
        (AddVote (verbWorld 200 200 200) { verbApi with idCnter := 18446744073709551615 }
          (fun k => if k = "vote:5" then some (marshalVote ⟨5, 1, 1, 0⟩) else none)
          1 1 0).db := by
  refine ⟨?_, rfl, rfl, ?_⟩
  · intro key doc hdoc hdec
    dsimp only at hdoc
    by_cases hk : key = "vote:5"
    · rw [if_pos hk] at hdoc
      cases hdoc
      decide
    · rw [if_neg hk] at hdoc
      cases hdoc
  · intro h
    exact absurd (h "vote:5" (marshalVote ⟨5, 1, 1, 0⟩) rfl (by decide)) (by decide)

/-- C12, amended: while the counter does not wrap, it bounds the IDs in the store.
Starting from any state in which every `Vote` document of the store carries an ID that is
at most `idCnter`, and for every sequence of `AddVote` calls of one process that leaves the
counter below `2 ^ 64` (arbitrary inputs, collaborator answers and store faults), after
each call of the sequence every `Vote` document of the store carries an ID that is at most
the counter. -/
theorem AddVoteSeq_CounterBounds (cs : List Call) (t : VoteApi) (db : Redis)
    (hinv : CounterBounds t db)
    (hroom : t.idCnter + cs.length < 18446744073709551616) :
    ∀ r ∈ AddVoteSeq cs t db, CounterBounds r.api r.db := by
  induction cs generalizing t db with
  | nil => intro r hr; simp [AddVoteSeq] at hr
  | cons c cs ih =>
    have hroom1 : t.idCnter + 1 < 18446744073709551616 := by
      simp only [List.length_cons] at hroom; omega
    obtain ⟨h1, -, h3⟩ := AddVote_CounterBounds c.w t db c.voterID c.pollID c.value hinv hroom1
    intro r hr
    simp only [AddVoteSeq, List.mem_cons] at hr
    rcases hr with hr | hr
    · rw [hr]; exact h1
    · refine ih _ _ h1 ?_ r hr
      simp only [List.length_cons] at hroom; omega

/-- Witness of C12, amended: two calls from counter 0 on the empty store. -/
theorem AddVoteSeq_CounterBounds_witness :
    CounterBounds
      (AddVote (verbWorld 200 200 200) verbApi Redis.empty 1 1 0).api
      (AddVote (verbWorld 200 200 200) verbApi Redis.empty 1 1 0).db :=
  AddVoteSeq_CounterBounds
    [⟨verbWorld 200 200 200, 1, 1, 0⟩, ⟨verbWorld 200 200 200, 1, 1, 1⟩] verbApi
    Redis.empty (fun _ _ h => Option.noConfusion h) (by decide) _
    (List.Mem.head _)

/-- C13, as stated, fails: the counter wraps.  From `idCnter` two below `2 ^ 64`, two
calls of `AddVote` that both succeed return the `VoteID`s `2 ^ 64 - 1` and `0`, which are
not increasing. -/
theorem AddVoteSeq_ids_wrap :
    returnedIDs (AddVoteSeq
        [⟨verbWorld 200 200 200, 1, 1, 0⟩, ⟨verbWorld 200 200 200, 1, 1, 0⟩]
        { verbApi with idCnter := 18446744073709551614 } Redis.empty) =
      [18446744073709551615, 0] ∧
    ¬ (returnedIDs (AddVoteSeq
        [⟨verbWorld 200 200 200, 1, 1, 0⟩, ⟨verbWorld 200 200 200, 1, 1, 0⟩]
        { verbApi with idCnter := 18446744073709551614 } Redis.empty)).Pairwise
          (fun a b => a < b) := by
  have h : returnedIDs (AddVoteSeq
        [⟨verbWorld 200 200 200, 1, 1, 0⟩, ⟨verbWorld 200 200 200, 1, 1, 0⟩]
        { verbApi with idCnter := 18446744073709551614 } Redis.empty) =
      [18446744073709551615, 0] := by decide
  refine ⟨h, ?_⟩
  rw [h]
  decide

/-- C13, amended: without a wrap of the counter there are no duplicate IDs.  For every
sequence of `AddVote` calls in one process that leaves the counter below `2 ^ 64`
(arbitrary inputs, collaborator answers and store faults), the `VoteID`s returned by the
calls that succeed are strictly increasing, hence pairwise distinct, and all above the
counter the sequence started from; so two successful calls, also with the same voter and
poll, return different `VoteID`s. -/
theorem AddVoteSeq_ids_increasing (cs : List Call) (t : VoteApi) (db : Redis)
    (hroom : t.idCnter + cs.length < 18446744073709551616) :
    (returnedIDs (AddVoteSeq cs t db)).Pairwise (fun a b => a < b) ∧
      (returnedIDs (AddVoteSeq cs t db)).Nodup ∧
      ∀ id ∈ returnedIDs (AddVoteSeq cs t db), t.idCnter < id := by
  have key : ∀ (cs : List Call) (t : VoteApi) (db : Redis),
      t.idCnter + cs.length < 18446744073709551616 →
      (returnedIDs (AddVoteSeq cs t db)).Pairwise (fun a b => a < b) ∧
        ∀ id ∈ returnedIDs (AddVoteSeq cs t db), t.idCnter < id := by
    intro cs
    induction cs with
    | nil => intro t db _; simp [AddVoteSeq, returnedIDs]
    | cons c cs ih =>
      intro t db hroom
      simp only [List.length_cons] at hroom
      have hs : uintSucc t.idCnter = t.idCnter + 1 := by unfold uintSucc; omega
      obtain ⟨hcnt, hok, -⟩ := AddVote_step c.w t db c.voterID c.pollID c.value
      rw [hs] at hcnt hok
      obtain ⟨ih1, ih2⟩ := ih (AddVote c.w t db c.voterID c.pollID c.value).api
        (AddVote c.w t db c.voterID c.pollID c.value).db (by rcases hcnt with h | h <;> omega)
      cases herr : (AddVote c.w t db c.voterID c.pollID c.value).err with
      | some e =>
        have hrid : returnedIDs (AddVoteSeq (c :: cs) t db) =
            returnedIDs (AddVoteSeq cs (AddVote c.w t db c.voterID c.pollID c.value).api
              (AddVote c.w t db c.voterID c.pollID c.value).db) := by
          simp [AddVoteSeq, returnedIDs, List.filter_cons, herr]
        rw [hrid]
        refine ⟨ih1, fun id hid => ?_⟩
        have := ih2 id hid
        rcases hcnt with h | h <;> omega
      | none =>
        obtain ⟨hc, hv⟩ := hok herr
        have hrid : returnedIDs (AddVoteSeq (c :: cs) t db) =
            (AddVote c.w t db c.voterID c.pollID c.value).vote.VoteID ::
            returnedIDs (AddVoteSeq cs (AddVote c.w t db c.voterID c.pollID c.value).api
              (AddVote c.w t db c.voterID c.pollID c.value).db) := by
          simp [AddVoteSeq, returnedIDs, List.filter_cons, herr]
        rw [hrid, hv]
        refine ⟨List.pairwise_cons.mpr ⟨fun id hid => ?_, ih1⟩, fun id hid => ?_⟩
        · have := ih2 id hid
          omega
        · rcases List.mem_cons.mp hid with h | h
          · omega
          · have := ih2 id h
            omega
  obtain ⟨h1, h2⟩ := key cs t db hroom
  exact ⟨h1, h1.imp (fun h => Nat.ne_of_lt h), h2⟩

/-- Witness of C13, amended: two votes of voter 1 in poll 1 from counter 0 get the IDs 1
and 2. -/
theorem AddVoteSeq_ids_increasing_witness :
    returnedIDs (AddVoteSeq
        [⟨verbWorld 200 200 200, 1, 1, 0⟩, ⟨verbWorld 200 200 200, 1, 1, 1⟩]
        verbApi Redis.empty) = [1, 2] ∧
      (returnedIDs (AddVoteSeq
        [⟨verbWorld 200 200 200, 1, 1, 0⟩, ⟨verbWorld 200 200 200, 1, 1, 1⟩]
        verbApi Redis.empty)).Nodup :=
  ⟨by decide,
    (AddVoteSeq_ids_increasing
      [⟨verbWorld 200 200 200, 1, 1, 0⟩, ⟨verbWorld 200 200 200, 1, 1, 1⟩]
      verbApi Redis.empty (by decide)).2.1⟩

/-- C14: a readable `Vote` in the next slot is overwritten when the read of the
duplicate check fails.  With counter 0, a Voter URL with which the URL of the history POST
parses, and the `Vote` {1, 7, 7, 7} stored under "vote:1", a call whose slot read returns a
transport error and whose other steps succeed returns a nil error, and `GetVote(1)` gives
{1, 7, 7, 7} before and {1, 1, 1, 0} after, although the comment above the check promises
an error when the item exists. -/
theorem AddVote_overwrites_after_read_fault :
    GetVote none (fun k => if k = "vote:1" then some (marshalVote ⟨1, 7, 7, 7⟩) else none) 1 =
        (⟨1, 7, 7, 7⟩, none) ∧
      (AddVote { verbWorld 200 200 200 with slotGet := some "i/o timeout" } verbApi
        (fun k => if k = "vote:1" then some (marshalVote ⟨1, 7, 7, 7⟩) else none)
        1 1 0).err = none ∧
      GetVote none
        (AddVote { verbWorld 200 200 200 with slotGet := some "i/o timeout" } verbApi
          (fun k => if k = "vote:1" then some (marshalVote ⟨1, 7, 7, 7⟩) else none)
          1 1 0).db 1 = (⟨1, 1, 1, 0⟩, none) :=
  ⟨by decide, rfl, by decide⟩

/-- C15: repository create, `PollApi.AddPoll` and likewise `VoterAPI.AddVoter`.  For
every counter value and inputs: if the duplicate check reads a document at the key of the
next ID and decodes it, the call fails with "Poll already exists!" ("Voter already
exists!"), returns the zero entity and leaves store and receiver as they were; otherwise,
when both writes succeed, it returns the entity with the next ID and the inputs (a voter
with an empty history), the store holds the document of exactly that entity at the key of
the next ID, from which a read gives that entity back, and the number of the next ID at the
counter key, every other key is unchanged,
the counter in memory is the next ID, and a service started on that store loads that
counter. -/
theorem AddPoll_AddVoter_create
    (w : PollService.World) (t : PollService.PollApi) (db : Redis)
    (pollTitle pollQuestion : String) (pollOptions : Option (List String))
    (vw : VoterService.World) (vt : VoterService.VoterAPI) (vdb : Redis) (fn ln : String) :
    ((∀ doc, w.slotGet = none → db (PollService.AddPoll.redisKey t) = some doc →
        (PollService.unmarshalPoll w.grow doc {} []).2.2 = none →
        (PollService.AddPoll w t db pollTitle pollQuestion pollOptions).poll = {} ∧
        (PollService.AddPoll w t db pollTitle pollQuestion pollOptions).err =
          some "Poll already exists!" ∧
        (PollService.AddPoll w t db pollTitle pollQuestion pollOptions).db = db ∧
        (PollService.AddPoll w t db pollTitle pollQuestion pollOptions).api = t) ∧
      ((PollService.getPollFromRedis w.grow w.slotGet db
          (PollService.AddPoll.redisKey t) {} []).2.2 ≠ none →
        w.pollSet = none → w.cntSet = none →
        (PollService.AddPoll w t db pollTitle pollQuestion pollOptions).poll =
          { PollID := uintSucc t.idCnter, PollTitle := pollTitle,
            PollQuestion := pollQuestion, PollOptions := pollOptions } ∧
        (PollService.AddPoll w t db pollTitle pollQuestion pollOptions).err = none ∧
        (PollService.AddPoll w t db pollTitle pollQuestion pollOptions).db
            (PollService.redisKeyFromId (toInt (uintSucc t.idCnter))) =
          some (PollService.marshalPoll
            { PollID := uintSucc t.idCnter, PollTitle := pollTitle,
              PollQuestion := pollQuestion, PollOptions := pollOptions }) ∧
        (∀ grow, PollService.GetPoll grow none
            (PollService.AddPoll w t db pollTitle pollQuestion pollOptions).db
            (toInt (uintSucc t.idCnter)) =
          ({ PollID := uintSucc t.idCnter, PollTitle := pollTitle,
             PollQuestion := pollQuestion, PollOptions := pollOptions }, none)) ∧
        (PollService.AddPoll w t db pollTitle pollQuestion pollOptions).db
            PollService.RedisIDKey = some (.num (uintSucc t.idCnter)) ∧
        (∀ key, key ≠ PollService.redisKeyFromId (toInt (uintSucc t.idCnter)) →
          key ≠ PollService.RedisIDKey →
          (PollService.AddPoll w t db pollTitle pollQuestion pollOptions).db key = db key) ∧
        (PollService.AddPoll w t db pollTitle pollQuestion pollOptions).api.idCnter =
          uintSucc t.idCnter ∧
        ∀ b : Boot, b.ping = none → b.cntGet = none →
          (PollService.NewPollApi b
            (PollService.AddPoll w t db pollTitle pollQuestion pollOptions).db).2 = none ∧
          (PollService.NewPollApi b
            (PollService.AddPoll w t db pollTitle pollQuestion pollOptions).db).1.idCnter =
            uintSucc t.idCnter)) ∧
    ((∀ doc, vw.slotGet = none → vdb (VoterService.AddVoter.redisKey vt) = some doc →
        (VoterService.unmarshalVoter vw.grow doc {} []).2.2 = none →
        (VoterService.AddVoter vw vt vdb fn ln).voter = {} ∧
        (VoterService.AddVoter vw vt vdb fn ln).err = some "Voter already exists!" ∧
        (VoterService.AddVoter vw vt vdb fn ln).db = vdb ∧
        (VoterService.AddVoter vw vt vdb fn ln).api = vt) ∧
      ((VoterService.getVoterFromRedis vw.grow vw.slotGet vdb
          (VoterService.AddVoter.redisKey vt) {} []).2.2 ≠ none →
        vw.voterSet = none → vw.cntSet = none →
        (VoterService.AddVoter vw vt vdb fn ln).voter =
          { VoterID := uintSucc vt.idCnter, FirstName := fn, LastName := ln,
            VoteHistory := some [] } ∧
        (VoterService.AddVoter vw vt vdb fn ln).err = none ∧
        (VoterService.AddVoter vw vt vdb fn ln).db
            (VoterService.redisKeyFromId (toInt (uintSucc vt.idCnter))) =
          some (VoterService.marshalVoter
            { VoterID := uintSucc vt.idCnter, FirstName := fn, LastName := ln,
              VoteHistory := some [] }) ∧
        (∀ grow,
          (VoterService.getVoterFromRedis grow none (VoterService.AddVoter vw vt vdb fn ln).db
            (VoterService.redisKeyFromId (toInt (uintSucc vt.idCnter))) {} []).2.2 = none ∧
          VoterService.VoterVar.load
            (VoterService.getVoterFromRedis grow none
              (VoterService.AddVoter vw vt vdb fn ln).db
              (VoterService.redisKeyFromId (toInt (uintSucc vt.idCnter))) {} []).2.1
            (VoterService.getVoterFromRedis grow none
              (VoterService.AddVoter vw vt vdb fn ln).db
              (VoterService.redisKeyFromId (toInt (uintSucc vt.idCnter))) {} []).1 =
            { VoterID := uintSucc vt.idCnter, FirstName := fn, LastName := ln,
              VoteHistory := some [] }) ∧
        (VoterService.AddVoter vw vt vdb fn ln).db VoterService.RedisIDKey =
          some (.num (uintSucc vt.idCnter)) ∧
        (∀ key, key ≠ VoterService.redisKeyFromId (toInt (uintSucc vt.idCnter)) →
          key ≠ VoterService.RedisIDKey →
          (VoterService.AddVoter vw vt vdb fn ln).db key = vdb key) ∧
        (VoterService.AddVoter vw vt vdb fn ln).api.idCnter = uintSucc vt.idCnter ∧
        ∀ b : Boot, b.ping = none → b.cntGet = none →
          (VoterService.NewVoterApi b (VoterService.AddVoter vw vt vdb fn ln).db).2 = none ∧
          (VoterService.NewVoterApi b (VoterService.AddVoter vw vt vdb fn ln).db).1.idCnter =
            uintSucc vt.idCnter)) := by
  refine ⟨⟨?_, ?_⟩, ⟨?_, ?_⟩⟩
  · intro doc hread hdoc hdec
    have hslot : (PollService.getPollFromRedis w.grow w.slotGet db
        (PollService.AddPoll.redisKey t) {} []).2.2 = none := by
      simp only [PollService.getPollFromRedis, hread, JSONGet, hdoc]
      exact hdec
    rw [AddPoll_exit_duplicate w t db pollTitle pollQuestion pollOptions hslot]
    exact ⟨rfl, rfl, rfl, rfl⟩
  · intro hslot hps hcs
    obtain ⟨e, he⟩ := Option.ne_none_iff_exists'.mp hslot
    rw [AddPoll_exit_commit w t db pollTitle pollQuestion pollOptions e he hps hcs]
    have hne : PollService.redisKeyFromId (toInt (uintSucc t.idCnter)) ≠
        PollService.RedisIDKey := PollService_redisKeyFromId_ne_RedisIDKey _
    refine ⟨rfl, rfl, ?_, ?_, ?_, ?_, rfl, ?_⟩
    · simp [hne, PollService.AddPoll.redisKey, PollService.AddPoll.newPoll]
    · intro grow
      exact GetPoll_stored grow _ _ _
        (by simp [hne, PollService.AddPoll.redisKey, PollService.AddPoll.newPoll])
        (uintSucc_lt _)
    · simp
    · intro key hk hc
      simp [hk, hc, PollService.AddPoll.redisKey]
    · intro b hping hcnt
      exact NewPollApi_loads b _ (.num (uintSucc t.idCnter : Nat)) _ hping hcnt
        (by simp) (unmarshalUint_num _ _ (uintSucc_lt _))
  · intro doc hread hdoc hdec
    have hslot : (VoterService.getVoterFromRedis vw.grow vw.slotGet vdb
        (VoterService.AddVoter.redisKey vt) {} []).2.2 = none := by
      simp only [VoterService.getVoterFromRedis, hread, JSONGet, hdoc]
      exact hdec
    rw [AddVoter_exit_duplicate vw vt vdb fn ln hslot]
    exact ⟨rfl, rfl, rfl, rfl⟩
  · intro hslot hvs hcs
    obtain ⟨e, he⟩ := Option.ne_none_iff_exists'.mp hslot
    rw [AddVoter_exit_commit vw vt vdb fn ln e he hvs hcs]
    have hne : VoterService.redisKeyFromId (toInt (uintSucc vt.idCnter)) ≠
        VoterService.RedisIDKey := VoterService_redisKeyFromId_ne_RedisIDKey _
    refine ⟨rfl, rfl, ?_, ?_, ?_, ?_, rfl, ?_⟩
    · simp [hne, VoterService.AddVoter.redisKey, VoterService.AddVoter.newVoter]
    · intro grow
      exact getVoterFromRedis_stored grow _ _ (uintSucc vt.idCnter) fn ln []
        (by simp [hne, VoterService.AddVoter.redisKey, VoterService.AddVoter.newVoter])
        (uintSucc_lt _) (fun n hn => absurd hn (List.not_mem_nil n))
    · simp
    · intro key hk hc
      simp [hk, hc, VoterService.AddVoter.redisKey]
    · intro b hping hcnt
      exact NewVoterApi_loads b _ (.num (uintSucc vt.idCnter : Nat)) _ hping hcnt
        (by simp) (unmarshalUint_num _ _ (uintSucc_lt _))

/-- Witness of C15: on the empty store with counter 0 a poll and a voter are created
with ID 1, and a read of the key gives the poll and the voter back. -/
theorem AddPoll_AddVoter_create_witness :
    (PollService.AddPoll ⟨none, none, none, fun c => 2 * c⟩
        { cacheClient := some "0.0.0.0:6379" } Redis.empty "Best Language" "Which one?"
        (some ["Go", "Rust"])).poll =
        ⟨1, "Best Language", "Which one?", some ["Go", "Rust"]⟩ ∧
      PollService.GetPoll (fun c => 2 * c) none
        (PollService.AddPoll ⟨none, none, none, fun c => 2 * c⟩
          { cacheClient := some "0.0.0.0:6379" } Redis.empty "Best Language" "Which one?"
          (some ["Go", "Rust"])).db (toInt (uintSucc 0)) =
        (⟨uintSucc 0, "Best Language", "Which one?", some ["Go", "Rust"]⟩, none) ∧
      (VoterService.AddVoter ⟨none, none, none, fun c => 2 * c⟩
        { cacheClient := some "0.0.0.0:6379" } Redis.empty "Ada" "Lovelace").voter =
        ⟨1, "Ada", "Lovelace", some []⟩ ∧
      (VoterService.getVoterFromRedis (fun c => 2 * c) none
        (VoterService.AddVoter ⟨none, none, none, fun c => 2 * c⟩
          { cacheClient := some "0.0.0.0:6379" } Redis.empty "Ada" "Lovelace").db
        (VoterService.redisKeyFromId (toInt (uintSucc 0))) {} []).2.2 = none :=
  have h := AddPoll_AddVoter_create ⟨none, none, none, fun c => 2 * c⟩
    { cacheClient := some "0.0.0.0:6379" } Redis.empty "Best Language" "Which one?"
    (some ["Go", "Rust"]) ⟨none, none, none, fun c => 2 * c⟩
    { cacheClient := some "0.0.0.0:6379" } Redis.empty "Ada" "Lovelace"
  ⟨(h.1.2 (by decide) rfl rfl).1, (h.1.2 (by decide) rfl rfl).2.2.2.1 (fun c => 2 * c),
    (h.2.2 (by decide) rfl rfl).1, ((h.2.2 (by decide) rfl rfl).2.2.2.1 (fun c => 2 * c)).1⟩

/-- C16: a read of the next slot that fails for another reason than an absent key is not
propagated.  `AddVote` with counter 0 (on a Voter URL with which the URL of the history
POST parses) over a store that holds the string "garbage" under "vote:1", and `AddPoll`
with counter 0 over a store that holds a readable poll under "poll:1" while the read
returns a transport error, both return a nil error and replace the document in the slot,
although the comment above each check promises an error when the item exists. -/
theorem create_overwrites_unread_slot :
    (getVoteFromRedis none (fun k => if k = "vote:1" then some (.str "garbage") else none)
        "vote:1" {}).2 ≠ some RedisNilError ∧
      (AddVote (verbWorld 200 200 200) verbApi
        (fun k => if k = "vote:1" then some (.str "garbage") else none) 1 1 0).err = none ∧
      (AddVote (verbWorld 200 200 200) verbApi
        (fun k => if k = "vote:1" then some (.str "garbage") else none) 1 1 0).db "vote:1" =
        some (marshalVote ⟨1, 1, 1, 0⟩) ∧
      (PollService.AddPoll ⟨some "i/o timeout", none, none, fun c => 2 * c⟩
        { cacheClient := some "0.0.0.0:6379" }
        (fun k => if k = "poll:1" then
          some (PollService.marshalPoll ⟨1, "Old", "Old?", some ["x"]⟩) else none)
        "Best Language" "Which one?" (some ["Go", "Rust"])).err = none ∧
      (PollService.AddPoll ⟨some "i/o timeout", none, none, fun c => 2 * c⟩
        { cacheClient := some "0.0.0.0:6379" }
        (fun k => if k = "poll:1" then
          some (PollService.marshalPoll ⟨1, "Old", "Old?", some ["x"]⟩) else none)
        "Best Language" "Which one?" (some ["Go", "Rust"])).db "poll:1" =
        some (PollService.marshalPoll
          ⟨1, "Best Language", "Which one?", some ["Go", "Rust"]⟩) :=
  ⟨by decide, rfl, rfl, rfl, rfl⟩

/-- C17: `GetAllPolls` does not return the stored polls.  The loop decodes every
document into the one variable `poll`, and the copies it appends share the backing array
of `PollOptions`.  Over the store with poll 1 (options Go, Rust) and poll 2 (options A, B),
each of which `GetPoll` reads back as stored, the listing gives both polls the options of
the poll scanned last: A, B when the scan returns poll 1 first, and Go, Rust when it
returns poll 2 first, under both growth policies of the runtime.  In the same way
`GetAllVotes` gives a vote document that omits fields the values of the vote decoded
before it. -/
theorem GetAllPolls_shares_decode_target :
    PollService.GetPoll (fun c => 2 * c) none samplePolls 1 =
        (⟨1, "Best Language", "Which one?", some ["Go", "Rust"]⟩, none) ∧
      PollService.GetPoll (fun c => 2 * c) none samplePolls 2 =
        (⟨2, "Letters", "Which one?", some ["A", "B"]⟩, none) ∧
      PollService.GetAllPolls ⟨.ok ["poll:1", "poll:2"], fun _ => none, fun c => 2 * c⟩
          samplePolls =
        ([⟨1, "Best Language", "Which one?", some ["A", "B"]⟩,
          ⟨2, "Letters", "Which one?", some ["A", "B"]⟩], none) ∧
      PollService.GetAllPolls ⟨.ok ["poll:2", "poll:1"], fun _ => none, fun c => 2 * c⟩
          samplePolls =
        ([⟨2, "Letters", "Which one?", some ["Go", "Rust"]⟩,
          ⟨1, "Best Language", "Which one?", some ["Go", "Rust"]⟩], none) ∧
      PollService.GetAllPolls
          ⟨.ok ["poll:1", "poll:2"], fun _ => none, fun c => max 4 (c + c / 2)⟩ samplePolls =
        ([⟨1, "Best Language", "Which one?", some ["A", "B"]⟩,
          ⟨2, "Letters", "Which one?", some ["A", "B"]⟩], none) ∧
      GetVote none sampleVotes 2 = (⟨2, 0, 0, 0⟩, none) ∧
      GetAllVotes ⟨.ok ["vote:1", "vote:2"], fun _ => none⟩ sampleVotes =
        ([⟨1, 5, 6, 7⟩, ⟨2, 5, 6, 7⟩], none) :=
  ⟨by decide, by decide, by decide, by decide, by decide, by decide, by decide⟩

/-- C18: listing is all or nothing.  For every store and every result `ks` of the key
scan, for each of `GetAllVotes`, `GetAllPolls` and `GetAllVoters`: if the read or the
decoding of the document of some key of `ks` fails, the listing returns the nil list
together with the error of such a key, which is not nil; and if every key of `ks` is read
and decoded, it returns a nil error and a list with as many entries as `ks` has keys. -/
theorem listAll_all_or_nothing
    (lw : ListWorld) (db : Redis) (ks : List String) (hks : lw.keys = .ok ks)
    (plw : PollService.ListWorld) (pdb : Redis) (pks : List String)
    (hpks : plw.keys = .ok pks)
    (vlw : VoterService.ListWorld) (vdb : Redis) (vks : List String)
    (hvks : vlw.keys = .ok vks) :
    (((∃ key ∈ ks, (getVoteFromRedis (lw.fault key) db key {}).2 ≠ none) →
        (GetAllVotes lw db).1 = [] ∧
        ∃ key ∈ ks, (getVoteFromRedis (lw.fault key) db key {}).2 ≠ none ∧
          (GetAllVotes lw db).2 = (getVoteFromRedis (lw.fault key) db key {}).2) ∧
      ((∀ key ∈ ks, (getVoteFromRedis (lw.fault key) db key {}).2 = none) →
        (GetAllVotes lw db).2 = none ∧ (GetAllVotes lw db).1.length = ks.length)) ∧
    (((∃ key ∈ pks,
          (PollService.getPollFromRedis plw.grow (plw.fault key) pdb key {} []).2.2 ≠ none) →
        (PollService.GetAllPolls plw pdb).1 = [] ∧
        ∃ key ∈ pks,
          (PollService.getPollFromRedis plw.grow (plw.fault key) pdb key {} []).2.2 ≠ none ∧
          (PollService.GetAllPolls plw pdb).2 =
            (PollService.getPollFromRedis plw.grow (plw.fault key) pdb key {} []).2.2) ∧
      ((∀ key ∈ pks,
          (PollService.getPollFromRedis plw.grow (plw.fault key) pdb key {} []).2.2 = none) →
        (PollService.GetAllPolls plw pdb).2 = none ∧
        (PollService.GetAllPolls plw pdb).1.length = pks.length)) ∧
    (((∃ key ∈ vks,
          (VoterService.getVoterFromRedis vlw.grow (vlw.fault key) vdb key {} []).2.2 ≠
            none) →
        (VoterService.GetAllVoters vlw vdb).1 = [] ∧
        ∃ key ∈ vks,
          (VoterService.getVoterFromRedis vlw.grow (vlw.fault key) vdb key {} []).2.2 ≠
            none ∧
          (VoterService.GetAllVoters vlw vdb).2 =
            (VoterService.getVoterFromRedis vlw.grow (vlw.fault key) vdb key {} []).2.2) ∧
      ((∀ key ∈ vks,
          (VoterService.getVoterFromRedis vlw.grow (vlw.fault key) vdb key {} []).2.2 =
            none) →
        (VoterService.GetAllVoters vlw vdb).2 = none ∧
        (VoterService.GetAllVoters vlw vdb).1.length = vks.length)) := by
  refine ⟨⟨?_, ?_⟩, ⟨?_, ?_⟩, ⟨?_, ?_⟩⟩
  · intro hex
    simp only [GetAllVotes, hks]
    exact GetAllVotesLoop_fail lw.fault db ks hex {} []
  · intro hall
    simp only [GetAllVotes, hks]
    have h := GetAllVotesLoop_ok lw.fault db ks hall {} []
    simpa using h
  · intro hex
    obtain ⟨h1, key, hk, hne, h2⟩ :=
      GetAllPollsLoop_fail plw.grow plw.fault pdb pks hex {} [] []
    simp only [PollService.GetAllPolls, hpks]
    exact ⟨by rw [h1]; rfl, key, hk, hne, h2⟩
  · intro hall
    obtain ⟨h1, h2⟩ := GetAllPollsLoop_ok plw.grow plw.fault pdb pks hall {} [] []
    simp only [PollService.GetAllPolls, hpks]
    exact ⟨h1, by simpa using h2⟩
  · intro hex
    obtain ⟨h1, key, hk, hne, h2⟩ :=
      GetAllVotersLoop_fail vlw.grow vlw.fault vdb vks hex {} [] []
    simp only [VoterService.GetAllVoters, hvks]
    exact ⟨by rw [h1]; rfl, key, hk, hne, h2⟩
  · intro hall
    obtain ⟨h1, h2⟩ := GetAllVotersLoop_ok vlw.grow vlw.fault vdb vks hall {} [] []
    simp only [VoterService.GetAllVoters, hvks]
    exact ⟨h1, by simpa using h2⟩

/-- Witness of C18: the listing of the two sample votes and of the two sample polls has
two entries; with a faulty read of "vote:2" the listing of the votes is nil. -/
theorem listAll_all_or_nothing_witness :
    (GetAllVotes ⟨.ok ["vote:1", "vote:2"], fun _ => none⟩ sampleVotes).1.length = 2 ∧
      (PollService.GetAllPolls ⟨.ok ["poll:1", "poll:2"], fun _ => none, fun c => 2 * c⟩
        samplePolls).1.length = 2 ∧
      (GetAllVotes ⟨.ok ["vote:1", "vote:2"],
        fun k => if k = "vote:2" then some "i/o timeout" else none⟩ sampleVotes).1 = [] :=
  have h := listAll_all_or_nothing
    ⟨.ok ["vote:1", "vote:2"], fun _ => none⟩ sampleVotes ["vote:1", "vote:2"] rfl
    ⟨.ok ["poll:1", "poll:2"], fun _ => none, fun c => 2 * c⟩ samplePolls
    ["poll:1", "poll:2"] rfl
    ⟨.ok [], fun _ => none, fun c => 2 * c⟩ Redis.empty [] rfl
  have h2 := listAll_all_or_nothing
    ⟨.ok ["vote:1", "vote:2"], fun k => if k = "vote:2" then some "i/o timeout" else none⟩
    sampleVotes ["vote:1", "vote:2"] rfl
    ⟨.ok [], fun _ => none, fun c => 2 * c⟩ Redis.empty [] rfl
    ⟨.ok [], fun _ => none, fun c => 2 * c⟩ Redis.empty [] rfl
  ⟨(h.1.2 (by decide)).2, (h.2.1.2 (by decide)).2,
    (h2.1.1 ⟨"vote:2", by decide, by decide⟩).1⟩

/-- C19, as stated, fails: an error of the key scan is not surfaced.  With a scan that
fails, `GetAllVotes` returns the nil list and a nil error, and the handler of `GET /vote`
answers 200 with the empty list. -/
theorem GetAllVotes_scan_error_dropped :
    GetAllVotes ⟨.error "connection refused", fun _ => none⟩ sampleVotes = ([], none) ∧
      getVotesHandler ⟨.error "connection refused", fun _ => none⟩ sampleVotes =
        ⟨200, .votes []⟩ :=
  ⟨by decide, by decide⟩

/-- C19, amended: `GetAllVotes` drops the error of the prefix scan.  If the scan of the
keys "vote:*" fails, `GetAllVotes` returns the nil list and a nil error, whatever the store
holds, and the handler of `GET /vote` answers 200 with the empty list; the handler answers
500 when the scan succeeds and the read or the decoding of a scanned key fails. -/
theorem GetAllVotes_scan_error (lw : ListWorld) (db : Redis) (e : String)
    (hscan : lw.keys = .error e) :
    GetAllVotes lw db = ([], none) ∧ getVotesHandler lw db = ⟨200, .votes []⟩ ∧
      ∀ (lw2 : ListWorld) (ks : List String), lw2.keys = .ok ks →
        (∃ key ∈ ks, (getVoteFromRedis (lw2.fault key) db key {}).2 ≠ none) →
        getVotesHandler lw2 db = ⟨500, .none⟩ := by
  have h1 : GetAllVotes lw db = ([], none) := by
    simp only [GetAllVotes, hscan, GetAllVotesLoop]
  refine ⟨h1, ?_, ?_⟩
  · simp only [getVotesHandler, h1]
  · intro lw2 ks hks hex
    obtain ⟨-, key, -, hne, h2⟩ := GetAllVotesLoop_fail lw2.fault db ks hex {} []
    obtain ⟨err, herr⟩ := Option.ne_none_iff_exists'.mp hne
    have h3 : (GetAllVotes lw2 db).2 = some err := by
      simp only [GetAllVotes, hks]
      rw [h2, herr]
    unfold getVotesHandler
    cases hr : GetAllVotes lw2 db with
    | mk votes e2 =>
      rw [hr] at h3
      simp only at h3
      subst h3
      rfl

/-- Witness of C19, amended: the scan refused over the sample store. -/
theorem GetAllVotes_scan_error_witness :
    getVotesHandler ⟨.error "connection refused", fun _ => none⟩ sampleVotes =
      ⟨200, .votes []⟩ :=
  (GetAllVotes_scan_error ⟨.error "connection refused", fun _ => none⟩ sampleVotes
    "connection refused" rfl).2.1

/-- C20: the key layout keeps entities and counters apart.  In each of the three
services `redisKeyFromId(id)` is the entity prefix followed by the decimal rendering of
`id` and is injective in `id`; for all IDs the keys of votes, voters and polls are pairwise
distinct and none of them is one of the counter keys "voteCnt:", "voterCnt:", "pollCnt:";
and the scan pattern of an entity type, its prefix followed by `*`, matches every key of
that type and matches neither its own counter key nor a key of another type. -/
theorem key_layout (i j : Int) :
    (redisKeyFromId i = "vote:" ++ toString i ∧
      VoterService.redisKeyFromId i = "voter:" ++ toString i ∧
      PollService.redisKeyFromId i = "poll:" ++ toString i) ∧
    ((redisKeyFromId i = redisKeyFromId j → i = j) ∧
      (VoterService.redisKeyFromId i = VoterService.redisKeyFromId j → i = j) ∧
      (PollService.redisKeyFromId i = PollService.redisKeyFromId j → i = j)) ∧
    (redisKeyFromId i ≠ VoterService.redisKeyFromId j ∧
      redisKeyFromId i ≠ PollService.redisKeyFromId j ∧
      VoterService.redisKeyFromId i ≠ PollService.redisKeyFromId j) ∧
    (∀ c ∈ [RedisIDKey, VoterService.RedisIDKey, PollService.RedisIDKey],
      redisKeyFromId i ≠ c ∧ VoterService.redisKeyFromId i ≠ c ∧
        PollService.redisKeyFromId i ≠ c) ∧
    (globMatch (RedisKeyPrefix ++ "*").data (redisKeyFromId i).data = true ∧
      globMatch (RedisKeyPrefix ++ "*").data RedisIDKey.data = false ∧
      globMatch (RedisKeyPrefix ++ "*").data (VoterService.redisKeyFromId j).data = false ∧
      globMatch (RedisKeyPrefix ++ "*").data (PollService.redisKeyFromId j).data = false) ∧
    (globMatch (VoterService.RedisKeyPrefix ++ "*").data
        (VoterService.redisKeyFromId i).data = true ∧
      globMatch (VoterService.RedisKeyPrefix ++ "*").data VoterService.RedisIDKey.data =
        false ∧
      globMatch (VoterService.RedisKeyPrefix ++ "*").data (redisKeyFromId j).data = false ∧
      globMatch (VoterService.RedisKeyPrefix ++ "*").data
        (PollService.redisKeyFromId j).data = false) ∧
    (globMatch (PollService.RedisKeyPrefix ++ "*").data
        (PollService.redisKeyFromId i).data = true ∧
      globMatch (PollService.RedisKeyPrefix ++ "*").data PollService.RedisIDKey.data =
        false ∧
      globMatch (PollService.RedisKeyPrefix ++ "*").data (redisKeyFromId j).data = false ∧
      globMatch (PollService.RedisKeyPrefix ++ "*").data
        (VoterService.redisKeyFromId j).data = false) := by
  have hv : ∀ k : Int, (redisKeyFromId k).data = 'v' :: 'o' :: 't' :: 'e' :: ':' ::
      (toString k).data := fun k => by
    simp [redisKeyFromId, RedisKeyPrefix, String.data_append]
  have hr : ∀ k : Int, (VoterService.redisKeyFromId k).data =
      'v' :: 'o' :: 't' :: 'e' :: 'r' :: ':' :: (toString k).data := fun k => by
    simp [VoterService.redisKeyFromId, VoterService.RedisKeyPrefix, String.data_append]
  have hp : ∀ k : Int, (PollService.redisKeyFromId k).data =
      'p' :: 'o' :: 'l' :: 'l' :: ':' :: (toString k).data := fun k => by
    simp [PollService.redisKeyFromId, PollService.RedisKeyPrefix, String.data_append]
  have hinj : ∀ (f : Int → String) (pre : List Char),
      (∀ k, (f k).data = pre ++ (toString k).data) → f i = f j → i = j := by
    intro f pre hf h
    have hd := congrArg String.data h
    rw [hf, hf] at hd
    exact toString_int_inj i j (String.ext (List.append_cancel_left hd))
  have hne : ∀ (a b : String), a.data ≠ b.data → a ≠ b := fun a b h hab => h (by rw [hab])
  refine ⟨⟨rfl, rfl, rfl⟩, ⟨?_, ?_, ?_⟩, ⟨?_, ?_, ?_⟩, ?_, ⟨?_, ?_, ?_, ?_⟩, ⟨?_, ?_, ?_, ?_⟩,
    ⟨?_, ?_, ?_, ?_⟩⟩
  · exact hinj redisKeyFromId ['v', 'o', 't', 'e', ':'] (fun k => by rw [hv]; rfl)
  · exact hinj VoterService.redisKeyFromId ['v', 'o', 't', 'e', 'r', ':']
      (fun k => by rw [hr]; rfl)
  · exact hinj PollService.redisKeyFromId ['p', 'o', 'l', 'l', ':'] (fun k => by rw [hp]; rfl)
  · apply hne; rw [hv, hr]; simp
  · apply hne; rw [hv, hp]; simp
  · apply hne; rw [hr, hp]; simp
  · intro c hc
    simp only [List.mem_cons, List.mem_singleton, List.not_mem_nil, or_false] at hc
    rcases hc with rfl | rfl | rfl <;>
      refine ⟨?_, ?_, ?_⟩ <;> apply hne <;>
      simp [hv, hr, hp, RedisIDKey, VoterService.RedisIDKey, PollService.RedisIDKey]
  · rw [hv]
    simp [RedisKeyPrefix, String.data_append, globMatch, globMatch_star]
  · simp [RedisKeyPrefix, RedisIDKey, String.data_append, globMatch]
  · rw [hr]
    simp [RedisKeyPrefix, String.data_append, globMatch]
  · rw [hp]
    simp [RedisKeyPrefix, String.data_append, globMatch]
  · rw [hr]
    simp [VoterService.RedisKeyPrefix, String.data_append, globMatch, globMatch_star]
  · simp [VoterService.RedisKeyPrefix, VoterService.RedisIDKey, String.data_append, globMatch]
  · rw [hv]
    cases hs : (toString j).data <;>
      simp [VoterService.RedisKeyPrefix, String.data_append, globMatch]
  · rw [hp]
    simp [VoterService.RedisKeyPrefix, String.data_append, globMatch]
  · rw [hp]
    simp [PollService.RedisKeyPrefix, String.data_append, globMatch, globMatch_star]
  · simp [PollService.RedisKeyPrefix, PollService.RedisIDKey, String.data_append, globMatch]
  · rw [hv]
    simp [PollService.RedisKeyPrefix, String.data_append, globMatch]
  · rw [hr]
    simp [PollService.RedisKeyPrefix, String.data_append, globMatch]

/-- C21: the strict step order of `VoteApi.AddVote`.  In every execution the requests
the call issues are, in order, an initial part of: the read of the key of the next ID, the
voter GET, the poll GET, the history POST, the write of the `Vote` at the key of the next
ID, the write of the counter at "voteCnt:".  The initial part is never empty and ends with
the first step whose answer makes the call return an error, or is the whole list when no
step does (exactly then the call returns a nil error); no request occurs twice in it; and a
store write is at a position after that of the history POST.  While the next ID is below
`2 ^ 63` the key of the next ID is "vote:" followed by its decimal rendering. -/
theorem AddVote_step_order (w : World) (t : VoteApi) (db : Redis)
    (voterID pollID value : Nat) :
    (AddVote w t db voterID pollID value).trace <+:
        [.jsonGet (AddVote.redisKey t), .httpGet (AddVote.voterUrl t voterID),
         .httpGet (AddVote.pollUrl t pollID),
         .httpPost (AddVote.voterNewPollUrl w t voterID pollID),
         .jsonSet (AddVote.redisKey t) (marshalVote (AddVote.newVote t voterID pollID value)),
         .jsonSet RedisIDKey (.num (uintSucc t.idCnter))] ∧
      (AddVote w t db voterID pollID value).trace =
        List.take ((AddVote.failingStep w t db voterID pollID).getD 6)
          [.jsonGet (AddVote.redisKey t), .httpGet (AddVote.voterUrl t voterID),
           .httpGet (AddVote.pollUrl t pollID),
           .httpPost (AddVote.voterNewPollUrl w t voterID pollID),
           .jsonSet (AddVote.redisKey t)
             (marshalVote (AddVote.newVote t voterID pollID value)),
           .jsonSet RedisIDKey (.num (uintSucc t.idCnter))] ∧
      (AddVote w t db voterID pollID value).trace.head? =
        some (.jsonGet (AddVote.redisKey t)) ∧
      ((AddVote w t db voterID pollID value).err = none ↔ AddVote.failingStep w t db voterID pollID = none) ∧
      (AddVote w t db voterID pollID value).trace.Nodup ∧
      (∀ i key doc,
        (AddVote w t db voterID pollID value).trace[i]? = some (.jsonSet key doc) →
        3 < i ∧ (AddVote w t db voterID pollID value).trace[3]? =
          some (.httpPost (AddVote.voterNewPollUrl w t voterID pollID))) ∧
      (t.idCnter + 1 < 9223372036854775808 →
        AddVote.redisKey t = "vote:" ++ toString (t.idCnter + 1)) := by
  have hurl := voterUrl_ne_pollUrl t voterID pollID
  have hkey : AddVote.redisKey t ≠ RedisIDKey := redisKeyFromId_ne_RedisIDKey _
  obtain ⟨htrace, herr, hlo, hhi⟩ := AddVote_trace w t db voterID pollID value
  refine ⟨?_, htrace, ?_, herr, ?_, ?_, AddVote_redisKey_decimal t⟩
  · rw [htrace]; exact List.take_prefix _ _
  · rw [htrace]
    generalize (AddVote.failingStep w t db voterID pollID).getD 6 = n at hlo hhi
    interval_cases n <;> rfl
  · rw [htrace]
    generalize (AddVote.failingStep w t db voterID pollID).getD 6 = n at hlo hhi
    interval_cases n <;> simp [hurl, hkey]
  · intro i key doc
    rw [htrace]
    generalize (AddVote.failingStep w t db voterID pollID).getD 6 = n at hlo hhi
    intro hi
    interval_cases n <;> rcases i with _ | _ | _ | _ | _ | _ | i <;> simp at hi ⊢

/-- C22, as stated, fails: Ada Lovelace is stored as voter 1 with an empty history, and the
store refuses the write of the update.  `VoterApi.AddPoll(1, 7)` drops what `UpdateVoter`
returns and answers nil, and the stored voter is as before: no entry was appended. -/
theorem AddPoll_returns_nil_without_append :
    VoterContainer.VoterDb.GetVoter VoterContainer.sampleParse (fun c => 2 * c) none
        VoterContainer.sampleVoters (toInt 1) = (⟨1, "Ada", "Lovelace", some []⟩, none) ∧
      (VoterContainer.VoterApi.AddPoll VoterContainer.sampleParse
        ⟨none, ⟨"2023-04-01T12:00:00Z"⟩, none, some "write refused", fun c => 2 * c⟩
        VoterContainer.sampleVoters 1 7).2 = none ∧
      VoterContainer.VoterDb.GetVoter VoterContainer.sampleParse (fun c => 2 * c) none
        (VoterContainer.VoterApi.AddPoll VoterContainer.sampleParse
          ⟨none, ⟨"2023-04-01T12:00:00Z"⟩, none, some "write refused", fun c => 2 * c⟩
          VoterContainer.sampleVoters 1 7).1 (toInt 1) =
        (⟨1, "Ada", "Lovelace", some []⟩, none) := by
  have h : VoterContainer.VoterApi.AddPoll VoterContainer.sampleParse
      ⟨none, ⟨"2023-04-01T12:00:00Z"⟩, none, some "write refused", fun c => 2 * c⟩
      VoterContainer.sampleVoters 1 7 = (VoterContainer.sampleVoters, none) :=
    AddPoll_update_dropped VoterContainer.sampleParse
      ⟨none, ⟨"2023-04-01T12:00:00Z"⟩, none, some "write refused", fun c => 2 * c⟩
      VoterContainer.sampleVoters 1 7 (VoterContainer.NewVoter 1 "Ada" "Lovelace")
      "write refused" (by decide) (Or.inr rfl)
  rw [h]
  exact ⟨by decide, rfl, by decide⟩

/-- C22, amended: history append in the Voter service (Voter-Container).  For every voter
`v` that `GetVoter` reads at the key of `voterID` and that is stored under that ID, and
every `pollID`: when the store answers the read and the write of the update,
`VoterApi.AddPoll(voterID, pollID)` returns nil, changes no other key, and leaves a stored
voter with the `VoterID`, `FirstName` and `LastName` of `v` and the history of `v` followed
by one new entry, which carries `pollID` and the time of the call; a second call appends a
second entry after it.  For a `voterID` whose read by `GetVoter` fails, as it does when no
document is stored at the key, the call returns that error and leaves the store as it was.
(The numbers are `uint`s and the time package reads back the dates it wrote.) -/
theorem AddPoll_appends (parse : String → Option VoterContainer.Time)
    (w w2 : VoterContainer.World) (db : Redis) (voterID pollID : Nat)
    (v : VoterContainer.Voter)
    (hvoterID : voterID < 18446744073709551616) (hpollID : pollID < 18446744073709551616)
    (hstored : VoterContainer.VoterDb.GetVoter parse w.grow w.voterGet db (toInt voterID) =
      (v, none))
    (hid : v.VoterID = voterID)
    (hhist : ∀ p ∈ v.VoteHistory.getD [], p.PollID < 18446744073709551616 ∧
      parse p.VoteDate.text = some p.VoteDate)
    (hnow : parse w.now.text = some w.now)
    (hexists : w.existsGet = none) (hset : w.voterSet = none)
    (hserved2 : w2.voterGet = none ∧ w2.existsGet = none ∧ w2.voterSet = none)
    (hnow2 : parse w2.now.text = some w2.now) :
    (VoterContainer.VoterApi.AddPoll parse w db voterID pollID).2 = none ∧
      (∀ key, key ≠ VoterContainer.redisKeyFromId (toInt voterID) →
        (VoterContainer.VoterApi.AddPoll parse w db voterID pollID).1 key = db key) ∧
      (∀ grow, VoterContainer.VoterDb.GetVoter parse grow none
          (VoterContainer.VoterApi.AddPoll parse w db voterID pollID).1 (toInt voterID) =
        (⟨v.VoterID, v.FirstName, v.LastName,
          some (v.VoteHistory.getD [] ++ [⟨pollID, w.now⟩])⟩, none)) ∧
      (VoterContainer.VoterApi.AddPoll parse w2
        (VoterContainer.VoterApi.AddPoll parse w db voterID pollID).1 voterID pollID).2 =
        none ∧
      (∀ grow, VoterContainer.VoterDb.GetVoter parse grow none
          (VoterContainer.VoterApi.AddPoll parse w2
            (VoterContainer.VoterApi.AddPoll parse w db voterID pollID).1 voterID pollID).1
          (toInt voterID) =
        (⟨v.VoterID, v.FirstName, v.LastName,
          some (v.VoteHistory.getD [] ++ [⟨pollID, w.now⟩, ⟨pollID, w2.now⟩])⟩, none)) ∧
      (∀ (w3 : VoterContainer.World) (db3 : Redis) (voterID3 pollID3 : Nat) (e : String),
        (VoterContainer.VoterDb.GetVoter parse w3.grow w3.voterGet db3 (toInt voterID3)).2 =
            some e →
          VoterContainer.VoterApi.AddPoll parse w3 db3 voterID3 pollID3 = (db3, some e)) ∧
      (∀ (grow : Nat → Nat) (fault : Option String) (db3 : Redis) (id : Int),
        db3 (VoterContainer.redisKeyFromId id) = none →
          (VoterContainer.VoterDb.GetVoter parse grow fault db3 id).2 ≠ none) := by
  obtain ⟨hrun, hback⟩ := AddPoll_served parse w db voterID pollID v hvoterID hpollID hstored
    hid hhist hnow hexists hset
  have hhist1 : ∀ p ∈ (VoterContainer.Voter.AddPoll w.now v pollID).VoteHistory.getD [],
      p.PollID < 18446744073709551616 ∧ parse p.VoteDate.text = some p.VoteDate := by
    intro p hp
    simp only [VoterContainer.Voter.AddPoll, Option.getD_some, List.mem_append,
      List.mem_singleton] at hp
    rcases hp with hp | hp
    · exact hhist p hp
    · rw [hp]; exact ⟨hpollID, hnow⟩
  obtain ⟨-, hback2⟩ := AddPoll_served parse w2
    (VoterContainer.VoterApi.AddPoll parse w db voterID pollID).1 voterID pollID
    (VoterContainer.Voter.AddPoll w.now v pollID) hvoterID hpollID
    (by rw [hserved2.1]; exact hback w2.grow) hid hhist1 hnow2 hserved2.2.1 hserved2.2.2
  have hrun2 := AddPoll_served parse w2
    (VoterContainer.VoterApi.AddPoll parse w db voterID pollID).1 voterID pollID
    (VoterContainer.Voter.AddPoll w.now v pollID) hvoterID hpollID
    (by rw [hserved2.1]; exact hback w2.grow) hid hhist1 hnow2 hserved2.2.1 hserved2.2.2
  refine ⟨by rw [hrun], fun key hkey => by rw [hrun]; exact if_neg hkey, hback, ?_, ?_, ?_, ?_⟩
  · rw [hrun2.1]
  · intro grow
    rw [hback2 grow]
    simp [VoterContainer.Voter.AddPoll]
  · intro w3 db3 voterID3 pollID3 e h
    exact AddPoll_not_stored parse w3 db3 voterID3 pollID3 e h
  · intro grow fault db3 id hdb
    cases fault <;>
      simp [VoterContainer.VoterDb.GetVoter, VoterContainer.getItemFromRedis, JSONGet, hdb]

/-- Witness of C22, amended: Ada Lovelace, stored as voter 1 with an empty history, takes part in
poll 1 twice; her history then holds two entries for poll 1, in the order of the calls. -/
theorem AddPoll_appends_witness :
    VoterContainer.VoterDb.GetVoter VoterContainer.sampleParse (fun c => 2 * c) none
        (VoterContainer.VoterApi.AddPoll VoterContainer.sampleParse
          ⟨none, ⟨"2023-04-02T08:30:00.5+02:00"⟩, none, none, fun c => 2 * c⟩
          (VoterContainer.VoterApi.AddPoll VoterContainer.sampleParse
            ⟨none, ⟨"2023-04-01T12:00:00Z"⟩, none, none, fun c => 2 * c⟩
            VoterContainer.sampleVoters 1 1).1 1 1).1 (toInt 1) =
      (⟨1, "Ada", "Lovelace",
        some [⟨1, ⟨"2023-04-01T12:00:00Z"⟩⟩, ⟨1, ⟨"2023-04-02T08:30:00.5+02:00"⟩⟩]⟩, none) :=
  (AddPoll_appends VoterContainer.sampleParse
    ⟨none, ⟨"2023-04-01T12:00:00Z"⟩, none, none, fun c => 2 * c⟩
    ⟨none, ⟨"2023-04-02T08:30:00.5+02:00"⟩, none, none, fun c => 2 * c⟩
    VoterContainer.sampleVoters 1 1 (VoterContainer.NewVoter 1 "Ada" "Lovelace")
    (by decide) (by decide) (by decide) rfl
    (fun p hp => absurd hp (List.not_mem_nil p)) (by decide) rfl rfl ⟨rfl, rfl, rfl⟩
    (by decide)).2.2.2.2.1 (fun c => 2 * c)

/-- C23: after a crash between the two commit writes the Vote service cannot create
votes and reuses no ID.  Let the store hold the counter `c` (a counter document with the
number `c`, or none and `c = 0`) and, at the key of `c + 1`, a document that decodes as a
`Vote`.  A service that `NewVoteApi` starts on that store, the store answering its reads,
holds `idCnter = c`; and in every sequence of `AddVote` calls that follow, for every input
and every answer of the collaborators and of the store writes, each call whose duplicate
check is answered by the store returns the zero `Vote` and "Vote already exists!", issues
no request but the read of that key, and leaves the store and the receiver as they were:
no call returns an ID, and the document at the key of `c + 1` stays. -/
theorem AddVote_stuck_after_crash (b : Boot) (db : Redis) (c : Nat) (doc : JSON)
    (cs : List Call)
    (hping : b.ping = none) (hcnt : b.cntGet = none)
    (hc : c < 18446744073709551616)
    (hcounter : db RedisIDKey = some (.num c) ∨ (db RedisIDKey = none ∧ c = 0))
    (hdoc : db (redisKeyFromId (toInt (uintSucc c))) = some doc)
    (hdecode : (unmarshalVote doc {}).2 = none)
    (hreads : ∀ call ∈ cs, call.w.slotGet = none) :
    (NewVoteApi b db).2 = none ∧
      (NewVoteApi b db).1.idCnter = c ∧
      (AddVoteSeq cs (NewVoteApi b db).1 db).length = cs.length ∧
      (∀ r ∈ AddVoteSeq cs (NewVoteApi b db).1 db,
        r.vote = {} ∧ r.err = some "Vote already exists!" ∧ r.api = (NewVoteApi b db).1 ∧
          r.api.idCnter = c ∧ r.db = db ∧
          r.db (redisKeyFromId (toInt (uintSucc c))) = some doc ∧
          r.trace = [.jsonGet (redisKeyFromId (toInt (uintSucc c)))]) ∧
      returnedIDs (AddVoteSeq cs (NewVoteApi b db).1 db) = [] ∧
      (c + 1 < 9223372036854775808 →
        redisKeyFromId (toInt (uintSucc c)) = "vote:" ++ toString (c + 1)) := by
  have hload : (NewVoteApi b db).2 = none ∧ (NewVoteApi b db).1.idCnter = c := by
    rcases hcounter with h | ⟨h, h0⟩
    · exact NewVoteApi_loads b db _ c hping hcnt h (unmarshalUint_num c 0 hc)
    · rw [h0]; exact NewVoteApi_absent b db hping hcnt h
  have hkey : AddVote.redisKey (NewVoteApi b db).1 = redisKeyFromId (toInt (uintSucc c)) := by
    rw [AddVote.redisKey, hload.2]
  obtain ⟨hlen, hall⟩ := AddVoteSeq_duplicate (NewVoteApi b db).1 db cs (fun call hcall => by
    rw [hreads call hcall, hkey, getVoteFromRedis_present _ _ _ doc hdoc]
    exact hdecode)
  refine ⟨hload.1, hload.2, hlen, fun r hr => ?_, ?_, fun h => ?_⟩
  · obtain ⟨h1, h2, h3, h4, h5⟩ := hall r hr
    refine ⟨h1, h2, h3, ?_, h4, ?_, ?_⟩
    · rw [h3]; exact hload.2
    · rw [h4]; exact hdoc
    · rw [h5, hkey]
  · unfold returnedIDs
    rw [List.filter_eq_nil_iff.mpr]
    · rfl
    · intro r hr
      rw [(hall r hr).2.1]
      simp
  · have := AddVote_redisKey_decimal { idCnter := c } h
    exact this

/-- Witness of C23: the store a crash left with the counter 1 and the votes 1 and 2.  The
service starts with the counter 1, and two calls, one of them with a poll that does not
exist, return no ID. -/
theorem AddVote_stuck_after_crash_witness :
    (NewVoteApi ⟨fun _ => none, none, none⟩ sampleCrash).1.idCnter = 1 ∧
      returnedIDs (AddVoteSeq
        [⟨sampleWorld 200 200 200, 3, 1, 0⟩, ⟨sampleWorld 500 404 200, 4, 2, 1⟩]
        (NewVoteApi ⟨fun _ => none, none, none⟩ sampleCrash).1 sampleCrash) = [] :=
  have h := AddVote_stuck_after_crash ⟨fun _ => none, none, none⟩ sampleCrash 1
    (marshalVote ⟨2, 2, 1, 1⟩)
    [⟨sampleWorld 200 200 200, 3, 1, 0⟩, ⟨sampleWorld 500 404 200, 4, 2, 1⟩]
    rfl rfl (by decide) (Or.inl rfl) rfl (by decide)
    (by
      intro call hcall
      simp only [List.mem_cons, List.mem_singleton, List.not_mem_nil, or_false] at hcall
      rcases hcall with rfl | rfl <;> rfl)
  ⟨h.2.1, h.2.2.2.2.1⟩

end VoteAPI
